import Mathlib

/-! XSTOOLs: bit buffer, JTAG port, HostIo clients, API and USB port

A shallow embedding of `XstoolsLib/BitBuffer.cpp`, of `XstoolsLib/XsError.cpp`, of
`XstoolsLib/JtagPort.cpp` (TAP next-state table, framing, flush, TAP walks, TDI and
TDO shifts), of `XstoolsLib/HostIo.cpp`, `HostIoToMemory.cpp` and `HostIoToDut.cpp`,
of `XsMemRead` in `XstoolsApi/XstoolsApi.cpp` and of the opening and closing of
`XstoolsLib/LibusbPort.cpp`.

* `BitBuffer` is `deque<bool>`: a list of bits whose index 0 is the front
  (LSB end) and whose last index is the back (MSB end).
* `BitsType` is `unsigned long long`: a natural number kept below `2 ^ 64`;
  every left shift is reduced modulo `2 ^ 64`.
* `std::string` is a list of characters.
* A failed `assert` aborts the program: functions that contain an `assert`
  return `Option`, `none` standing for the abort. The same holds for `abort()`
  in `XsError::Severity` and for the front of an empty `deque`.
* The physical port is a log of the buffers written and the lengths requested,
  with the outcomes of the coming calls; the libusb library is a script of the
  values its coming calls return.
-/

namespace Xstools

/-! ## BitBuffer.h -/

/-- The bit buffer, `class BitBuffer : public deque<bool>`; index 0 is the front. -/
abbrev BitBuffer := List Bool

/-- The constant `BITS_TYPE_LENGTH = 8 * sizeof(BitsType)`, with `BitsType` the
64-bit `unsigned long long`. -/
def BITS_TYPE_LENGTH : Nat := 64

/-- Left shift `x << n` of a `BitsType` value: the result is reduced to 64 bits. A
shift count of the width 64 or more is undefined in C++ and has no result here. -/
def shl64 (x n : Nat) : Option Nat :=
  if n < BITS_TYPE_LENGTH then some ((x <<< n) % 2 ^ 64) else none

namespace BitBuffer

/-! ## BitBuffer.cpp -/

/-- The loop of `BitBuffer::BitBuffer(BitsType, unsigned int)`: `n` iterations left, the
state is the buffer built so far and `mask`. Each iteration pushes
`!!(word & mask)` at the back and shifts `mask` left by one, within 64 bits. -/
def fromValLoop (word : Nat) : Nat → BitBuffer × Nat → BitBuffer × Nat
  | 0, st => st
  | n + 1, (buf, mask) =>
      fromValLoop word n (buf ++ [decide (word &&& mask ≠ 0)], (mask <<< 1) % 2 ^ 64)

/-- The constructor `BitBuffer::BitBuffer(BitsType val, unsigned int numBits)`. Its
closing assertion `mask == ( (BitsType)1 << numBits )` shifts by `numBits`: for
`numBits = 64`, which the first assertion lets through, that shift is undefined and
the constructor has no result. -/
def fromVal (val numBits : Nat) : Option BitBuffer :=
  if numBits ≤ BITS_TYPE_LENGTH then
    if numBits = 0 then some []
    else
      let st := fromValLoop val numBits ([], 1)
      match shl64 1 numBits with
      | none => none
      | some shifted => if st.2 = shifted then some st.1 else none
  else none

/-- The loop of `BitBuffer::BitBuffer(string const &)`: index `i` runs from
`length - 1` down to 0, pushing `rString[i] == '1'` at the back. The first
argument is `i + 1`. -/
def fromStringLoop (s : List Char) : Nat → BitBuffer → BitBuffer
  | 0, buf => buf
  | i + 1, buf => fromStringLoop s i (buf ++ [decide (s.getD i '0' = '1')])

/-- The constructor `BitBuffer::BitBuffer(string const &rString)`. -/
def fromString (s : List Char) : BitBuffer :=
  fromStringLoop s s.length []

/-- The loop of `BitBuffer::operator BitsType`: index `i` runs from `length - 1`
down to 0 and `word = (word << 1) | (b[i] ? 1 : 0)`. The first argument is `i + 1`. -/
def toBitsTypeLoop (b : BitBuffer) : Nat → Nat → Nat
  | 0, word => word
  | i + 1, word =>
      toBitsTypeLoop b i ((word <<< 1) % 2 ^ 64 ||| (if b.getD i false then 1 else 0))

/-- The body of `BitBuffer::operator BitsType` below its two assertions:
`length = min(size(), BITS_TYPE_LENGTH)` and the accumulation loop. -/
def toBitsTypeRaw (b : BitBuffer) : Nat :=
  toBitsTypeLoop b (min b.length BITS_TYPE_LENGTH) 0

/-- The conversion `BitBuffer::operator BitsType`, with `assert(size() > 0)` and
`assert(size() <= BITS_TYPE_LENGTH)`. -/
def toBitsType (b : BitBuffer) : Option Nat :=
  if 0 < b.length then
    if b.length ≤ BITS_TYPE_LENGTH then some (toBitsTypeRaw b) else none
  else none

/-- The loop of `BitBuffer::operator string`: index `i` runs from `size() - 1` down
to 0 and `s += b[i] ? "1" : "0"`. The first argument is `i + 1`. -/
def toStrLoop (b : BitBuffer) : Nat → List Char → List Char
  | 0, s => s
  | i + 1, s => toStrLoop b i (s ++ (if b.getD i false then ['1'] else ['0']))

/-- The conversion `BitBuffer::operator string`. -/
def toStr (b : BitBuffer) : List Char :=
  toStrLoop b b.length []

/-- The loop of `BitBuffer::GetBits`: `n` iterations left, index `i` ascending,
`result.push_back((*this)[i])`. The call resolves to `push_back(BitsType, 1)`, whose
single-bit branch pushes `!!val`, the bit itself. -/
def GetBitsLoop (b : BitBuffer) : Nat → Nat → BitBuffer → BitBuffer
  | 0, _, result => result
  | n + 1, i, result => GetBitsLoop b n (i + 1) (result ++ [b.getD i false])

/-- The slice `BitBuffer::GetBits(first, last)`, with `assert(first <= last)` and
`assert(last <= size())`. -/
def GetBits (b : BitBuffer) (first last : Nat) : Option BitBuffer :=
  if first ≤ last then
    if last ≤ b.length then some (GetBitsLoop b (last - first) first []) else none
  else none

/-- The peek `BitBuffer::back(numBits)`. -/
def back (b : BitBuffer) (numBits : Nat) : Option Nat :=
  if 0 < numBits then
    if numBits ≤ BITS_TYPE_LENGTH then
      if numBits ≤ b.length then
        if numBits = 1 then some (if b.getLastD false then 1 else 0)
        else (GetBits b (b.length - numBits) b.length).bind toBitsType
      else none
    else none
  else none

/-- The peek `BitBuffer::backString(numBits)`. -/
def backString (b : BitBuffer) (numBits : Nat) : Option (List Char) :=
  if numBits ≤ b.length then
    if numBits = 1 then some (if b.getLastD false then ['1'] else ['0'])
    else (GetBits b (b.length - numBits) b.length).map toStr
  else none

/-- The peek `BitBuffer::front(numBits)`. -/
def front (b : BitBuffer) (numBits : Nat) : Option Nat :=
  if 0 < numBits then
    if numBits ≤ BITS_TYPE_LENGTH then
      if numBits ≤ b.length then
        if numBits = 1 then some (if b.headD false then 1 else 0)
        else (GetBits b 0 numBits).bind toBitsType
      else none
    else none
  else none

/-- The peek `BitBuffer::frontString(numBits)`. -/
def frontString (b : BitBuffer) (numBits : Nat) : Option (List Char) :=
  if numBits ≤ b.length then
    if numBits = 1 then some (if b.headD false then ['1'] else ['0'])
    else (GetBits b 0 numBits).map toStr
  else none

/-- The loop of `BitBuffer::push_back(BitBuffer const &)`: `n` iterations left, index
`i` ascending, `deque<bool>::push_back(rBitBuffer2[i])`. -/
def push_backLoop (b2 : BitBuffer) : Nat → Nat → BitBuffer → BitBuffer
  | 0, _, b => b
  | n + 1, i, b => push_backLoop b2 n (i + 1) (b ++ [b2.getD i false])

/-- The operation `BitBuffer::push_back(BitBuffer const &rBitBuffer2)`. -/
def push_back (b b2 : BitBuffer) : BitBuffer :=
  push_backLoop b2 b2.length 0 b

/-- The operation `BitBuffer::push_back(BitsType val, unsigned int numBits)`. -/
def push_back_val (b : BitBuffer) (val numBits : Nat) : Option BitBuffer :=
  if numBits = 1 then some (b ++ [decide (val ≠ 0)])
  else (fromVal val numBits).map (push_back b)

/-- The loop of `BitBuffer::push_front(BitBuffer const &)`: index `i` runs from
`size() - 1` down to 0, `deque<bool>::push_front(rBitBuffer2[i])`. The first argument
is `i + 1`. -/
def push_frontLoop (b2 : BitBuffer) : Nat → BitBuffer → BitBuffer
  | 0, b => b
  | i + 1, b => push_frontLoop b2 i (b2.getD i false :: b)

/-- The operation `BitBuffer::push_front(BitBuffer const &rBitBuffer2)`. -/
def push_front (b b2 : BitBuffer) : BitBuffer :=
  push_frontLoop b2 b2.length b

/-- The operation `BitBuffer::push_front(BitsType val, unsigned int numBits)`. -/
def push_front_val (b : BitBuffer) (val numBits : Nat) : Option BitBuffer :=
  if numBits = 1 then some (decide (val ≠ 0) :: b)
  else (fromVal val numBits).map (push_front b)

/-- The operation `BitBuffer::pop_back(numBits)`: `erase(end() - numBits, end())`. -/
def pop_back (b : BitBuffer) (numBits : Nat) : Option BitBuffer :=
  if numBits ≤ b.length then some (b.take (b.length - numBits)) else none

/-- The operation `BitBuffer::pop_front(numBits)`: `erase(begin(), begin() + numBits)`. -/
def pop_front (b : BitBuffer) (numBits : Nat) : Option BitBuffer :=
  if numBits ≤ b.length then some (b.drop numBits) else none

/-- The operator `BitBuffer::operator+=`: `push_front(rBitBuffer2)`. -/
def addAssign (b b2 : BitBuffer) : BitBuffer :=
  push_front b b2

/-- The operator `BitBuffer::operator+`: `result = *this; result += rBitBuffer2`. -/
def add (b b2 : BitBuffer) : BitBuffer :=
  addAssign b b2

/-! ## Specification-side readings of a bit buffer -/

/-- The unsigned value of a list of bits, least significant bit first:
the sum of `2 ^ i` over the positions `i` that hold a 1. -/
def bitsVal : List Bool → Nat
  | [] => 0
  | x :: xs => x.toNat + 2 * bitsVal xs

/-- The binary digit written for a bit. -/
def bitChar (x : Bool) : Char := if x then '1' else '0'

/-- A string is a binary-digit string when each character is `'0'` or `'1'`. -/
def IsBinary (s : List Char) : Prop := ∀ c ∈ s, c = '0' ∨ c = '1'

instance (s : List Char) : Decidable (IsBinary s) := by
  unfold IsBinary
  infer_instance

end BitBuffer

/-! ## JtagPort.h and JtagPort.cpp -/

/-- The enumeration `TapStateType`. -/
inductive TapStateType
  | INVALID_TAP_STATE
  | TEST_LOGIC_RESET
  | RUN_TEST_IDLE
  | SELECT_DR_SCAN
  | SELECT_IR_SCAN
  | CAPTURE_DR
  | CAPTURE_IR
  | SHIFT_DR
  | SHIFT_IR
  | EXIT1_DR
  | EXIT1_IR
  | PAUSE_DR
  | PAUSE_IR
  | EXIT2_DR
  | EXIT2_IR
  | UPDATE_DR
  | UPDATE_IR
  deriving DecidableEq, Repr

namespace TapStateType

/-- The numeric code of each enumerator of `TapStateType`. -/
def code : TapStateType → Nat
  | INVALID_TAP_STATE => 0
  | TEST_LOGIC_RESET => 1
  | RUN_TEST_IDLE => 2
  | SELECT_DR_SCAN => 3
  | SELECT_IR_SCAN => 4
  | CAPTURE_DR => 5
  | CAPTURE_IR => 6
  | SHIFT_DR => 7
  | SHIFT_IR => 8
  | EXIT1_DR => 9
  | EXIT1_IR => 10
  | PAUSE_DR => 11
  | PAUSE_IR => 12
  | EXIT2_DR => 13
  | EXIT2_IR => 14
  | UPDATE_DR => 15
  | UPDATE_IR => 16

end TapStateType

open TapStateType in
/-- The array `JtagPort::nextTapState[17][2]`: the row is the code of the current
state, the column is the value of TMS. -/
def nextTapState : List (List TapStateType) :=
  [ [INVALID_TAP_STATE, INVALID_TAP_STATE], -- INVALID_STATE
    [RUN_TEST_IDLE, TEST_LOGIC_RESET],      -- TEST_LOGIC_RESET
    [RUN_TEST_IDLE, SELECT_DR_SCAN],        -- RUN_TEST_IDLE
    [CAPTURE_DR, SELECT_IR_SCAN],           -- SELECT_DR_SCAN
    [CAPTURE_IR, TEST_LOGIC_RESET],         -- SELECT_IR_SCAN
    [SHIFT_DR, EXIT1_DR],                   -- CAPTURE_DR
    [SHIFT_IR, EXIT1_IR],                   -- CAPTURE_IR
    [SHIFT_DR, EXIT1_DR],                   -- SHIFT_DR
    [SHIFT_IR, EXIT1_IR],                   -- SHIFT_IR
    [PAUSE_DR, UPDATE_DR],                  -- EXIT1_DR
    [PAUSE_IR, UPDATE_IR],                  -- EXIT1_IR
    [PAUSE_DR, EXIT2_DR],                   -- PAUSE_DR
    [PAUSE_IR, EXIT2_IR],                   -- PAUSE_IR
    [SHIFT_DR, UPDATE_DR],                  -- EXIT2_DR
    [SHIFT_IR, UPDATE_IR],                  -- EXIT2_IR
    [RUN_TEST_IDLE, SELECT_DR_SCAN],        -- UPDATE_DR
    [RUN_TEST_IDLE, SELECT_DR_SCAN] ]       -- UPDATE_IR

/-- The table access `nextTapState[state][tms ? 1 : 0]`. -/
def nextTapStateAt (state : TapStateType) (tms : Bool) : TapStateType :=
  ((nextTapState.getD state.code []).getD (if tms then 1 else 0)
    TapStateType.INVALID_TAP_STATE)

/-! ## XsError.h and XsError.cpp -/

/-- The enumeration `ErrorSeverityType`. -/
inductive ErrorSeverityType
  | NO_XS_ERROR
  | MINOR_XS_ERROR
  | MAJOR_XS_ERROR
  | FATAL_XS_ERROR
  deriving DecidableEq, Repr

/-- The numeric code of each enumerator of `ErrorSeverityType`. -/
def ErrorSeverityType.code : ErrorSeverityType → Nat
  | .NO_XS_ERROR => 0
  | .MINOR_XS_ERROR => 1
  | .MAJOR_XS_ERROR => 2
  | .FATAL_XS_ERROR => 3

/-- The members `mSeverity` and `mMsg` of an `XsError` object (`mNumErrors` is set to 0
by the constructor and never read). -/
structure XsError where
  mSeverity : ErrorSeverityType
  mMsg : List Char
  deriving DecidableEq, Repr

namespace XsError

/-- The setter `XsError::Severity(severity)`: it stores the severity, and for
`FATAL_XS_ERROR` prints the object and calls `abort()`. -/
def SetSeverity (e : XsError) (severity : ErrorSeverityType) : Option XsError :=
  match severity with
  | .FATAL_XS_ERROR => none
  | sev => some { e with mSeverity := sev }

/-- The constructor `XsError::XsError(severity, msg)`: `Severity(severity)` first, then
`mMsg = rMsg`. -/
def construct (severity : ErrorSeverityType) (msg : List Char) : Option XsError :=
  (SetSeverity ⟨.NO_XS_ERROR, []⟩ severity).map fun e => { e with mMsg := msg }

/-- The object `XsError()` and `XsError(NO_XS_ERROR)`: no error, empty message. -/
def noError : XsError := ⟨.NO_XS_ERROR, []⟩

/-- The test `XsError::IsError()`. -/
def IsError (e : XsError) : Bool :=
  if e.mSeverity = .NO_XS_ERROR then false else true

/-- The macro `MAX(a, b)` on two severities. -/
def MAX (a b : ErrorSeverityType) : ErrorSeverityType :=
  if a.code > b.code then a else b

/-- The operator `XsError::operator|=`: the messages are concatenated, with the
separator between two errors, and `Severity(MAX(...))` stores the larger severity. -/
def orAssign (a b : XsError) : Option XsError :=
  let a1 : XsError :=
    if a.IsError && b.IsError then { a with mMsg := a.mMsg ++ "\n- AND -\n".toList } else a
  let a2 : XsError := if b.IsError then { a1 with mMsg := a1.mMsg ++ b.mMsg } else a1
  SetSeverity a2 (MAX a2.mSeverity b.mSeverity)

end XsError

/-! ## Port.h -/

/-- What a call of `Port::Read` or `Port::Write` that returns can hand back: no error,
or an error below Fatal with its message (an `XsError` of Fatal severity is never
returned, its construction aborts). -/
inductive PortStatus
  | ok
  | minor (msg : List Char)
  | major (msg : List Char)
  deriving DecidableEq, Repr

/-- The `XsError` object a port call returns. -/
def PortStatus.toXsError : PortStatus → XsError
  | .ok => XsError.noError
  | .minor msg => ⟨.MINOR_XS_ERROR, msg⟩
  | .major msg => ⟨.MAJOR_XS_ERROR, msg⟩

/-- The physical port behind the abstract class `Port`, as the JTAG layer sees it:
the buffers handed to `Write` and the lengths asked of `Read` so far, oldest first,
and the outcomes of the coming calls (a status per `Write`; a status and the bytes
delivered per `Read`). Bytes are values of `DataType`, `unsigned char`. -/
structure Port where
  written : List (List Nat)
  readRequests : List Nat
  writeResults : List PortStatus
  readResults : List (PortStatus × List Nat)
  deriving DecidableEq, Repr

namespace Port

/-- The constant `Port::DATA_LENGTH = 8 * sizeof(DataType)`. -/
def DATA_LENGTH : Nat := 8

/-- The call `Port::Write(rDataToDevice)`: the buffer goes to the device and the
status of this call is returned. What is left in the caller's buffer is not
modelled, no caller reads it again. -/
def Write (port : Port) (rDataToDevice : List Nat) : XsError × Port :=
  ((port.writeResults.headD PortStatus.ok).toXsError,
    { port with
      written := port.written ++ [rDataToDevice]
      writeResults := port.writeResults.tail })

/-- The call `Port::Read(rqstdLength, rDataFromDevice)`: the bytes the device delivers
are pushed at the back of the buffer and the status of this call is returned. -/
def Read (port : Port) (rqstdLength : Nat) (rDataFromDevice : List Nat) :
    XsError × Port × List Nat :=
  let reply := port.readResults.headD (PortStatus.ok, [])
  (reply.1.toXsError,
    { port with
      readRequests := port.readRequests ++ [rqstdLength]
      readResults := port.readResults.tail },
    rDataFromDevice ++ reply.2.map (fun x => x % 256))

end Port

/-- The private state of a `JtagPort` object: the physical port `mpPhysPort` points to
(`none` for a NULL pointer), the software TAP state and the two transmit buffers. -/
structure JtagPort where
  mpPhysPort : Option Port
  mTapState : TapStateType
  mTmsBitBuffer : BitBuffer
  mTdiBitBuffer : BitBuffer
  deriving DecidableEq, Repr

/-- The operation `JtagPort::ShiftTms(bool bit)`: `mTmsBitBuffer.push_back(bit)`, which
resolves to `push_back(BitsType, 1)` and pushes the bit itself, then
`mTapState = nextTapState[mTapState][bit ? 1 : 0]`. -/
def JtagPort.ShiftTms (p : JtagPort) (bit : Bool) : JtagPort :=
  { p with
    mTmsBitBuffer := p.mTmsBitBuffer ++ [bit]
    mTapState := nextTapStateAt p.mTapState bit }

/-- Apply the next-state table `n` times in a row with the same TMS value. -/
def tapAfter (tms : Bool) : Nat → TapStateType → TapStateType
  | 0, s => s
  | n + 1, s => tapAfter tms n (nextTapStateAt s tms)

/-- The next-state function of the TAP controller of IEEE Std 1149.1, written from
the standard's state diagram; the sentinel that is not an IEEE state stays where
it is. -/
def ieee1149Next : TapStateType → Bool → TapStateType
  | .TEST_LOGIC_RESET, false => .RUN_TEST_IDLE
  | .TEST_LOGIC_RESET, true => .TEST_LOGIC_RESET
  | .RUN_TEST_IDLE, false => .RUN_TEST_IDLE
  | .RUN_TEST_IDLE, true => .SELECT_DR_SCAN
  | .SELECT_DR_SCAN, false => .CAPTURE_DR
  | .SELECT_DR_SCAN, true => .SELECT_IR_SCAN
  | .CAPTURE_DR, false => .SHIFT_DR
  | .CAPTURE_DR, true => .EXIT1_DR
  | .SHIFT_DR, false => .SHIFT_DR
  | .SHIFT_DR, true => .EXIT1_DR
  | .EXIT1_DR, false => .PAUSE_DR
  | .EXIT1_DR, true => .UPDATE_DR
  | .PAUSE_DR, false => .PAUSE_DR
  | .PAUSE_DR, true => .EXIT2_DR
  | .EXIT2_DR, false => .SHIFT_DR
  | .EXIT2_DR, true => .UPDATE_DR
  | .UPDATE_DR, false => .RUN_TEST_IDLE
  | .UPDATE_DR, true => .SELECT_DR_SCAN
  | .SELECT_IR_SCAN, false => .CAPTURE_IR
  | .SELECT_IR_SCAN, true => .TEST_LOGIC_RESET
  | .CAPTURE_IR, false => .SHIFT_IR
  | .CAPTURE_IR, true => .EXIT1_IR
  | .SHIFT_IR, false => .SHIFT_IR
  | .SHIFT_IR, true => .EXIT1_IR
  | .EXIT1_IR, false => .PAUSE_IR
  | .EXIT1_IR, true => .UPDATE_IR
  | .PAUSE_IR, false => .PAUSE_IR
  | .PAUSE_IR, true => .EXIT2_IR
  | .EXIT2_IR, false => .SHIFT_IR
  | .EXIT2_IR, true => .UPDATE_IR
  | .UPDATE_IR, false => .RUN_TEST_IDLE
  | .UPDATE_IR, true => .SELECT_DR_SCAN
  | .INVALID_TAP_STATE, _ => .INVALID_TAP_STATE

/-! ## JtagPort.cpp: framing and the operations on the port

The opcode `JTAG_CMD` comes from `UsbCmd.h`, which is not among the sources: it is a
parameter of every definition that writes a frame. Where a callee always returns
`XsError(NO_XS_ERROR)`, its caller or-assigns `XsError.noError`. -/

namespace JtagPort

/-- The flag `GET_TDO_MASK`. -/
def GET_TDO_MASK : Nat := 0x01

/-- The flag `PUT_TMS_MASK`. -/
def PUT_TMS_MASK : Nat := 0x02

/-- The flag `TMS_VAL_MASK`. -/
def TMS_VAL_MASK : Nat := 0x04

/-- The flag `PUT_TDI_MASK`. -/
def PUT_TDI_MASK : Nat := 0x08

/-- The flag `TDI_VAL_MASK`. -/
def TDI_VAL_MASK : Nat := 0x10

/-- The test `JtagPort::IsBufferEmpty()`. -/
def IsBufferEmpty (p : JtagPort) : Bool :=
  decide (p.mTmsBitBuffer = []) && decide (p.mTdiBitBuffer = [])

/-- The helper `JtagPort::PrependJtagCmdHdr(numBits, flags, rBuffer)`: six
`push_front` calls, the flags first and `JTAG_CMD` last. -/
def PrependJtagCmdHdr (JTAG_CMD numBits flags : Nat) (rBuffer : List Nat) : List Nat :=
  let b1 := flags :: rBuffer
  let b2 := ((numBits >>> 24) &&& 0xFF) :: b1
  let b3 := ((numBits >>> 16) &&& 0xFF) :: b2
  let b4 := ((numBits >>> 8) &&& 0xFF) :: b3
  let b5 := ((numBits >>> 0) &&& 0xFF) :: b4
  JTAG_CMD :: b5

/-- The loop of `JtagPort::PackBitsIntoWords`: while bits are left, the front
`min(DATA_LENGTH, size)` bits are read as a number, pushed at the back of the word
buffer as a `DataType`, and popped. The first argument bounds the number of
iterations; `size` of them always suffice, each one pops at least one bit. -/
def PackBitsLoop : Nat → BitBuffer → List Nat → Option (BitBuffer × List Nat)
  | 0, rBits, rWords => if 0 < rBits.length then none else some (rBits, rWords)
  | fuel + 1, rBits, rWords =>
      if 0 < rBits.length then
        (BitBuffer.front rBits (min Port.DATA_LENGTH rBits.length)).bind fun word =>
          (BitBuffer.pop_front rBits (min Port.DATA_LENGTH rBits.length)).bind fun rest =>
            PackBitsLoop fuel rest (rWords ++ [word % 256])
      else some (rBits, rWords)

/-- The helper `JtagPort::PackBitsIntoWords(rBits, rWords)`, with its three
assertions; the result is the drained bit buffer and the word buffer. -/
def PackBitsIntoWords (rBits : BitBuffer) (rWords : List Nat) :
    Option (BitBuffer × List Nat) :=
  if rBits = [] then none
  else
    (PackBitsLoop rBits.length rBits rWords).bind fun r =>
      if r.1 = [] then (if r.2 = [] then none else some r) else none

/-- The loop of `JtagPort::InterleaveBuffers`: while the first buffer has a byte, the
fronts of both are pushed at the back of the result and popped; the front of an
empty buffer is undefined. -/
def InterleaveLoop : List Nat → List Nat → List Nat → Option (List Nat)
  | [], _, rResult => some rResult
  | _ :: _, [], _ => none
  | x :: rBuffer1, y :: rBuffer2, rResult => InterleaveLoop rBuffer1 rBuffer2 (rResult ++ [x, y])

/-- The helper `JtagPort::InterleaveBuffers(rBuffer1, rBuffer2, rResult)`, with its
assertions (the loop leaves both inputs empty when their sizes agree). -/
def InterleaveBuffers (rBuffer1 rBuffer2 rResult : List Nat) : Option (List Nat) :=
  if rBuffer1.length = rBuffer2.length then
    (InterleaveLoop rBuffer1 rBuffer2 rResult).bind fun r =>
      if r = [] then none else some r
  else none

/-- The end of `JtagPort::Flush`, lines 360 to 367: the write buffer must hold
something, it is written to the port, and both bit buffers must be empty. -/
def FlushWrite (port : Port) (p : JtagPort) (error : XsError) (write_buffer : List Nat) :
    Option (XsError × JtagPort) :=
  if write_buffer = [] then none
  else
    (XsError.orAssign error (port.Write write_buffer).1).bind fun error1 =>
      if IsBufferEmpty { p with mpPhysPort := some (port.Write write_buffer).2 } then
        some (error1, { p with mpPhysPort := some (port.Write write_buffer).2 })
      else none

/-- The operation `JtagPort::Flush()`. The first argument bounds the depth of the
calls of `Flush` by itself: the branch for a single TMS bit calls it twice, on
buffers that take one of the three framing branches, so depth 2 is enough. -/
def FlushFuel (JTAG_CMD : Nat) : Nat → JtagPort → Option (XsError × JtagPort)
  | 0, _ => none
  | fuel + 1, p =>
      if IsBufferEmpty p then none
      else
        match p.mpPhysPort with
        | none => none
        | some port =>
          if p.mTdiBitBuffer = [] then
            -- Sending only TMS bits.
            (XsError.orAssign XsError.noError XsError.noError).bind fun error1 =>
              (PackBitsIntoWords p.mTmsBitBuffer
                  (PrependJtagCmdHdr JTAG_CMD p.mTmsBitBuffer.length PUT_TMS_MASK [])).bind
                fun r =>
                  (XsError.orAssign error1 XsError.noError).bind fun error2 =>
                    FlushWrite port { p with mTmsBitBuffer := r.1 } error2 r.2
          else if p.mTmsBitBuffer = [] then
            -- Sending only TDI bits.
            (XsError.orAssign XsError.noError XsError.noError).bind fun error1 =>
              (PackBitsIntoWords p.mTdiBitBuffer
                  (PrependJtagCmdHdr JTAG_CMD p.mTdiBitBuffer.length PUT_TDI_MASK [])).bind
                fun r =>
                  (XsError.orAssign error1 XsError.noError).bind fun error2 =>
                    FlushWrite port { p with mTdiBitBuffer := r.1 } error2 r.2
          else if p.mTmsBitBuffer.length = p.mTdiBitBuffer.length then
            -- Sending TDI and TMS bits.
            (XsError.orAssign XsError.noError XsError.noError).bind fun error1 =>
              (PackBitsIntoWords p.mTmsBitBuffer []).bind fun tms =>
                (XsError.orAssign error1 XsError.noError).bind fun error2 =>
                  (PackBitsIntoWords p.mTdiBitBuffer []).bind fun tdi =>
                    (XsError.orAssign error2 XsError.noError).bind fun error3 =>
                      (InterleaveBuffers tms.2 tdi.2
                          (PrependJtagCmdHdr JTAG_CMD p.mTdiBitBuffer.length
                            (PUT_TDI_MASK ||| PUT_TMS_MASK) [])).bind
                        fun write_buffer =>
                          (XsError.orAssign error3 XsError.noError).bind fun error4 =>
                            FlushWrite port
                              { p with mTmsBitBuffer := tms.1, mTdiBitBuffer := tdi.1 }
                              error4 write_buffer
          else if p.mTmsBitBuffer.length = 1 then
            (BitBuffer.back p.mTmsBitBuffer 1).bind fun last_tms_bit =>
              (BitBuffer.pop_back p.mTmsBitBuffer 1).bind fun tms1 =>
                (BitBuffer.back p.mTdiBitBuffer 1).bind fun last_tdi_bit =>
                  (BitBuffer.pop_back p.mTdiBitBuffer 1).bind fun tdi1 =>
                    -- Send the first N-1 TDI bits.
                    (FlushFuel JTAG_CMD fuel
                        { p with mTmsBitBuffer := tms1, mTdiBitBuffer := tdi1 }).bind
                      fun r1 =>
                        (XsError.orAssign XsError.noError r1.1).bind fun error1 =>
                          (BitBuffer.push_back_val r1.2.mTmsBitBuffer last_tms_bit 1).bind
                            fun tms2 =>
                              (BitBuffer.push_back_val r1.2.mTdiBitBuffer last_tdi_bit 1).bind
                                fun tdi2 =>
                                  -- Send the last TMS and TDI bits.
                                  (FlushFuel JTAG_CMD fuel
                                      { r1.2 with
                                        mTmsBitBuffer := tms2
                                        mTdiBitBuffer := tdi2 }).bind
                                    fun r2 =>
                                      (XsError.orAssign error1 r2.1).map fun error2 =>
                                        (error2, r2.2)
          else
            -- assert( 1 == 0 ), then the Fatal error object.
            if (1 : Nat) = 0 then
              (XsError.construct .FATAL_XS_ERROR
                  "Mismatched # of TMS and TDI bits".toList).bind fun fatal =>
                (XsError.orAssign XsError.noError fatal).map fun error1 => (error1, p)
            else none

/-- The operation `JtagPort::Flush()`. -/
def Flush (JTAG_CMD : Nat) (p : JtagPort) : Option (XsError × JtagPort) :=
  FlushFuel JTAG_CMD 2 p

/-- The loop of `JtagPort::GoThruTapStates` over the states given before the closing
`-1`: the current state must be one of the sixteen valid ones, TMS is 1 exactly
when the TMS=1 successor is the wanted state, the bit is queued with `ShiftTms`, and
the wanted state must have been reached. -/
def GoThruLoop : List TapStateType → XsError → JtagPort → Option (XsError × JtagPort)
  | [], error, p => some (error, p)
  | nextState :: rest, error, p =>
      if TapStateType.TEST_LOGIC_RESET.code ≤ p.mTapState.code ∧
          p.mTapState.code ≤ TapStateType.UPDATE_IR.code then
        (XsError.orAssign error XsError.noError).bind fun error1 =>
          if (p.ShiftTms (decide (nextTapStateAt p.mTapState true = nextState))).mTapState
              = nextState then
            GoThruLoop rest error1
              (p.ShiftTms (decide (nextTapStateAt p.mTapState true = nextState)))
          else none
      else none

/-- The operation `JtagPort::GoThruTapStates(nextState, ...)`; the argument is the
list of states that precede the closing `-1`. -/
def GoThruTapStates (JTAG_CMD : Nat) (p : JtagPort) (states : List TapStateType) :
    Option (XsError × JtagPort) :=
  if IsBufferEmpty p then
    (GoThruLoop states XsError.noError p).bind fun r =>
      (Flush JTAG_CMD r.2).bind fun f =>
        (XsError.orAssign r.1 f.1).map fun error => (error, f.2)
  else none

/-- The operation `JtagPort::ResetTap()`. -/
def ResetTap (JTAG_CMD : Nat) (p : JtagPort) : Option (XsError × JtagPort) :=
  if IsBufferEmpty p then
    (XsError.orAssign XsError.noError XsError.noError).bind fun error1 =>
      (XsError.orAssign error1 XsError.noError).bind fun error2 =>
        (XsError.orAssign error2 XsError.noError).bind fun error3 =>
          (XsError.orAssign error3 XsError.noError).bind fun error4 =>
            (XsError.orAssign error4 XsError.noError).bind fun error5 =>
              (Flush JTAG_CMD
                  (((((p.ShiftTms true).ShiftTms true).ShiftTms true).ShiftTms true).ShiftTms
                    true)).bind
                fun f =>
                  (XsError.orAssign error5 f.1).map fun error =>
                    (error, { f.2 with mTapState := .TEST_LOGIC_RESET })
  else none

/-- The operation `JtagPort::ShiftTdi(tdiBits, exitShift, doFlush)`. -/
def ShiftTdi (JTAG_CMD : Nat) (p : JtagPort) (tdiBits : BitBuffer)
    (exitShift doFlush : Bool) : Option (XsError × JtagPort) :=
  if p.mTmsBitBuffer = [] then
    if p.mTapState = .SHIFT_DR ∨ p.mTapState = .SHIFT_IR then
      let p1 : JtagPort :=
        { p with mTdiBitBuffer := BitBuffer.push_back p.mTdiBitBuffer tdiBits }
      let p2 : JtagPort := if exitShift then p1.ShiftTms true else p1
      if doFlush then
        (Flush JTAG_CMD p2).bind fun f =>
          (XsError.orAssign XsError.noError f.1).map fun error => (error, f.2)
      else some (XsError.noError, p2)
    else none
  else none

/-- The loop of the non-exiting branch of `JtagPort::ShiftTdo`: while `i` is at least
`DATA_LENGTH`, the front byte of the receive buffer is pushed on the TDO buffer as 8
bits and popped, and `i` drops by 8. The front of an empty receive buffer is
undefined. The result is `i`, the receive buffer and the TDO buffer. -/
def ShiftTdoLoop : List Nat → Nat → BitBuffer → Option (Nat × List Nat × BitBuffer)
  | [], i, rTdoBuffer =>
      if Port.DATA_LENGTH ≤ i then none else some (i, [], rTdoBuffer)
  | x :: rcv_buffer, i, rTdoBuffer =>
      if Port.DATA_LENGTH ≤ i then
        (BitBuffer.push_back_val rTdoBuffer x Port.DATA_LENGTH).bind fun tdo =>
          ShiftTdoLoop rcv_buffer (i - Port.DATA_LENGTH) tdo
      else some (i, x :: rcv_buffer, rTdoBuffer)

/-- The call `JtagPort::ShiftTdo(numBits, rTdoBuffer, false)`: the two assertions
and the branch that stays in the shift state. A NULL port cannot be written to. -/
def ShiftTdoStay (JTAG_CMD : Nat) (p : JtagPort) (numBits : Nat) (rTdoBuffer : BitBuffer) :
    Option (XsError × JtagPort × BitBuffer) :=
  if IsBufferEmpty p then
    if p.mTapState = .SHIFT_DR ∨ p.mTapState = .SHIFT_IR then
      (XsError.orAssign XsError.noError XsError.noError).bind fun error1 =>
        match p.mpPhysPort with
        | none => none
        | some port =>
          let w := port.Write (PrependJtagCmdHdr JTAG_CMD numBits GET_TDO_MASK [])
          (XsError.orAssign error1 w.1).bind fun error2 =>
            let r := w.2.Read ((numBits + Port.DATA_LENGTH - 1) / Port.DATA_LENGTH) []
            (XsError.orAssign error2 r.1).bind fun error3 =>
              (ShiftTdoLoop r.2.2 numBits rTdoBuffer).bind fun l =>
                if l.2.1.length ≤ 1 then
                  if l.1 ≠ 0 then
                    match l.2.1 with
                    | [] => none
                    | x :: _ =>
                      (BitBuffer.push_back_val l.2.2 x l.1).map fun tdo =>
                        (error3, { p with mpPhysPort := some r.2.1 }, tdo)
                  else some (error3, { p with mpPhysPort := some r.2.1 }, l.2.2)
                else none
    else none
  else none

/-- The operation `JtagPort::ShiftTdo(numBits, rTdoBuffer, exitShift)`. With
`exitShift` it calls itself once, without `exitShift`, for `numBits - 1` bits; the
subtraction is on the unsigned 64-bit `Port::LengthType`, so for `numBits = 0` it
wraps to `2 ^ 64 - 1`. -/
def ShiftTdo (JTAG_CMD : Nat) (p : JtagPort) (numBits : Nat) (rTdoBuffer : BitBuffer)
    (exitShift : Bool) : Option (XsError × JtagPort × BitBuffer) :=
  if exitShift then
    if IsBufferEmpty p then
      if p.mTapState = .SHIFT_DR ∨ p.mTapState = .SHIFT_IR then
        (ShiftTdoStay JTAG_CMD p ((numBits + 2 ^ 64 - 1) % 2 ^ 64) rTdoBuffer).bind fun first =>
          (XsError.orAssign XsError.noError first.1).bind fun error1 =>
            let p1 : JtagPort := { first.2.1.ShiftTms true with mTmsBitBuffer := [] }
            (XsError.orAssign error1 XsError.noError).bind fun error2 =>
              match p1.mpPhysPort with
              | none => none
              | some port =>
                let w :=
                  port.Write (PrependJtagCmdHdr JTAG_CMD 1 (GET_TDO_MASK ||| TMS_VAL_MASK) [])
                (XsError.orAssign error2 w.1).bind fun error3 =>
                  let r := w.2.Read 1 []
                  (XsError.orAssign error3 r.1).bind fun error4 =>
                    match r.2.2 with
                    | [] => none
                    | x :: _ =>
                      (BitBuffer.push_back_val first.2.2 x 1).map fun tdo =>
                        (error4, { p1 with mpPhysPort := some r.2.1 }, tdo)
      else none
    else none
  else ShiftTdoStay JTAG_CMD p numBits rTdoBuffer

end JtagPort

/-! ## HostIo.h and HostIo.cpp -/

/-- The constant `ID_FIELD_LENGTH`. -/
def ID_FIELD_LENGTH : Nat := 8

/-- The constant `NUM_PAYLOAD_BITS_FIELD_LENGTH`. -/
def NUM_PAYLOAD_BITS_FIELD_LENGTH : Nat := 32

/-- The bit buffer `payload + num_payload_bits + id` that `HostIo::HostIoCmd` hands to
`ShiftTdi`, with `num_payload_bits` built from `payload.size() + numResultBits` in
`NUM_PAYLOAD_BITS_FIELD_LENGTH` bits. -/
def HostIoCmdTdiBits (id payload : BitBuffer) (numResultBits : Nat) : Option BitBuffer :=
  (BitBuffer.fromVal (payload.length + numResultBits) NUM_PAYLOAD_BITS_FIELD_LENGTH).map
    fun num_payload_bits => BitBuffer.add (BitBuffer.add payload num_payload_bits) id

/-- The operation `HostIo::HostIoCmd(id, payload, numResultBits, rResults)` on the
JTAG port `*mpJtagPort`; the error returned is also what `mLastError` is set to. -/
def HostIoCmd (JTAG_CMD : Nat) (jtag : JtagPort) (id payload : BitBuffer)
    (numResultBits : Nat) (rResults : BitBuffer) :
    Option (XsError × JtagPort × BitBuffer) :=
  (HostIoCmdTdiBits id payload numResultBits).bind fun tdiBits =>
    (jtag.ShiftTdi JTAG_CMD tdiBits false true).bind fun sent =>
      (XsError.orAssign XsError.noError sent.1).bind fun error1 =>
        if numResultBits ≠ 0 then
          (sent.2.ShiftTdo JTAG_CMD numResultBits rResults false).bind fun got =>
            (XsError.orAssign error1 got.1).map fun error2 => (error2, got.2.1, got.2.2)
        else some (error1, sent.2, rResults)

/-! ## Specification-side readings of frames -/

/-- An error object that exists at run time: its severity is below Fatal. -/
def XsError.NonFatal (e : XsError) : Prop := e.mSeverity ≠ .FATAL_XS_ERROR

instance (e : XsError) : Decidable e.NonFatal := by
  unfold XsError.NonFatal
  infer_instance

/-- The bytes that hold a bit sequence packed LSB-first, eight bits to a byte: byte `i`
is the value of bits `8 * i` to `8 * i + 7`, the last byte being filled up with
zeros. -/
def packedBytes (bits : List Bool) : List Nat :=
  (List.range ((bits.length + 7) / 8)).map fun i =>
    BitBuffer.bitsVal ((bits.drop (8 * i)).take 8)

/-- The first `n` bits read LSB-first out of a byte sequence: bit `k` is bit `k % 8`
of byte `k / 8`. -/
def unpackBits (bytes : List Nat) (n : Nat) : List Bool :=
  (List.range n).map fun k => (bytes.getD (k / 8) 0).testBit (k % 8)

/-- Two byte sequences interleaved, the first one at the even positions. -/
def interleaved : List Nat → List Nat → List Nat
  | x :: xs, y :: ys => x :: y :: interleaved xs ys
  | _, _ => []

/-- The elements at the even positions 0, 2, 4, ... of a list. -/
def evenIndexed : List Nat → List Nat
  | [] => []
  | [x] => [x]
  | x :: _ :: rest => x :: evenIndexed rest

/-- The elements at the odd positions 1, 3, 5, ... of a list. -/
def oddIndexed : List Nat → List Nat
  | [] => []
  | [_] => []
  | _ :: y :: rest => y :: oddIndexed rest

/-- Every state of the list is reachable from its predecessor (the first one from
`s`) by one TMS transition of the table. -/
def hopsReachable : TapStateType → List TapStateType → Bool
  | _, [] => true
  | s, t :: rest =>
      (decide (nextTapStateAt s false = t) || decide (nextTapStateAt s true = t)) &&
        hopsReachable t rest

/-- The TMS values that walk the table from `s` through the listed states: 1 for a hop
that is the TMS=1 successor, otherwise 0. -/
def tmsPath : TapStateType → List TapStateType → List Bool
  | _, [] => []
  | s, t :: rest => decide (nextTapStateAt s true = t) :: tmsPath t rest

/-! ## Operation sequences and the reference TAP -/

/-- One operation of a sequence on a `JtagPort`: `ResetTap`, `GoThruTapStates` on the
listed states, `ShiftTdi` with `doFlush` set, or `ShiftTdo` into the given buffer. -/
inductive JtagOp
  | resetTap
  | goThruTapStates (states : List TapStateType)
  | shiftTdi (tdiBits : BitBuffer) (exitShift : Bool)
  | shiftTdo (numBits : Nat) (rTdoBuffer : BitBuffer) (exitShift : Bool)
  deriving DecidableEq, Repr

/-- The `JtagPort` object after one operation, when the operation returns. -/
def runOp (JTAG_CMD : Nat) (p : JtagPort) : JtagOp → Option JtagPort
  | .resetTap => (JtagPort.ResetTap JTAG_CMD p).map fun r => r.2
  | .goThruTapStates states => (JtagPort.GoThruTapStates JTAG_CMD p states).map fun r => r.2
  | .shiftTdi tdiBits exitShift =>
      (JtagPort.ShiftTdi JTAG_CMD p tdiBits exitShift true).map fun r => r.2
  | .shiftTdo numBits rTdoBuffer exitShift =>
      (JtagPort.ShiftTdo JTAG_CMD p numBits rTdoBuffer exitShift).map fun r => r.2.1

/-- The `JtagPort` object after a sequence of operations, when all of them return. -/
def runOps (JTAG_CMD : Nat) : List JtagOp → JtagPort → Option JtagPort
  | [], p => some p
  | op :: rest, p => (runOp JTAG_CMD p op).bind (runOps JTAG_CMD rest)

/-- The TMS values a device takes from one frame written to the port: for a
`JTAG_CMD` frame `[JTAG_CMD, len (4 bytes, little-endian), flags, payload...]`, one
value per bit of `len`; with `PUT_TMS` set they are the TMS bits of the payload,
unpacked LSB-first (the even-indexed payload bytes when TDI bytes are interleaved),
otherwise they all are the static `TMS_VAL` flag. -/
def frameTmsBits (JTAG_CMD : Nat) (frame : List Nat) : List Bool :=
  match frame with
  | cmd :: l0 :: l1 :: l2 :: l3 :: flags :: payload =>
      if cmd = JTAG_CMD then
        if flags &&& JtagPort.PUT_TMS_MASK ≠ 0 then
          unpackBits
            (if flags &&& JtagPort.PUT_TDI_MASK ≠ 0 then evenIndexed payload else payload)
            (l0 + 256 * l1 + 65536 * l2 + 16777216 * l3)
        else
          List.replicate (l0 + 256 * l1 + 65536 * l2 + 16777216 * l3)
            (decide (flags &&& JtagPort.TMS_VAL_MASK ≠ 0))
      else []
  | _ => []

/-- The state of an IEEE 1149.1 TAP after it has taken the given TMS values. -/
def tapRun (s : TapStateType) (bits : List Bool) : TapStateType :=
  bits.foldl ieee1149Next s

/-- The state of a reference IEEE 1149.1 TAP that starts in `s` and takes the TMS
values of every frame of the list, in order. -/
def referenceTap (JTAG_CMD : Nat) (s : TapStateType) (frames : List (List Nat)) :
    TapStateType :=
  frames.foldl (fun st frame => tapRun st (frameTmsBits JTAG_CMD frame)) s

/-- The buffers written so far to the physical port of a `JtagPort` object. -/
def JtagPort.written (p : JtagPort) : List (List Nat) :=
  match p.mpPhysPort with
  | some port => port.written
  | none => []

/-- The object `p` has empty transmit buffers and a port on which, since `port`, some
frames have been written, and its software TAP state is the state of the reference
TAP that started in `d` and took these frames; that state is a valid one. -/
def TracksFrom (JTAG_CMD : Nat) (port : Port) (d : TapStateType) (p : JtagPort) : Prop :=
  ∃ (port1 : Port) (frames : List (List Nat)),
    p = ⟨some port1, referenceTap JTAG_CMD d frames, [], []⟩ ∧
    port1.written = port.written ++ frames ∧
    referenceTap JTAG_CMD d frames ≠ .INVALID_TAP_STATE

/-- Every `GoThruTapStates` of the sequence lists fewer than `2 ^ 32` states, the
range of the length field of a frame. -/
def walksFitLengthField : List JtagOp → Bool
  | [] => true
  | .goThruTapStates states :: rest => decide (states.length < 2 ^ 32) && walksFitLengthField rest
  | _ :: rest => walksFitLengthField rest

/-- An example sequence: the walk to Shift-IR, the six-bit USER instruction shifted in
with exit, the walk to Shift-DR, and a read of nine TDO bits that leaves the shift
state. -/
def exampleOps : List JtagOp :=
  [.goThruTapStates [.RUN_TEST_IDLE, .SELECT_DR_SCAN, .SELECT_IR_SCAN, .CAPTURE_IR, .SHIFT_IR],
    .shiftTdi [false, true, false, false, false, false] true,
    .goThruTapStates [.UPDATE_IR, .SELECT_DR_SCAN, .CAPTURE_DR, .SHIFT_DR],
    .shiftTdo 9 [] true]

/-- A freshly initialised `JtagPort` (software state INVALID, empty buffers) on a port
that has not been used and will deliver the byte `0x35`, then the byte 1. -/
def exampleStart : JtagPort :=
  ⟨some ⟨[], [], [], [(.ok, [0x35]), (.ok, [1])]⟩, .INVALID_TAP_STATE, [], []⟩

/-- The object `exampleStart` after `ResetTap` and `exampleOps`, with `JTAG_CMD = 0x4f`. -/
def exampleEnd : JtagPort :=
  ⟨some ⟨[[0x4f, 5, 0, 0, 0, 2, 31], [0x4f, 5, 0, 0, 0, 2, 6], [0x4f, 5, 0, 0, 0, 8, 2],
        [0x4f, 1, 0, 0, 0, 10, 1, 0], [0x4f, 4, 0, 0, 0, 2, 3], [0x4f, 8, 0, 0, 0, 1],
        [0x4f, 1, 0, 0, 0, 5]],
      [1, 1], [], []⟩,
    .EXIT1_DR, [], []⟩

/-! ## HostIo.cpp: the object, its reset and its command -/

/-- The members of a `HostIo` object: `mLastError`, the `JtagPort` object that
`mpJtagPort` points to (`none` for a NULL pointer) and the USER instruction
`mUserInstr`, which `UserInstr()` hands out by reference. -/
structure HostIo where
  mLastError : XsError
  mpJtagPort : Option JtagPort
  mUserInstr : BitBuffer
  deriving DecidableEq, Repr

namespace HostIo

/-- The operation `HostIo::Init(pJtagPort)`: a non-NULL argument replaces the stored
pointer; without a port the Fatal error object is built, which aborts; otherwise the
TAP is reset, walked to Shift-IR, loaded with the USER instruction and walked to
Shift-DR, the errors being or-assigned on the way. -/
def Init (JTAG_CMD : Nat) (h : HostIo) (pJtagPort : Option JtagPort) :
    Option (XsError × HostIo) :=
  let h1 : HostIo :=
    match pJtagPort with
    | some jtag => { h with mpJtagPort := some jtag }
    | none => h
  match h1.mpJtagPort with
  | none =>
      (XsError.construct .FATAL_XS_ERROR
          "Can\x27t initialize HostIo with a NULL JtagPort pointer!".toList).bind fun fatal =>
        (XsError.orAssign XsError.noError fatal).map fun error => (error, h1)
  | some jtag =>
      (jtag.ResetTap JTAG_CMD).bind fun r1 =>
        (XsError.orAssign XsError.noError r1.1).bind fun error1 =>
          (r1.2.GoThruTapStates JTAG_CMD
              [.RUN_TEST_IDLE, .SELECT_DR_SCAN, .SELECT_IR_SCAN, .CAPTURE_IR, .SHIFT_IR]).bind
            fun r2 =>
              (XsError.orAssign error1 r2.1).bind fun error2 =>
                (r2.2.ShiftTdi JTAG_CMD h1.mUserInstr true true).bind fun r3 =>
                  (XsError.orAssign error2 r3.1).bind fun error3 =>
                    (r3.2.GoThruTapStates JTAG_CMD
                        [.UPDATE_IR, .SELECT_DR_SCAN, .CAPTURE_DR, .SHIFT_DR]).bind
                      fun r4 =>
                        (XsError.orAssign error3 r4.1).map fun error4 =>
                          (error4, { h1 with mLastError := error4, mpJtagPort := some r4.2 })

/-- The operation `HostIo::Reset()`: `Init(NULL)`. -/
def Reset (JTAG_CMD : Nat) (h : HostIo) : Option (XsError × HostIo) :=
  Init JTAG_CMD h none

/-- The member function `HostIo::HostIoCmd(id, payload, numResultBits, rResults)` on
the object: the command runs on `*mpJtagPort` (a NULL pointer cannot be dereferenced)
and the error returned is stored in `mLastError`. -/
def HostIoCmd (JTAG_CMD : Nat) (h : HostIo) (id payload : BitBuffer) (numResultBits : Nat)
    (rResults : BitBuffer) : Option (XsError × HostIo × BitBuffer) :=
  match h.mpJtagPort with
  | none => none
  | some jtag =>
      (Xstools.HostIoCmd JTAG_CMD jtag id payload numResultBits rResults).map fun r =>
        (r.1, { h with mLastError := r.1, mpJtagPort := some r.2.1 }, r.2.2)

end HostIo

/-! ## HostIoToMemory.h and HostIoToMemory.cpp -/

/-- The members of a `HostIoToMemory` object: those of its base `HostIo`, the module
id `mId` (empty until `GetSize` has run) and the two widths, `unsigned int`. -/
structure HostIoToMemory extends HostIo where
  mId : BitBuffer
  mAddressWidth : Nat
  mDataWidth : Nat
  deriving DecidableEq, Repr

namespace HostIoToMemory

/-- The constant `HostIoToMemory::NOP_OPCODE( "00" )`. -/
def NOP_OPCODE : BitBuffer := BitBuffer.fromString "00".toList

/-- The constant `HostIoToMemory::SIZE_OPCODE( "01" )`. -/
def SIZE_OPCODE : BitBuffer := BitBuffer.fromString "01".toList

/-- The constant `HostIoToMemory::WRITE_OPCODE( "10" )`. -/
def WRITE_OPCODE : BitBuffer := BitBuffer.fromString "10".toList

/-- The constant `HostIoToMemory::READ_OPCODE( "11" )`. -/
def READ_OPCODE : BitBuffer := BitBuffer.fromString "11".toList

/-- The constant `HostIoToMemory::SIZE_RESULT_LENGTH`. -/
def SIZE_RESULT_LENGTH : Nat := 16

/-- The local constant `SKIP_CYCLES` of `HostIoToMemory::GetSize`. -/
def SKIP_CYCLES : Nat := 1

/-- The operation `HostIoToMemory::GetSize(id, rAddressWidth, rDataWidth)`; the result
is the error, the object and the two widths written through the references. -/
def GetSize (JTAG_CMD : Nat) (m : HostIoToMemory) (id : Nat) :
    Option (XsError × HostIoToMemory × Nat × Nat) :=
  (BitBuffer.fromVal id ID_FIELD_LENGTH).bind fun mId =>
    (m.toHostIo.HostIoCmd JTAG_CMD mId SIZE_OPCODE (SIZE_RESULT_LENGTH + SKIP_CYCLES) []).bind
      fun r =>
        (XsError.orAssign XsError.noError r.1).bind fun error =>
          (BitBuffer.pop_front r.2.2 SKIP_CYCLES).bind fun params1 =>
            (BitBuffer.front params1 (SIZE_RESULT_LENGTH / 2)).bind fun addressWidth =>
              (BitBuffer.pop_front params1 (SIZE_RESULT_LENGTH / 2)).bind fun params2 =>
                (BitBuffer.front params2 (SIZE_RESULT_LENGTH / 2)).map fun dataWidth =>
                  (error,
                    { toHostIo := { r.2.1 with mLastError := error }
                      mId := mId
                      mAddressWidth := addressWidth % 2 ^ 32
                      mDataWidth := dataWidth % 2 ^ 32 },
                    addressWidth % 2 ^ 32, dataWidth % 2 ^ 32)

/-- The payload expression of the multi-word `Read`:
`BitBuffer( address, mAddressWidth ) + READ_OPCODE`. -/
def ReadPayload (address mAddressWidth : Nat) : Option BitBuffer :=
  (BitBuffer.fromVal address mAddressWidth).map fun a => BitBuffer.add a READ_OPCODE

/-- The loop of the multi-word `Read`: while `mem_vals` is not empty, its front
`mDataWidth` bits are pushed on `rValues` as a number and popped. The first argument
bounds the number of iterations; `size` of them always suffice, `front` asserts a
positive width. -/
def ReadLoop (mDataWidth : Nat) : Nat → BitBuffer → List Nat → Option (BitBuffer × List Nat)
  | 0, mem_vals, rValues => if mem_vals = [] then some (mem_vals, rValues) else none
  | fuel + 1, mem_vals, rValues =>
      if mem_vals = [] then some (mem_vals, rValues)
      else
        (BitBuffer.front mem_vals mDataWidth).bind fun v =>
          (BitBuffer.pop_front mem_vals mDataWidth).bind fun rest =>
            ReadLoop mDataWidth fuel rest (rValues ++ [v])

/-- The number of result bits the multi-word `Read` asks for: the product
`mDataWidth * ( numValues + 1 )` is computed in `unsigned long long` and converted
to the `unsigned int` parameter of `HostIoCmd`. -/
def ReadNumResultBits (mDataWidth numValues : Nat) : Nat :=
  (mDataWidth * ((numValues + 1) % 2 ^ 64) % 2 ^ 64) % 2 ^ 32

/-- The operation `HostIoToMemory::Read(address, numValues, rValues)`, multi-word
form; the result is the error, the object and the queue `rValues`. -/
def Read (JTAG_CMD : Nat) (m : HostIoToMemory) (address numValues : Nat) (rValues : List Nat) :
    Option (XsError × HostIoToMemory × List Nat) :=
  if 0 < numValues then
    if m.mId = [] then
      (XsError.construct .FATAL_XS_ERROR
          "Trying to read from memory before querying its parameters!".toList).map fun e =>
        (e, { m with mLastError := e }, rValues)
    else
      (ReadPayload address m.mAddressWidth).bind fun payload =>
        (m.toHostIo.HostIoCmd JTAG_CMD m.mId payload
            (ReadNumResultBits m.mDataWidth numValues) []).bind fun r =>
          (BitBuffer.pop_front r.2.2 m.mDataWidth).bind fun mem_vals =>
            (ReadLoop m.mDataWidth mem_vals.length mem_vals rValues).bind fun l =>
              if l.2.length = numValues then some (r.1, { m with toHostIo := r.2.1 }, l.2)
              else none
  else none

/-- The loop of the multi-word `Write`: `values.push_back( rValues[i], mDataWidth )`
for every `i`. -/
def WriteLoop (mDataWidth : Nat) : List Nat → BitBuffer → Option BitBuffer
  | [], values => some values
  | v :: rest, values =>
      (BitBuffer.push_back_val values v mDataWidth).bind fun values1 =>
        WriteLoop mDataWidth rest values1

/-- The payload expression of the multi-word `Write`:
`values + BitBuffer( address, mAddressWidth ) + WRITE_OPCODE`. -/
def WritePayload (values : BitBuffer) (address mAddressWidth : Nat) : Option BitBuffer :=
  (BitBuffer.fromVal address mAddressWidth).map fun a =>
    BitBuffer.add (BitBuffer.add values a) WRITE_OPCODE

/-- The operation `HostIoToMemory::Write(address, rValues)`, multi-word form. -/
def Write (JTAG_CMD : Nat) (m : HostIoToMemory) (address : Nat) (rValues : List Nat) :
    Option (XsError × HostIoToMemory) :=
  if 0 < rValues.length then
    if m.mId = [] then
      (XsError.construct .FATAL_XS_ERROR
          "Trying to write to memory before querying its parameters!".toList).map fun e =>
        (e, { m with mLastError := e })
    else
      (WriteLoop m.mDataWidth rValues []).bind fun values =>
        (WritePayload values address m.mAddressWidth).bind fun payload =>
          (m.toHostIo.HostIoCmd JTAG_CMD m.mId payload 0 []).map fun r =>
            (r.1, { m with toHostIo := r.2.1 })
  else none

end HostIoToMemory

/-! ## HostIoToDut.h and HostIoToDut.cpp -/

/-- The members of a `HostIoToDut` object: those of its base `HostIo`, the module id
`mId` (empty until `GetSize` has run) and the two vector widths, `unsigned int`. -/
structure HostIoToDut extends HostIo where
  mId : BitBuffer
  mInputWidth : Nat
  mOutputWidth : Nat
  deriving DecidableEq, Repr

namespace HostIoToDut

/-- The constant `HostIoToDut::NOP_OPCODE( "00" )`. -/
def NOP_OPCODE : BitBuffer := BitBuffer.fromString "00".toList

/-- The constant `HostIoToDut::SIZE_OPCODE( "01" )`. -/
def SIZE_OPCODE : BitBuffer := BitBuffer.fromString "01".toList

/-- The constant `HostIoToDut::WRITE_OPCODE( "10" )`. -/
def WRITE_OPCODE : BitBuffer := BitBuffer.fromString "10".toList

/-- The constant `HostIoToDut::READ_OPCODE( "11" )`. -/
def READ_OPCODE : BitBuffer := BitBuffer.fromString "11".toList

/-- The constant `HostIoToDut::SIZE_RESULT_LENGTH`. -/
def SIZE_RESULT_LENGTH : Nat := 16

/-- The local constant `SKIP_CYCLES` of `HostIoToDut::GetSize` and `HostIoToDut::Read`. -/
def SKIP_CYCLES : Nat := 1

/-- The operation `HostIoToDut::GetSize(id, rNumInputs, rNumOutputs)`; the result is
the error, the object and the two widths written through the references. -/
def GetSize (JTAG_CMD : Nat) (d : HostIoToDut) (id : Nat) :
    Option (XsError × HostIoToDut × Nat × Nat) :=
  (BitBuffer.fromVal id ID_FIELD_LENGTH).bind fun mId =>
    (d.toHostIo.HostIoCmd JTAG_CMD mId SIZE_OPCODE (SIZE_RESULT_LENGTH + SKIP_CYCLES) []).bind
      fun r =>
        (BitBuffer.pop_front r.2.2 SKIP_CYCLES).bind fun params1 =>
          (BitBuffer.front params1 (SIZE_RESULT_LENGTH / 2)).bind fun inputWidth =>
            (BitBuffer.pop_front params1 (SIZE_RESULT_LENGTH / 2)).bind fun params2 =>
              (BitBuffer.front params2 (SIZE_RESULT_LENGTH / 2)).map fun outputWidth =>
                (r.1,
                  { toHostIo := r.2.1
                    mId := mId
                    mInputWidth := inputWidth % 2 ^ 32
                    mOutputWidth := outputWidth % 2 ^ 32 },
                  inputWidth % 2 ^ 32, outputWidth % 2 ^ 32)

/-- The operation `HostIoToDut::Read(rResult)`; the result is the error, the object
and the caller's buffer `rResult`, which `HostIoCmd` appends to. -/
def Read (JTAG_CMD : Nat) (d : HostIoToDut) (rResult : BitBuffer) :
    Option (XsError × HostIoToDut × BitBuffer) :=
  if d.mId = [] then
    (XsError.construct .FATAL_XS_ERROR
        "Trying to read from DUT before querying its parameters!".toList).map fun e =>
      (e, { d with mLastError := e }, rResult)
  else
    (d.toHostIo.HostIoCmd JTAG_CMD d.mId READ_OPCODE
        ((d.mOutputWidth + SKIP_CYCLES) % 2 ^ 32) rResult).bind fun r =>
      (BitBuffer.pop_front r.2.2 SKIP_CYCLES).bind fun result =>
        if result.length = d.mOutputWidth then some (r.1, { d with toHostIo := r.2.1 }, result)
        else none

/-- The payload expression of `HostIoToDut::Write`: `rVector + WRITE_OPCODE`. -/
def WritePayload (rVector : BitBuffer) : BitBuffer :=
  BitBuffer.add rVector WRITE_OPCODE

/-- The operation `HostIoToDut::Write(rVector)`. -/
def Write (JTAG_CMD : Nat) (d : HostIoToDut) (rVector : BitBuffer) :
    Option (XsError × HostIoToDut) :=
  if 0 < rVector.length then
    if d.mId = [] then
      (XsError.construct .FATAL_XS_ERROR
          "Trying to write to DUT before querying its parameters!".toList).map fun e =>
        (e, { d with mLastError := e })
    else
      (d.toHostIo.HostIoCmd JTAG_CMD d.mId (WritePayload rVector) 0 []).map fun r =>
        (r.1, { d with toHostIo := r.2.1 })
  else none

end HostIoToDut

/-! ## Specification-side readings of the HostIo clients -/

/-- The bits that `ShiftTdo` appends for `n` requested bits when the port delivers
`bytes`: the whole bytes unpacked LSB-first, then the `n % 8` low bits of the next
byte, except that a single trailing bit is 1 whenever that byte is not zero. -/
def tdoBitsOf (bytes : List Nat) (n : Nat) : List Bool :=
  unpackBits bytes (8 * (n / 8)) ++
    (if n % 8 = 1 then [decide (bytes.getD (n / 8) 0 ≠ 0)]
     else (List.range (n % 8)).map (bytes.getD (n / 8) 0).testBit)

/-- The bytes the coming `Read` of the port delivers, as values of `DataType`. -/
def Port.nextBytes (port : Port) : List Nat :=
  (port.readResults.headD (PortStatus.ok, [])).2.map fun x => x % 256

/-- A port that supplies the bytes requested: when `n` is not zero, the coming `Read`
delivers exactly the `(n + 7) / 8` bytes that hold `n` bits. -/
def SuppliesBytes (port : Port) (n : Nat) : Prop :=
  n ≠ 0 → port.nextBytes.length = (n + 7) / 8

instance (port : Port) (n : Nat) : Decidable (SuppliesBytes port n) := by
  unfold SuppliesBytes
  infer_instance

/-- The frame that carries the TDI stream of a `HostIoCmd` call. -/
def cmdFrame (JTAG_CMD : Nat) (tdi : BitBuffer) : List Nat :=
  JtagPort.PrependJtagCmdHdr JTAG_CMD tdi.length JtagPort.PUT_TDI_MASK (packedBytes tdi)

/-- The frame that asks for `n` TDO bits. -/
def tdoFrame (JTAG_CMD n : Nat) : List Nat :=
  JtagPort.PrependJtagCmdHdr JTAG_CMD n JtagPort.GET_TDO_MASK []

/-- The TDI stream of a `HostIoCmd` call as the device receives it: the id first, then
the 32 bits of `payload.size() + numResultBits`, then the payload. -/
def cmdStream (id payload : BitBuffer) (numResultBits : Nat) : BitBuffer :=
  id ++ (List.range 32).map (payload.length + numResultBits).testBit ++ payload

/-- The `n` values of `w` bits each that follow the first `w` bits of `reply`: value
`i` is the number held by the bits `w * (i + 1)` to `w * (i + 2) - 1`, the lowest
position being the LSB. -/
def wordsAfterSkip (w n : Nat) (reply : BitBuffer) : List Nat :=
  (List.range n).map fun i => BitBuffer.bitsVal ((reply.drop (w * (i + 1))).take w)

/-- A physical port whose coming `Read` delivers the 8 bytes of a memory reply for
16-bit words: the skip word, then `0x0001`, `0x0045` and `0xCAFE`. -/
def exampleMemoryPort : Port :=
  ⟨[], [], [], [(PortStatus.ok, [0x00, 0x00, 0x01, 0x00, 0x45, 0x00, 0xFE, 0xCA])]⟩

/-- A memory client after `GetSize`: module id 2, 8 address bits, 16 data bits, its
JTAG port in Shift-DR with empty transmit buffers on `exampleMemoryPort`. -/
def exampleMemory : HostIoToMemory :=
  { mLastError := XsError.noError
    mpJtagPort := some ⟨some exampleMemoryPort, .SHIFT_DR, [], []⟩
    mUserInstr := BitBuffer.fromString "000010".toList
    mId := [false, true, false, false, false, false, false, false]
    mAddressWidth := 8
    mDataWidth := 16 }

/-- A physical port whose coming `Read` delivers the 3 bytes of a SIZE reply: the skip
bit 0, then the widths 8 and 16. -/
def exampleSizePort : Port :=
  ⟨[], [], [], [(PortStatus.ok, [0x10, 0x20, 0x00])]⟩

/-- A memory client before `GetSize`: the module id is empty; its JTAG port is in
Shift-DR with empty transmit buffers on `exampleSizePort`. -/
def exampleFreshMemory : HostIoToMemory :=
  { mLastError := XsError.noError
    mpJtagPort := some ⟨some exampleSizePort, .SHIFT_DR, [], []⟩
    mUserInstr := BitBuffer.fromString "000010".toList
    mId := []
    mAddressWidth := 0
    mDataWidth := 0 }

/-- A DUT client before `GetSize`: the module id is empty; its JTAG port is in
Shift-DR with empty transmit buffers on `exampleSizePort`. -/
def exampleFreshDut : HostIoToDut :=
  { mLastError := XsError.noError
    mpJtagPort := some ⟨some exampleSizePort, .SHIFT_DR, [], []⟩
    mUserInstr := BitBuffer.fromString "000010".toList
    mId := []
    mInputWidth := 0
    mOutputWidth := 0 }

/-- What `HostIoCmd` returns for the SIZE command of module 2 on `exampleSizePort`:
no error, the object after the two frames and the read, and the 17 reply bits. -/
def exampleSizeResult : XsError × HostIo × BitBuffer :=
  (XsError.noError,
    { mLastError := XsError.noError
      mpJtagPort :=
        some ⟨some ⟨[[0x4f, 42, 0, 0, 0, 8, 2, 19, 0, 0, 0, 1], [0x4f, 17, 0, 0, 0, 1]], [3],
          [], []⟩, .SHIFT_DR, [], []⟩
      mUserInstr := BitBuffer.fromString "000010".toList },
    [false, false, false, false, true, false, false, false,
      false, false, false, false, false, true, false, false, false])

/-- A physical port whose two coming `Read` calls deliver one byte each, `0x05` and
then `0x03`. -/
def exampleDutPort : Port :=
  ⟨[], [], [], [(PortStatus.ok, [0x05]), (PortStatus.ok, [0x03])]⟩

/-- A DUT client after `GetSize`: module id 3, 4 input bits, 2 output bits, its JTAG
port in Shift-DR with empty transmit buffers on `exampleDutPort`. -/
def exampleDut : HostIoToDut :=
  { mLastError := XsError.noError
    mpJtagPort := some ⟨some exampleDutPort, .SHIFT_DR, [], []⟩
    mUserInstr := BitBuffer.fromString "000010".toList
    mId := [true, true, false, false, false, false, false, false]
    mInputWidth := 4
    mOutputWidth := 2 }

/-! ## The memory module behind the port -/

/-- Modelled from the spec: the memory module of the device, whose HDL is not among
the sources: its address width, its data width and the words it has stored, by
address, the newest first. -/
structure MemoryModule where
  addressWidth : Nat
  dataWidth : Nat
  cells : List (Nat × BitBuffer)
  deriving DecidableEq, Repr

namespace MemoryModule

/-- Modelled from the spec: a bit stream cut into words of `w` bits, the first word at
the front. -/
def words (w : Nat) (bits : BitBuffer) : List BitBuffer :=
  (List.range (bits.length / w)).map fun i => (bits.drop (w * i)).take w

/-- Modelled from the spec: the module stores the words it is sent. It reads the TDI
stream of a command in the order `HostIoCmd` sends it, front bit first: the id
(8 bits), the length field (32 bits), the opcode (2 bits), the address and then the
data words; the words of a WRITE command go to consecutive addresses. -/
def write (mod : MemoryModule) (stream : BitBuffer) : MemoryModule :=
  if ((stream.drop (ID_FIELD_LENGTH + NUM_PAYLOAD_BITS_FIELD_LENGTH)).take 2)
      = HostIoToMemory.WRITE_OPCODE then
    { mod with
      cells :=
        (List.range
            (words mod.dataWidth
              (stream.drop (ID_FIELD_LENGTH + NUM_PAYLOAD_BITS_FIELD_LENGTH + 2
                + mod.addressWidth))).length).map
          (fun i =>
            ((BitBuffer.bitsVal
                ((stream.drop (ID_FIELD_LENGTH + NUM_PAYLOAD_BITS_FIELD_LENGTH + 2)).take
                  mod.addressWidth) + i) % 2 ^ mod.addressWidth,
              (words mod.dataWidth
                (stream.drop (ID_FIELD_LENGTH + NUM_PAYLOAD_BITS_FIELD_LENGTH + 2
                  + mod.addressWidth))).getD i []))
          ++ mod.cells }
  else mod

/-- Modelled from the spec: the module returns the stored words on READ after one skip
word: the reply to a READ of `n` words from `address` is `dataWidth` skip bits and
then the words stored at `address`, `address + 1`, ... (zeros where nothing was
stored). -/
def readReply (mod : MemoryModule) (address n : Nat) : BitBuffer :=
  List.replicate mod.dataWidth false ++
    ((List.range n).map fun i =>
      ((mod.cells.lookup ((address + i) % 2 ^ mod.addressWidth)).getD
        (List.replicate mod.dataWidth false))).flatten

end MemoryModule

/-- Modelled from the spec: the TDI stream of the frame last written to a port, read
back from its length bytes and its packed payload. -/
def lastStream (port : Port) : BitBuffer :=
  unpackBits ((port.written.getLastD []).drop 6)
    ((port.written.getLastD []).getD 1 0 + 256 * (port.written.getLastD []).getD 2 0
      + 65536 * (port.written.getLastD []).getD 3 0
      + 16777216 * (port.written.getLastD []).getD 4 0)

/-- Modelled from the spec: a write of `values` at `address` followed by a read of as
many values from `address`, against an empty memory module of the widths of the
client: the module takes the frame `Write` has written, and the port then delivers
the bytes of the module's reply to the `Read`. The result is the queue `Read` fills. -/
def memoryRoundTrip (JTAG_CMD : Nat) (m : HostIoToMemory) (address : Nat)
    (values : List Nat) : Option (List Nat) :=
  (HostIoToMemory.Write JTAG_CMD m address values).bind fun w =>
    match w.2.mpJtagPort with
    | some ⟨some port, s, tms, tdi⟩ =>
        (HostIoToMemory.Read JTAG_CMD
            { w.2 with
              mpJtagPort :=
                some ⟨some { port with
                  readResults :=
                    [(PortStatus.ok,
                      packedBytes
                        (((MemoryModule.mk m.mAddressWidth m.mDataWidth []).write
                          (lastStream port)).readReply address values.length))] },
                  s, tms, tdi⟩ }
            address values.length []).map fun r => r.2.2
    | _ => none

/-! ## XsError.cpp: the operator `|`, and the single-word read of the memory client -/

/-- The operator `XsError::operator|`: `or_error = *this; return or_error |= rXsError`. -/
def XsError.or (a b : XsError) : Option XsError :=
  XsError.orAssign a b

/-- The single-word form `HostIoToMemory::Read(address, rValue)`: the multi-word form
is called for one value on a fresh queue `mem_vals`, and `rValue` is the front of that
queue; the front of an empty queue is undefined. The result is the error, the object
and `rValue`. -/
def HostIoToMemory.ReadWord (JTAG_CMD : Nat) (m : HostIoToMemory) (address : Nat) :
    Option (XsError × HostIoToMemory × Nat) :=
  (HostIoToMemory.Read JTAG_CMD m address 1 []).bind fun r =>
    match r.2.2 with
    | [] => none
    | v :: _ => some (r.1, { r.2.1 with mLastError := r.1 }, v)

/-! ## XstoolsApi.cpp -/

/-- The last loop of `XsMemRead`: for `i` from 0 to `nData - 1`, `pData[i]` becomes
the front of the queue, which is popped. The first argument counts the iterations
left; the front of an empty queue and a write past the end of the array `pData` are
undefined. -/
def XsMemReadLoop : Nat → Nat → List Nat → List Nat → Option (List Nat)
  | 0, _, _, pData => some pData
  | k + 1, i, data, pData =>
      match data with
      | [] => none
      | v :: rest => if i < pData.length then XsMemReadLoop k (i + 1) rest (pData.set i v) else none

/-- The function `XsMemRead(pHostIoModule, addr, pData, nData)` on the object the
pointer refers to; `pData` is the content of the caller's array. The result is the
status code returned, the object and the array. -/
def XsMemRead (JTAG_CMD : Nat) (pHostIoModule : HostIoToMemory) (addr : Nat) (pData : List Nat)
    (nData : Nat) : Option (Nat × HostIoToMemory × List Nat) :=
  (HostIoToMemory.Read JTAG_CMD pHostIoModule addr nData []).bind fun r =>
    if r.1.IsError then some (1, r.2.1, pData)
    else if r.2.2.length ≠ nData then some (2, r.2.1, pData)
    else (XsMemReadLoop nData 0 r.2.2 pData).map fun out => (0, r.2.1, out)

/-! ## LibusbPort.h and LibusbPort.cpp

The libusb functions are not part of the sources: what they return is taken from a
script, as for the physical port. -/

/-- The enumeration `UsbDirectionType` of `LibusbPort`. -/
inductive UsbDirectionType
  | DIR_PERIPH_TO_HOST
  | DIR_HOST_TO_PERIPH
  deriving DecidableEq, Repr

/-- The structure `HandleType` of `LibusbPort`: `mIsOpen`, the libusb device handle
(`none` for NULL) and the endpoint, an `int`. -/
structure HandleType where
  mIsOpen : Bool
  mDevHandle : Option Nat
  mEndpoint : Int
  deriving DecidableEq, Repr

/-- What the libusb library does on the coming calls: the devices found by each
enumeration (`idVendor` and `idProduct` of every device, in the order of the bus and
device lists), the handle each `usb_open` returns (`none` for NULL), and the values
each `usb_set_configuration` and each `usb_close` returns. -/
structure UsbLibrary where
  devices : List (List (Int × Int))
  usb_open : List (Option Nat)
  usb_set_configuration : List Int
  usb_close : List Int
  deriving DecidableEq, Repr

/-- The members of a `LibusbPort` object: vendor id, product id, instance and
endpoint of its base `UsbPort` (all `int`) and the two extended handles. -/
structure LibusbPort where
  mVid : Int
  mPid : Int
  mInstance : Int
  mEndpoint : Int
  mHandleFromPeriph : HandleType
  mHandleToPeriph : HandleType
  deriving DecidableEq, Repr

namespace LibusbPort

/-- The operation `LibusbPort::Init()`: both handles are closed and NULL; their
endpoints keep whatever value they had. -/
def Init (p : LibusbPort) : LibusbPort :=
  { p with
    mHandleToPeriph := { p.mHandleToPeriph with mIsOpen := false, mDevHandle := none }
    mHandleFromPeriph := { p.mHandleFromPeriph with mIsOpen := false, mDevHandle := none } }

/-- The operation `LibusbPort::LibusbOpen(dir, rHandle)`: the devices are enumerated,
the one whose count among the devices with the vendor and product id of the port is
`Instance()` is opened, the endpoint of the handle is `Endpoint()`, plus `0x80` for
`DIR_PERIPH_TO_HOST` (an `int` addition, undefined past `INT_MAX`), and the
configuration is set. Every failure builds a Fatal error object. The result is the
error, the handle and the library. -/
def LibusbOpen (p : LibusbPort) (lib : UsbLibrary) (dir : UsbDirectionType)
    (rHandle : HandleType) : Option (XsError × HandleType × UsbLibrary) :=
  if rHandle.mIsOpen then some (XsError.noError, rHandle, lib)
  else
    if 0 ≤ p.mInstance ∧
        p.mInstance.toNat
          < ((lib.devices.headD []).filter fun d => d.1 = p.mVid ∧ d.2 = p.mPid).length then
      match lib.usb_open.headD none with
      | none =>
          (XsError.construct .FATAL_XS_ERROR
              "Unable to open libusb device handle".toList).map fun e =>
            (e, { rHandle with mDevHandle := none },
              { lib with devices := lib.devices.tail, usb_open := lib.usb_open.tail })
      | some handle =>
          if dir = .DIR_PERIPH_TO_HOST ∧ ¬ (p.mEndpoint + 0x80 < 2 ^ 31) then none
          else
            if lib.usb_set_configuration.headD 0 < 0 then
              (XsError.construct .FATAL_XS_ERROR
                  "Unable to set libusb device configuration".toList).map fun e =>
                (e,
                  { mIsOpen := false
                    mDevHandle := some handle
                    mEndpoint :=
                      if dir = .DIR_PERIPH_TO_HOST then p.mEndpoint + 0x80 else p.mEndpoint },
                  { devices := lib.devices.tail
                    usb_open := lib.usb_open.tail
                    usb_set_configuration := lib.usb_set_configuration.tail
                    usb_close := lib.usb_close.tail })
            else
              some (XsError.noError,
                { mIsOpen := true
                  mDevHandle := some handle
                  mEndpoint :=
                    if dir = .DIR_PERIPH_TO_HOST then p.mEndpoint + 0x80 else p.mEndpoint },
                { lib with
                  devices := lib.devices.tail
                  usb_open := lib.usb_open.tail
                  usb_set_configuration := lib.usb_set_configuration.tail })
    else
      (XsError.construct .FATAL_XS_ERROR
          "Unable to find libusb device VID or PID".toList).map fun e =>
        (e, rHandle, { lib with devices := lib.devices.tail })

/-- The operation `LibusbPort::LibusbClose(rHandle)`: an open handle stays open
exactly when `usb_close` returns a negative value, and then the Fatal error object
is built. -/
def LibusbClose (lib : UsbLibrary) (rHandle : HandleType) :
    Option (XsError × HandleType × UsbLibrary) :=
  if rHandle.mIsOpen = false then some (XsError.noError, rHandle, lib)
  else
    if lib.usb_close.headD 0 < 0 then
      (XsError.construct .FATAL_XS_ERROR "Failed to close libusb device".toList).map fun e =>
        (e, { rHandle with mIsOpen := true }, { lib with usb_close := lib.usb_close.tail })
    else
      some (XsError.noError, { rHandle with mIsOpen := false },
        { lib with usb_close := lib.usb_close.tail })

/-- The operation `LibusbPort::Close()`. -/
def Close (p : LibusbPort) (lib : UsbLibrary) : Option (XsError × LibusbPort × UsbLibrary) :=
  (LibusbClose lib p.mHandleToPeriph).bind fun r1 =>
    (LibusbClose r1.2.2 p.mHandleFromPeriph).bind fun r2 =>
      (XsError.orAssign r1.1 r2.1).map fun error =>
        (error, { p with mHandleToPeriph := r1.2.1, mHandleFromPeriph := r2.2.1 }, r2.2.2)

/-- The first loop of `LibusbPort::Open`: while `i > 0` and the handle to the
peripheral is not open, `error = LibusbOpen( DIR_HOST_TO_PERIPH, mHandleToPeriph )`.
The first argument is `i` when it is positive, otherwise 0. -/
def OpenLoopTo : Nat → LibusbPort → UsbLibrary → XsError →
    Option (XsError × LibusbPort × UsbLibrary)
  | 0, p, lib, error => some (error, p, lib)
  | i + 1, p, lib, error =>
      if !p.mHandleToPeriph.mIsOpen then
        (LibusbOpen p lib .DIR_HOST_TO_PERIPH p.mHandleToPeriph).bind fun r =>
          OpenLoopTo i { p with mHandleToPeriph := r.2.1 } r.2.2 r.1
      else some (error, p, lib)

/-- The second loop of `LibusbPort::Open`: while `i > 0` and the handle from the
peripheral is not open, `error |= LibusbOpen( DIR_PERIPH_TO_HOST, mHandleFromPeriph )`. -/
def OpenLoopFrom : Nat → LibusbPort → UsbLibrary → XsError →
    Option (XsError × LibusbPort × UsbLibrary)
  | 0, p, lib, error => some (error, p, lib)
  | i + 1, p, lib, error =>
      if !p.mHandleFromPeriph.mIsOpen then
        (LibusbOpen p lib .DIR_PERIPH_TO_HOST p.mHandleFromPeriph).bind fun r =>
          (XsError.orAssign error r.1).bind fun error1 =>
            OpenLoopFrom i { p with mHandleFromPeriph := r.2.1 } r.2.2 error1
      else some (error, p, lib)

/-- The start value of the loop variable `int i = numTrials` of `LibusbPort::Open`,
as a number of iterations allowed: `numTrials` is an `unsigned int`, and a value of
`2 ^ 31` or more becomes a negative `int`, for which the loops do not run. -/
def OpenTrials (numTrials : Nat) : Nat :=
  if numTrials % 2 ^ 32 < 2 ^ 31 then numTrials % 2 ^ 32 else 0

/-- The operation `LibusbPort::Open(numTrials)`. -/
def Open (p : LibusbPort) (lib : UsbLibrary) (numTrials : Nat) :
    Option (XsError × LibusbPort × UsbLibrary) :=
  (OpenLoopTo (OpenTrials numTrials) p lib XsError.noError).bind fun r1 =>
    (if !r1.1.IsError then OpenLoopFrom (OpenTrials numTrials) r1.2.1 r1.2.2 r1.1
      else some r1).bind fun r2 =>
      if r2.1.IsError then
        (Close r2.2.1 r2.2.2).map fun c => (r2.1, c.2.1, c.2.2)
      else some r2

end LibusbPort

/-! ## Specification-side readings of the flush shapes -/

/-- The shapes of the two transmit buffers that `Flush` supports: TMS bits only, TDI
bits only, both of the same length, or exactly one TMS bit with two or more TDI
bits. -/
def SupportedShape (tms tdi : BitBuffer) : Prop :=
  (tms ≠ [] ∧ tdi = []) ∨ (tms = [] ∧ tdi ≠ []) ∨ (tms ≠ [] ∧ tms.length = tdi.length) ∨
    (tms.length = 1 ∧ 2 ≤ tdi.length)

instance (tms tdi : BitBuffer) : Decidable (SupportedShape tms tdi) := by
  unfold SupportedShape
  infer_instance

/-- What the multi-word `Read` of 3 values from address `0x10` returns on
`exampleMemory`: no error, the object after the two frames and the read, and the queue
of the three values. -/
def exampleReadResult : XsError × HostIoToMemory × List Nat :=
  (XsError.noError,
    { exampleMemory with
      mpJtagPort :=
        some ⟨some ⟨[[0x4f, 50, 0, 0, 0, 8, 2, 74, 0, 0, 0, 67, 0], [0x4f, 64, 0, 0, 0, 1]], [8],
          [], []⟩, .SHIFT_DR, [], []⟩ },
    [0x0001, 0x0045, 0xCAFE])

/-- A libusb library that finds one XSUSB device (vendor `0x04D8`, product `0xFF8C`)
at each of the two coming enumerations, opens it with the handles 1 and 2, and sets
the configuration without error. -/
def exampleUsbLibrary : UsbLibrary :=
  { devices := [[(0x04D8, 0xFF8C)], [(0x04D8, 0xFF8C)]]
    usb_open := [some 1, some 2]
    usb_set_configuration := [0, 0]
    usb_close := [] }

/-- The port object `LibusbPort( 0x04D8, 0xFF8C, 0, 1 )` of the API after its
constructor: instance 0, endpoint 1, both handles closed. -/
def exampleLibusbPort : LibusbPort :=
  LibusbPort.Init
    { mVid := 0x04D8
      mPid := 0xFF8C
      mInstance := 0
      mEndpoint := 1
      mHandleFromPeriph := ⟨false, none, 0⟩
      mHandleToPeriph := ⟨false, none, 0⟩ }

/-- A physical port whose coming `Read` fails as `WinusbPort::Read` does when the pipe
read does not succeed: a Minor error and no bytes. -/
def exampleFailingPort : Port :=
  ⟨[], [], [], [(PortStatus.minor "Read of WINUSB device failed.".toList, [])]⟩

/-- The client `exampleMemory` on a port whose coming `Read` delivers the 4 bytes of a
reply of two 16-bit words: the skip word and `0xCAFE`. -/
def exampleWordMemory : HostIoToMemory :=
  { exampleMemory with
    mpJtagPort :=
      some ⟨some ⟨[], [], [], [(PortStatus.ok, [0x00, 0x00, 0xFE, 0xCA])]⟩, .SHIFT_DR, [], []⟩ }

/-- What the multi-word `Read` of 1 value from address `0x10` returns on
`exampleWordMemory`. -/
def exampleWordResult : XsError × HostIoToMemory × List Nat :=
  (XsError.noError,
    { exampleMemory with
      mpJtagPort :=
        some ⟨some ⟨[[0x4f, 50, 0, 0, 0, 8, 2, 42, 0, 0, 0, 67, 0], [0x4f, 32, 0, 0, 0, 1]], [4],
          [], []⟩, .SHIFT_DR, [], []⟩ },
    [0xCAFE])

/-- The frames that the exiting, flushing `ShiftTdi` of a bit string hands to the port:
for a single bit one frame with its TMS byte 1 and its TDI byte; for more bits a TDI
frame with all bits but the last, then the frame of the last bit with TMS = 1. -/
def exitTdiFrames (JTAG_CMD : Nat) (bits : BitBuffer) : List (List Nat) :=
  if bits.length = 1 then
    [JtagPort.PrependJtagCmdHdr JTAG_CMD 1 (JtagPort.PUT_TDI_MASK ||| JtagPort.PUT_TMS_MASK)
      [1, if bits.getLastD false then 1 else 0]]
  else
    [JtagPort.PrependJtagCmdHdr JTAG_CMD (bits.length - 1) JtagPort.PUT_TDI_MASK
        (packedBytes (bits.take (bits.length - 1))),
      JtagPort.PrependJtagCmdHdr JTAG_CMD 1 (JtagPort.PUT_TDI_MASK ||| JtagPort.PUT_TMS_MASK)
        [1, if bits.getLastD false then 1 else 0]]

/-! ## Lemmas on lists and on the loops of the bit buffer -/

namespace BitBuffer

theorem take_succ_getD {α : Type} (l : List α) (d : α) (n : Nat) (h : n < l.length) :
    l.take (n + 1) = l.take n ++ [l.getD n d] := by
  rw [List.take_succ, List.getD_eq_getElem?_getD, List.getElem?_eq_getElem h]
  rfl

theorem drop_eq_getD_cons {α : Type} (l : List α) (d : α) (n : Nat) (h : n < l.length) :
    l.drop n = l.getD n d :: l.drop (n + 1) := by
  rw [List.getD_eq_getElem?_getD, List.getElem?_eq_getElem h]
  exact List.drop_eq_getElem_cons h

theorem bitsVal_append (xs ys : List Bool) :
    bitsVal (xs ++ ys) = bitsVal xs + 2 ^ xs.length * bitsVal ys := by
  induction xs with
  | nil => simp [bitsVal]
  | cons x xs ih =>
      show bitsVal (x :: (xs ++ ys)) = _
      simp only [bitsVal, ih, List.length_cons, pow_succ]
      ring

theorem bitsVal_lt (xs : List Bool) : bitsVal xs < 2 ^ xs.length := by
  induction xs with
  | nil => simp [bitsVal]
  | cons x xs ih =>
      simp only [bitsVal, List.length_cons, pow_succ]
      cases x <;> simp <;> omega

theorem bitsVal_testBit (v : Nat) : ∀ k : Nat,
    bitsVal ((List.range k).map v.testBit) = v % 2 ^ k := by
  intro k
  induction k with
  | zero => simp [bitsVal, Nat.mod_one]
  | succ k ih =>
      rw [List.range_succ, List.map_append, bitsVal_append, ih, Nat.mod_pow_succ]
      simp [bitsVal, Nat.toNat_testBit]

theorem fromStringLoop_eq (s : List Char) : ∀ (n : Nat) (buf : BitBuffer), n ≤ s.length →
    fromStringLoop s n buf = buf ++ ((s.take n).reverse.map (fun c => decide (c = '1'))) := by
  intro n
  induction n with
  | zero => intro buf _; simp [fromStringLoop]
  | succ n ih =>
      intro buf h
      rw [fromStringLoop, ih _ (by omega), take_succ_getD s '0' n (by omega)]
      simp

theorem fromString_eq (s : List Char) :
    fromString s = s.reverse.map (fun c => decide (c = '1')) := by
  simp [fromString, fromStringLoop_eq s s.length [] (le_refl _)]

theorem toStrLoop_eq (b : BitBuffer) : ∀ (n : Nat) (s : List Char), n ≤ b.length →
    toStrLoop b n s = s ++ ((b.take n).reverse.map bitChar) := by
  intro n
  induction n with
  | zero => intro s _; simp [toStrLoop]
  | succ n ih =>
      intro s h
      rw [toStrLoop, ih _ (by omega), take_succ_getD b false n (by omega)]
      cases b.getD n false <;> simp [bitChar]

theorem toStr_eq (b : BitBuffer) : toStr b = b.reverse.map bitChar := by
  simp [toStr, toStrLoop_eq b b.length [] (le_refl _)]

theorem GetBitsLoop_eq (b : BitBuffer) : ∀ (n i : Nat) (r : BitBuffer), i + n ≤ b.length →
    GetBitsLoop b n i r = r ++ (b.drop i).take n := by
  intro n
  induction n with
  | zero => intro i r _; simp [GetBitsLoop]
  | succ n ih =>
      intro i r h
      rw [GetBitsLoop, ih _ _ (by omega), drop_eq_getD_cons b false i (by omega)]
      simp

theorem GetBits_eq (b : BitBuffer) (first last : Nat) (h1 : first ≤ last)
    (h2 : last ≤ b.length) :
    GetBits b first last = some ((b.drop first).take (last - first)) := by
  simp [GetBits, h1, h2, GetBitsLoop_eq b (last - first) first [] (by omega)]

theorem push_backLoop_eq (b2 : BitBuffer) : ∀ (n i : Nat) (b : BitBuffer),
    i + n ≤ b2.length → push_backLoop b2 n i b = b ++ (b2.drop i).take n := by
  intro n
  induction n with
  | zero => intro i b _; simp [push_backLoop]
  | succ n ih =>
      intro i b h
      rw [push_backLoop, ih _ _ (by omega), drop_eq_getD_cons b2 false i (by omega)]
      simp

theorem push_back_eq (b b2 : BitBuffer) : push_back b b2 = b ++ b2 := by
  simp [push_back, push_backLoop_eq b2 b2.length 0 b (by omega)]

theorem push_frontLoop_eq (b2 : BitBuffer) : ∀ (n : Nat) (b : BitBuffer), n ≤ b2.length →
    push_frontLoop b2 n b = b2.take n ++ b := by
  intro n
  induction n with
  | zero => intro b _; simp [push_frontLoop]
  | succ n ih =>
      intro b h
      rw [push_frontLoop, ih _ (by omega), take_succ_getD b2 false n (by omega)]
      simp

theorem push_front_eq (b b2 : BitBuffer) : push_front b b2 = b2 ++ b := by
  simp [push_front, push_frontLoop_eq b2 b2.length b (le_refl _)]

theorem toBitsTypeLoop_eq (b : BitBuffer) : ∀ (n w : Nat), n ≤ b.length → n ≤ 64 →
    w < 2 ^ (64 - n) →
    toBitsTypeLoop b n w = w * 2 ^ n + bitsVal (b.take n) := by
  intro n
  induction n with
  | zero => intro w _ _ _; simp [toBitsTypeLoop, bitsVal]
  | succ n ih =>
      intro w h h64 hw
      have hsplit : 2 ^ (64 - n) = 2 * 2 ^ (64 - (n + 1)) := by
        rw [← pow_succ', show 64 - (n + 1) + 1 = 64 - n by omega]
      have hle : 2 ^ (64 - (n + 1)) ≤ 2 ^ 63 :=
        Nat.pow_le_pow_right (by decide) (by omega)
      have hw2 : w * 2 < 2 ^ 64 := by omega
      have hshl : (w <<< 1) % 2 ^ 64 = 2 ^ 1 * w := by
        simp only [Nat.shiftLeft_eq, pow_one, Nat.mod_eq_of_lt hw2, Nat.mul_comm]
      have hbit : (if b.getD n false = true then 1 else 0) < 2 ^ 1 := by
        split <;> decide
      have hnat : (if b.getD n false = true then 1 else 0) = (b.getD n false).toNat := by
        cases b.getD n false <;> rfl
      rw [toBitsTypeLoop, hshl, ← Nat.mul_add_lt_is_or hbit, take_succ_getD b false n (by omega),
        bitsVal_append, ih _ (by omega) (by omega) (by rw [hsplit]; omega), hnat]
      simp only [bitsVal, List.length_take, Nat.min_eq_left (by omega : n ≤ b.length)]
      ring

theorem toBitsTypeRaw_eq (b : BitBuffer) (h : b.length ≤ 64) :
    toBitsTypeRaw b = bitsVal b := by
  have hmin : min b.length BITS_TYPE_LENGTH = b.length := Nat.min_eq_left h
  rw [toBitsTypeRaw, hmin, toBitsTypeLoop_eq b b.length 0 (le_refl _) h (Nat.pos_pow_of_pos _ (by decide))]
  simp

theorem toBitsType_eq (b : BitBuffer) (h0 : 0 < b.length) (h : b.length ≤ 64) :
    toBitsType b = some (bitsVal b) := by
  simp [toBitsType, h0, BITS_TYPE_LENGTH, h, toBitsTypeRaw_eq b h]

theorem and_two_pow_ne_zero (word i : Nat) :
    decide (word &&& 2 ^ i ≠ 0) = word.testBit i := by
  rw [Nat.and_two_pow]
  have hpos : 0 < 2 ^ i := Nat.pos_pow_of_pos _ (by decide)
  cases word.testBit i <;> simp

theorem fromValLoop_eq (word : Nat) : ∀ (n i : Nat) (buf : BitBuffer) (mask : Nat),
    i + n ≤ 64 → mask = 2 ^ i % 2 ^ 64 →
    fromValLoop word n (buf, mask)
      = (buf ++ (List.range' i n).map word.testBit, 2 ^ (i + n) % 2 ^ 64) := by
  intro n
  induction n with
  | zero => intro i buf mask _ hm; simp [fromValLoop, hm]
  | succ n ih =>
      intro i buf mask h hm
      have hi : 2 ^ i < 2 ^ 64 := Nat.pow_lt_pow_right (by decide) (by omega)
      have hmask : mask = 2 ^ i := by rw [hm, Nat.mod_eq_of_lt hi]
      have hnext : (mask <<< 1) % 2 ^ 64 = 2 ^ (i + 1) % 2 ^ 64 := by
        rw [Nat.shiftLeft_eq, hmask, pow_one, ← pow_succ]
      rw [fromValLoop, ih (i + 1) _ _ (by omega) hnext, hmask, and_two_pow_ne_zero]
      simp [List.range'_succ, Nat.add_assoc, Nat.add_comm 1 n]

theorem fromVal_eq (val numBits : Nat) (h : numBits < 64) :
    fromVal val numBits = some ((List.range numBits).map val.testBit) := by
  unfold fromVal
  rw [if_pos (by simp only [BITS_TYPE_LENGTH]; omega)]
  by_cases h0 : numBits = 0
  · simp [h0]
  · rw [if_neg h0]
    simp only [fromValLoop_eq val numBits 0 [] 1 (by omega) (by decide)]
    simp [shl64, BITS_TYPE_LENGTH, h, Nat.shiftLeft_eq, List.range_eq_range']

theorem fromVal_full_width (val : Nat) : fromVal val 64 = none := by
  simp [fromVal, shl64, BITS_TYPE_LENGTH]

theorem length_bits (val numBits : Nat) :
    ((List.range numBits).map val.testBit).length = numBits := by
  simp

theorem headD_take_one (b : BitBuffer) (h : 1 ≤ b.length) : b.take 1 = [b.headD false] := by
  cases b with
  | nil => simp at h
  | cons x xs => simp

theorem drop_length_pred (b : BitBuffer) (h : 1 ≤ b.length) :
    b.drop (b.length - 1) = [b.getLastD false] := by
  induction b using List.reverseRecOn with
  | nil => simp at h
  | append_singleton xs x _ => simp

theorem toStr_singleton (x : Bool) : toStr [x] = if x then ['1'] else ['0'] := by
  cases x <;> rfl

theorem bitsVal_singleton (x : Bool) : bitsVal [x] = if x then 1 else 0 := by
  cases x <;> rfl

theorem frontString_eq (b : BitBuffer) (n : Nat) (h : n ≤ b.length) :
    frontString b n = some (toStr (b.take n)) := by
  unfold frontString
  rw [if_pos h]
  by_cases h1 : n = 1
  · subst h1
    rw [if_pos rfl, headD_take_one b h, toStr_singleton]
  · rw [if_neg h1, GetBits_eq b 0 n (Nat.zero_le _) h]
    simp

theorem backString_eq (b : BitBuffer) (n : Nat) (h : n ≤ b.length) :
    backString b n = some (toStr (b.drop (b.length - n))) := by
  unfold backString
  rw [if_pos h]
  by_cases h1 : n = 1
  · subst h1
    rw [if_pos rfl, drop_length_pred b h, toStr_singleton]
  · rw [if_neg h1, GetBits_eq b (b.length - n) b.length (Nat.sub_le _ _) (le_refl _),
      List.take_of_length_le (by simp)]
    rfl

theorem front_eq (b : BitBuffer) (n : Nat) (h0 : 0 < n) (h64 : n ≤ 64) (h : n ≤ b.length) :
    front b n = some (bitsVal (b.take n)) := by
  unfold front
  rw [if_pos h0, if_pos (by simpa [BITS_TYPE_LENGTH] using h64), if_pos h]
  by_cases h1 : n = 1
  · subst h1
    rw [if_pos rfl, headD_take_one b h, bitsVal_singleton]
  · rw [if_neg h1, GetBits_eq b 0 n (Nat.zero_le _) h]
    simp only [Option.some_bind, List.drop_zero, Nat.sub_zero]
    exact toBitsType_eq _ (by simp; omega) (by simp; omega)

theorem back_eq (b : BitBuffer) (n : Nat) (h0 : 0 < n) (h64 : n ≤ 64) (h : n ≤ b.length) :
    back b n = some (bitsVal (b.drop (b.length - n))) := by
  unfold back
  rw [if_pos h0, if_pos (by simpa [BITS_TYPE_LENGTH] using h64), if_pos h]
  by_cases h1 : n = 1
  · subst h1
    rw [if_pos rfl, drop_length_pred b h, bitsVal_singleton]
  · rw [if_neg h1, GetBits_eq b (b.length - n) b.length (Nat.sub_le _ _) (le_refl _)]
    have hsub : b.length - (b.length - n) = n := by omega
    simp only [Option.some_bind, hsub]
    rw [List.take_of_length_le (by simp; omega)]
    exact toBitsType_eq _ (by simp; omega) (by simp; omega)

theorem binary_map_id (s : List Char) (h : IsBinary s) :
    s.map (fun c => bitChar (decide (c = '1'))) = s := by
  induction s with
  | nil => rfl
  | cons c cs ih =>
      have hc : c = '0' ∨ c = '1' := h c (List.mem_cons_self _ _)
      have hcs : IsBinary cs := fun d hd => h d (List.mem_cons_of_mem _ hd)
      rw [List.map_cons, ih hcs]
      rcases hc with hc | hc <;> subst hc <;> rfl

theorem toStr_fromString_map (s : List Char) :
    toStr ((s.map (fun c => decide (c = '1'))).reverse) 
      = s.map (fun c => bitChar (decide (c = '1'))) := by
  rw [toStr_eq]
  simp [List.map_map, Function.comp_def]

theorem single_bit_of_lt_two (v : Nat) (hv : v < 2) : decide (v ≠ 0) = v.testBit 0 := by
  have h : v = 0 ∨ v = 1 := by omega
  rcases h with h | h <;> subst h <;> decide

theorem push_back_val_eq (B : BitBuffer) (v k : Nat) (hk : k < 64) (hv : k = 1 → v < 2) :
    push_back_val B v k = some (B ++ (List.range k).map v.testBit) := by
  unfold push_back_val
  by_cases h1 : k = 1
  · subst h1
    rw [if_pos rfl, single_bit_of_lt_two v (hv rfl)]
    rfl
  · rw [if_neg h1, fromVal_eq v k hk, Option.map_some', push_back_eq]

theorem push_front_val_eq (B : BitBuffer) (v k : Nat) (hk : k < 64) (hv : k = 1 → v < 2) :
    push_front_val B v k = some ((List.range k).map v.testBit ++ B) := by
  unfold push_front_val
  by_cases h1 : k = 1
  · subst h1
    rw [if_pos rfl, single_bit_of_lt_two v (hv rfl)]
    rfl
  · rw [if_neg h1, fromVal_eq v k hk, Option.map_some', push_front_eq]

theorem isBinary_take (s : List Char) (n : Nat) (h : IsBinary s) : IsBinary (s.take n) :=
  fun c hc => h c (List.mem_of_mem_take hc)

theorem isBinary_drop (s : List Char) (n : Nat) (h : IsBinary s) : IsBinary (s.drop n) :=
  fun c hc => h c (List.mem_of_mem_drop hc)

end BitBuffer

open BitBuffer

/-! ## Claims on the bit buffer -/

/-- C1, as stated, fails at `k = 0`: `BitBuffer(5, 0)` is the empty buffer, and the
integer conversion of an empty buffer stops at `assert(size() > 0)` instead of
yielding `5 & ((1 << 0) - 1) = 0`. -/
theorem c1_zero_width_conversion_aborts :
    fromVal 5 0 = some [] ∧ (fromVal 5 0).bind toBitsType = none ∧
      (fromVal 5 0).bind toBitsType ≠ some (5 &&& ((1 <<< 0) - 1)) := by
  decide

/-- C1, amended: for every 64-bit unsigned value `v` and every bit count `k` with
`1 ≤ k ≤ 63`, converting `BitBuffer(v, k)` back to an integer yields
`v & ((1 << k) - 1)`, which is `v` reduced modulo `2 ^ k`; for the bit count 64 the
constructor `BitBuffer(v, 64)` has no result, its closing assertion shifting a 64-bit
value by 64. -/
theorem c1_value_round_trip (v k : Nat) (_hv : v < 2 ^ 64) (hk1 : 1 ≤ k) (hk : k ≤ 63) :
    (fromVal v k).bind toBitsType = some (v &&& ((1 <<< k) - 1)) ∧
      v &&& ((1 <<< k) - 1) = v % 2 ^ k ∧
      fromVal v 64 = none ∧ (fromVal v 64).bind toBitsType = none := by
  have hmask : v &&& ((1 <<< k) - 1) = v % 2 ^ k := by
    rw [Nat.shiftLeft_eq, Nat.one_mul, Nat.and_pow_two_sub_one_eq_mod]
  refine ⟨?_, hmask, fromVal_full_width v, by rw [fromVal_full_width]; rfl⟩
  rw [fromVal_eq v k (by omega), Option.some_bind,
    toBitsType_eq _ (by rw [length_bits]; omega) (by rw [length_bits]; omega),
    bitsVal_testBit, hmask]

/-- C1 at the value and width of `BitBufferTest`: `0xfa51` in 16 bits. -/
theorem c1_value_round_trip_witness :
    (0xfa51 < 2 ^ 64 ∧ 1 ≤ 16 ∧ 16 ≤ 63) ∧
      ((fromVal 0xfa51 16).bind toBitsType = some (0xfa51 &&& ((1 <<< 16) - 1)) ∧
        0xfa51 &&& ((1 <<< 16) - 1) = 0xfa51 % 2 ^ 16 ∧
        fromVal 0xfa51 64 = none ∧ (fromVal 0xfa51 64).bind toBitsType = none) :=
  ⟨by decide, c1_value_round_trip 0xfa51 16 (by decide) (by decide) (by decide)⟩

/-- C2, as stated, fails at `a = 1` (one bit) and `b = 0` (one bit): `a + b` is the
two-bit buffer with `b` at position 0 and `a` at position 1, of value 2, whereas
`(b.toInt() << a.size) | a.toInt()` is 1, and the LSB of the result is the LSB of
`b`, not of `a`. -/
theorem c2_concat_operand_order_counterexample :
    add [true] [false] = [false, true] ∧
      toBitsType [true] = some 1 ∧ toBitsType [false] = some 0 ∧
      toBitsType (add [true] [false]) = some 2 ∧
      toBitsType (add [true] [false]) ≠ some ((0 <<< [true].length) ||| 1) ∧
      (add [true] [false]).head? ≠ [true].head? := by
  decide

/-- C2, amended: for all non-empty bit buffers `a` and `b` with
`a.size + b.size ≤ 64`, the integer value of `a + b` equals
`(a.toInt() << b.size) | b.toInt()`: `b` sits at the LSB end and `a` at the MSB end,
so the LSB of the result is the LSB of `b`. -/
theorem c2_concat_value (a b : BitBuffer) (ha : a ≠ []) (hb : b ≠ [])
    (hlen : a.length + b.length ≤ 64) :
    ∃ va vb, toBitsType a = some va ∧ toBitsType b = some vb ∧
      toBitsType (add a b) = some ((va <<< b.length) ||| vb) ∧
      add a b = b ++ a ∧ (add a b).head? = b.head? := by
  have hla : 0 < a.length := List.length_pos.mpr ha
  have hlb : 0 < b.length := List.length_pos.mpr hb
  have hadd : add a b = b ++ a := by rw [add, addAssign, push_front_eq]
  refine ⟨bitsVal a, bitsVal b, toBitsType_eq a hla (by omega), toBitsType_eq b hlb (by omega),
    ?_, hadd, ?_⟩
  · rw [hadd, toBitsType_eq (b ++ a) (by simp; omega) (by simp; omega), bitsVal_append,
      Nat.shiftLeft_eq, Nat.mul_comm (bitsVal a), ← Nat.mul_add_lt_is_or (bitsVal_lt b),
      Nat.add_comm]
  · rw [hadd]
    cases b with
    | nil => exact absurd rfl hb
    | cons x xs => rfl

/-- C2 at a two-bit `a = "01"` and a one-bit `b = "1"`. -/
theorem c2_concat_value_witness :
    ([true, false] ≠ [] ∧ [true] ≠ [] ∧ [true, false].length + [true].length ≤ 64) ∧
      ∃ va vb, toBitsType [true, false] = some va ∧ toBitsType [true] = some vb ∧
        toBitsType (add [true, false] [true]) = some ((va <<< [true].length) ||| vb) ∧
        add [true, false] [true] = [true] ++ [true, false] ∧
        (add [true, false] [true]).head? = [true].head? :=
  ⟨by decide, c2_concat_value [true, false] [true] (by decide) (by decide) (by decide)⟩

/-- C3: for every bit buffer `c` and every non-empty bit buffer `b`, after `c += b` the
front `b.size` bits of `c` read as a string equal the string form of `b`, the buffer
has grown by `b.size` bits, and the former bits of `c` follow above them unchanged
(popping `b.size` bits off the front gives `c` back); the LSB of the result is the
LSB of `b`. -/
theorem c3_add_assign_places_operand_at_front (c b : BitBuffer) (hb : b ≠ []) :
    frontString (addAssign c b) b.length = some (toStr b) ∧
      (addAssign c b).length = b.length + c.length ∧
      pop_front (addAssign c b) b.length = some c ∧
      (∀ i, i < c.length → (addAssign c b).getD (b.length + i) false = c.getD i false) ∧
      (addAssign c b).head? = b.head? := by
  have hadd : addAssign c b = b ++ c := by rw [addAssign, push_front_eq]
  rw [hadd]
  refine ⟨?_, by simp, ?_, ?_, ?_⟩
  · rw [frontString_eq (b ++ c) b.length (by simp), List.take_left']
    rfl
  · simp [pop_front]
  · intro i _
    simp [List.getD_eq_getElem?_getD, List.getElem?_append_right]
  · cases b with
    | nil => exact absurd rfl hb
    | cons x xs => rfl

/-- C3 at the shape of `BitBufferTest`: a string pushed onto a buffer with `+=`. -/
theorem c3_add_assign_places_operand_at_front_witness :
    fromString "101".toList ≠ [] ∧
      (frontString (addAssign (fromString "0011".toList) (fromString "101".toList))
          (fromString "101".toList).length = some (toStr (fromString "101".toList)) ∧
        (addAssign (fromString "0011".toList) (fromString "101".toList)).length
          = (fromString "101".toList).length + (fromString "0011".toList).length ∧
        pop_front (addAssign (fromString "0011".toList) (fromString "101".toList))
          (fromString "101".toList).length = some (fromString "0011".toList) ∧
        (∀ i, i < (fromString "0011".toList).length →
          (addAssign (fromString "0011".toList) (fromString "101".toList)).getD
            ((fromString "101".toList).length + i) false
            = (fromString "0011".toList).getD i false) ∧
        (addAssign (fromString "0011".toList) (fromString "101".toList)).head?
          = (fromString "101".toList).head?) :=
  ⟨by decide,
    c3_add_assign_places_operand_at_front (fromString "0011".toList) (fromString "101".toList)
      (by decide)⟩

/-- C4: for every string `s` over the characters 0 and 1, converting `BitBuffer(s)` to
a string yields `s`; the buffer has one bit per character, the rightmost character is
position 0 and the leftmost character is the MSB at position `size - 1`. -/
theorem c4_string_round_trip (s : List Char) (hs : IsBinary s) :
    toStr (fromString s) = s ∧
      (fromString s).length = s.length ∧
      ∀ i, i < s.length →
        (fromString s).getD i false = decide (s.getD (s.length - 1 - i) '0' = '1') := by
  refine ⟨?_, by simp [fromString_eq], ?_⟩
  · rw [fromString_eq, List.map_reverse, toStr_fromString_map, binary_map_id s hs]
  · intro i hi
    have hj : s.length - 1 - i < s.length := by omega
    rw [fromString_eq, List.getD_eq_getElem?_getD, List.getElem?_map,
      List.getElem?_reverse hi, List.getD_eq_getElem?_getD, List.getElem?_eq_getElem hj]
    rfl

/-- C4 at a seven-character string. -/
theorem c4_string_round_trip_witness :
    IsBinary "1101011".toList ∧
      (toStr (fromString "1101011".toList) = "1101011".toList ∧
        (fromString "1101011".toList).length = "1101011".toList.length ∧
        ∀ i, i < "1101011".toList.length →
          (fromString "1101011".toList).getD i false
            = decide ("1101011".toList.getD ("1101011".toList.length - 1 - i) '0' = '1')) :=
  ⟨by decide, c4_string_round_trip "1101011".toList (by decide)⟩

theorem push_pop_round_trip (B : BitBuffer) (k v : Nat) (hk1 : 1 ≤ k) (hk : k ≤ 63)
    (hv : v < 2 ^ k) :
    (∃ B1, push_back_val B v k = some B1 ∧ back B1 k = some v ∧ pop_back B1 k = some B) ∧
      (∃ B2, push_front_val B v k = some B2 ∧ front B2 k = some v ∧
        pop_front B2 k = some B) := by
  have hv1 : k = 1 → v < 2 := by
    intro h
    subst h
    simpa using hv
  have hval : bitsVal ((List.range k).map v.testBit) = v := by
    rw [bitsVal_testBit, Nat.mod_eq_of_lt hv]
  constructor
  · refine ⟨_, push_back_val_eq B v k (by omega) hv1, ?_, ?_⟩
    · rw [back_eq _ k hk1 (by omega) (by simp)]
      simp [hval]
    · simp [pop_back]
  · refine ⟨_, push_front_val_eq B v k (by omega) hv1, ?_, ?_⟩
    · rw [front_eq _ k hk1 (by omega) (by simp)]
      simp [hval]
    · simp [pop_front]

/-- C5 fails in the code at `k = 64`: `push_back(v, 64)` and `push_front(v, 64)` build
`BitBuffer(v, 64)`, whose first assertion `numBits <= BITS_TYPE_LENGTH` lets 64
through and whose closing assertion shifts a 64-bit value by 64, so neither push
has a result, for any buffer and value, and there is nothing for `back(64)` or
`front(64)` to return. For every `k` with `1 ≤ k ≤ 63` and every `v < 2 ^ k` the
round trip of the claim holds on both ends. -/
theorem c5_push_of_sixty_four_bits_aborts :
    decide (64 ≤ BITS_TYPE_LENGTH) = true ∧ shl64 1 64 = none ∧
      (∀ (B : BitBuffer) (v : Nat),
        fromVal v 64 = none ∧ push_back_val B v 64 = none ∧ push_front_val B v 64 = none) ∧
      push_back_val [true, false, true, true] 0xfedcba9876543210 64 = none ∧
      push_front_val [true, false, true, true] 0xfedcba9876543210 64 = none ∧
      (∀ (B : BitBuffer) (k v : Nat), 1 ≤ k → k ≤ 63 → v < 2 ^ k →
        (∃ B1, push_back_val B v k = some B1 ∧ back B1 k = some v ∧
          pop_back B1 k = some B) ∧
        (∃ B2, push_front_val B v k = some B2 ∧ front B2 k = some v ∧
          pop_front B2 k = some B)) := by
  have hall : ∀ (B : BitBuffer) (v : Nat),
      fromVal v 64 = none ∧ push_back_val B v 64 = none ∧ push_front_val B v 64 = none := by
    intro B v
    refine ⟨fromVal_full_width v, ?_, ?_⟩
    · rw [push_back_val, if_neg (by decide), fromVal_full_width]; rfl
    · rw [push_front_val, if_neg (by decide), fromVal_full_width]; rfl
  exact ⟨by decide, by decide, hall, (hall _ _).2.1, (hall _ _).2.2,
    fun B k v hk1 hk hv => push_pop_round_trip B k v hk1 hk hv⟩

/-- C6 fails in the code at width 1: `push_back(2, 1)` on the empty buffer pushes
`!!val`, a 1, although bit 0 of the value 2 is 0; the value constructor, which the
other widths go through, gives the bit 0 for the same arguments. -/
theorem c6_single_bit_push_back_takes_any_set_bit :
    push_back_val [] 2 1 = some [true] ∧ Nat.testBit 2 0 = false ∧
      fromVal 2 1 = some [false] := by
  decide

/-- C7: for every binary string `s` and every `n` with `1 ≤ n ≤ |s|`,
`BitBuffer(s).backString(n)` equals the first (leftmost) `n` characters of `s` and
`BitBuffer(s).frontString(n)` equals the last (rightmost) `n` characters of `s`. -/
theorem c7_back_and_front_strings (s : List Char) (n : Nat) (hs : IsBinary s)
    (_hn1 : 1 ≤ n) (hn : n ≤ s.length) :
    backString (fromString s) n = some (s.take n) ∧
      frontString (fromString s) n = some (s.drop (s.length - n)) := by
  have hlen : (fromString s).length = s.length := by simp [fromString_eq]
  constructor
  · rw [backString_eq _ n (by omega), hlen, fromString_eq, List.map_reverse,
      List.drop_reverse, List.length_map, ← List.map_take,
      show s.length - (s.length - n) = n by omega, toStr_fromString_map,
      binary_map_id _ (isBinary_take s n hs)]
  · rw [frontString_eq _ n (by omega), fromString_eq, List.map_reverse,
      List.take_reverse, List.length_map, ← List.map_drop, toStr_fromString_map,
      binary_map_id _ (isBinary_drop s _ hs)]

/-- C7 at a seven-character string and `n = 3`. -/
theorem c7_back_and_front_strings_witness :
    (IsBinary "1101011".toList ∧ 1 ≤ 3 ∧ 3 ≤ "1101011".toList.length) ∧
      (backString (fromString "1101011".toList) 3 = some ("1101011".toList.take 3) ∧
        frontString (fromString "1101011".toList) 3
          = some ("1101011".toList.drop ("1101011".toList.length - 3))) :=
  ⟨by decide,
    c7_back_and_front_strings "1101011".toList 3 (by decide) (by decide) (by decide)⟩

set_option maxRecDepth 8192 in
/-- C8, as stated, fails at the 65-bit buffer holding a 1 at position 0 and 0 at
positions 1 to 64: the conversion stops at `assert(size() <= BITS_TYPE_LENGTH)` and
yields no value, and the loop below the assertion runs over positions 63 down to 0
and gives 1, whereas positions `size - 64` to `size - 1` hold the value 0. -/
theorem c8_conversion_above_64_counterexample :
    (true :: List.replicate 64 false).length = 65 ∧
      toBitsType (true :: List.replicate 64 false) = none ∧
      toBitsType (true :: List.replicate 64 false)
        ≠ some (bitsVal ((true :: List.replicate 64 false).drop (65 - 64))) ∧
      toBitsTypeRaw (true :: List.replicate 64 false) = 1 ∧
      bitsVal ((true :: List.replicate 64 false).drop (65 - 64)) = 0 := by
  refine ⟨rfl, rfl, ?_, rfl, rfl⟩
  intro h
  exact Option.noConfusion h

/-- C8, amended: for every non-empty bit buffer of at most 64 bits the integer
conversion uses all `size` bits, accumulating MSB-down from position `size - 1`, so
the result is the value of positions 0 to `size - 1`; for a buffer whose size exceeds
64 the conversion stops at `assert(size() <= BITS_TYPE_LENGTH)` and yields no value. -/
theorem c8_conversion_window (b : BitBuffer) (hb : b ≠ []) :
    toBitsType b = (if b.length ≤ 64 then some (bitsVal b) else none) ∧
      (b.length ≤ 64 → toBitsTypeRaw b = toBitsTypeLoop b b.length 0) := by
  have hpos : 0 < b.length := List.length_pos.mpr hb
  constructor
  · by_cases h : b.length ≤ 64
    · rw [if_pos h, toBitsType_eq b hpos h]
    · rw [if_neg h]
      simp [toBitsType, BITS_TYPE_LENGTH, h]
  · intro h
    rw [toBitsTypeRaw, Nat.min_eq_left (by simpa [BITS_TYPE_LENGTH] using h)]

/-- C8 at a three-bit buffer of value 6. -/
theorem c8_conversion_window_witness :
    [false, true, true] ≠ [] ∧
      (toBitsType [false, true, true]
          = (if [false, true, true].length ≤ 64 then some (bitsVal [false, true, true])
              else none) ∧
        ([false, true, true].length ≤ 64 →
          toBitsTypeRaw [false, true, true]
            = toBitsTypeLoop [false, true, true] [false, true, true].length 0)) :=
  ⟨by decide, c8_conversion_window [false, true, true] (by decide)⟩

/-! ## Claims on the TAP state table -/

/-- C9: the table has seventeen rows of two entries, and for every (state, tms) pair
over the seventeen state codes and both values of TMS its entry equals the IEEE 1149.1
TAP controller next-state function, both entries of the INVALID row being INVALID. -/
theorem c9_table_matches_ieee_1149 :
    nextTapState.map List.length = List.replicate 17 2 ∧
      (∀ (s : TapStateType) (tms : Bool), nextTapStateAt s tms = ieee1149Next s tms) ∧
      nextTapStateAt .INVALID_TAP_STATE false = .INVALID_TAP_STATE ∧
      nextTapStateAt .INVALID_TAP_STATE true = .INVALID_TAP_STATE := by
  refine ⟨rfl, ?_, rfl, rfl⟩
  intro s tms
  cases s <;> cases tms <;> rfl

/-- C10, as stated, fails at the INVALID sentinel: five applications of the table
with TMS=1 leave it at INVALID, which is not Test-Logic-Reset. -/
theorem c10_invalid_state_never_resets :
    tapAfter true 5 .INVALID_TAP_STATE = .INVALID_TAP_STATE ∧
      tapAfter true 5 .INVALID_TAP_STATE ≠ .TEST_LOGIC_RESET := by
  decide

/-- C10, amended: from any of the sixteen IEEE TAP states (every state of the state
type other than the INVALID sentinel), applying the next-state table five times in a
row with TMS=1 yields Test-Logic-Reset; five calls of `ShiftTms(1)` leave the software
TAP state there and queue five 1 bits. -/
theorem c10_five_tms_ones_reset (p : JtagPort)
    (hvalid : p.mTapState ≠ .INVALID_TAP_STATE) :
    tapAfter true 5 p.mTapState = .TEST_LOGIC_RESET ∧
      (((((p.ShiftTms true).ShiftTms true).ShiftTms true).ShiftTms true).ShiftTms true)
        = { p with
            mTapState := .TEST_LOGIC_RESET
            mTmsBitBuffer := p.mTmsBitBuffer ++ [true, true, true, true, true] } := by
  obtain ⟨port, s, tms, tdi⟩ := p
  cases s <;> first
    | exact absurd rfl hvalid
    | exact ⟨rfl, by simp [JtagPort.ShiftTms, nextTapStateAt, nextTapState, TapStateType.code]⟩

/-- C10 from Shift-DR with empty transmit buffers. -/
theorem c10_five_tms_ones_reset_witness :
    (JtagPort.mk none .SHIFT_DR [] []).mTapState ≠ .INVALID_TAP_STATE ∧
      (tapAfter true 5 (JtagPort.mk none .SHIFT_DR [] []).mTapState = .TEST_LOGIC_RESET ∧
        ((((((JtagPort.mk none .SHIFT_DR [] []).ShiftTms true).ShiftTms true).ShiftTms true).ShiftTms
            true).ShiftTms true)
          = { JtagPort.mk none .SHIFT_DR [] [] with
              mTapState := .TEST_LOGIC_RESET
              mTmsBitBuffer :=
                (JtagPort.mk none .SHIFT_DR [] []).mTmsBitBuffer ++ [true, true, true, true, true] }) :=
  ⟨by decide, c10_five_tms_ones_reset (JtagPort.mk none .SHIFT_DR [] []) (by decide)⟩

end Xstools

namespace Xstools

/-! ## Lemmas on error objects, packing and interleaving -/

namespace XsError

theorem orAssign_noError_noError : orAssign noError noError = some noError := rfl

theorem orAssign_noError_status (st : PortStatus) :
    orAssign noError st.toXsError = some st.toXsError := by
  cases st <;> rfl

theorem nonFatal_noError : noError.NonFatal := by decide

theorem nonFatal_status (st : PortStatus) : st.toXsError.NonFatal := by
  cases st <;> simp [PortStatus.toXsError, NonFatal, noError]

theorem orAssign_nonFatal (a b : XsError) (ha : a.NonFatal) (hb : b.NonFatal) :
    ∃ c, orAssign a b = some c ∧ c.NonFatal := by
  obtain ⟨sa, ma⟩ := a
  obtain ⟨sb, mb⟩ := b
  cases sa <;> cases sb <;>
    first
      | exact absurd rfl ha
      | exact absurd rfl hb
      | exact ⟨_, rfl, by simp [NonFatal]⟩

end XsError

open BitBuffer

theorem bitsVal_testBit_getD (l : List Bool) : ∀ j : Nat,
    (bitsVal l).testBit j = l.getD j false := by
  induction l with
  | nil => intro j; simp [bitsVal]
  | cons x xs ih =>
      intro j
      cases j with
      | zero =>
          simp only [bitsVal, Nat.testBit_zero, List.getD_cons_zero]
          cases x <;> simp
      | succ j =>
          rw [Nat.testBit_succ, List.getD_cons_succ, ← ih j]
          congr 1
          simp only [bitsVal]
          cases x
          · simp
          · simp
            omega

theorem packedBytes_nil : packedBytes [] = [] := rfl

theorem packedBytes_cons (bits : List Bool) (h : bits ≠ []) :
    packedBytes bits = bitsVal (bits.take 8) :: packedBytes (bits.drop 8) := by
  have hpos : 0 < bits.length := List.length_pos.mpr h
  have hlen : (bits.length + 7) / 8 = ((bits.drop 8).length + 7) / 8 + 1 := by
    rw [List.length_drop]
    omega
  unfold packedBytes
  rw [hlen, List.range_succ_eq_map, List.map_cons, List.map_map]
  simp only [Nat.mul_zero, List.drop_zero, List.cons.injEq, true_and]
  apply List.map_congr_left
  intro i _
  simp only [Function.comp, List.drop_drop]
  rw [show 8 * i.succ = 8 + 8 * i by omega]

theorem length_packedBytes (bits : List Bool) :
    (packedBytes bits).length = (bits.length + 7) / 8 := by
  simp [packedBytes]

theorem packedBytes_lt (bits : List Bool) : ∀ x ∈ packedBytes bits, x < 256 := by
  intro x hx
  simp only [packedBytes, List.mem_map, List.mem_range] at hx
  obtain ⟨i, _, rfl⟩ := hx
  have h1 := bitsVal_lt ((bits.drop (8 * i)).take 8)
  have h2 : ((bits.drop (8 * i)).take 8).length ≤ 8 := by
    rw [List.length_take]; exact Nat.min_le_left _ _
  calc bitsVal ((bits.drop (8 * i)).take 8)
      < 2 ^ ((bits.drop (8 * i)).take 8).length := h1
    _ ≤ 2 ^ 8 := Nat.pow_le_pow_right (by decide) h2

theorem packedBytes_testBit (bits : List Bool) (i j : Nat) (hi : i < (bits.length + 7) / 8)
    (hj : j < 8) :
    ((packedBytes bits).getD i 0).testBit j = bits.getD (8 * i + j) false := by
  have hget : (packedBytes bits).getD i 0 = bitsVal ((bits.drop (8 * i)).take 8) := by
    simp [packedBytes, List.getD_eq_getElem?_getD, hi]
  rw [hget, bitsVal_testBit_getD]
  simp [List.getD_eq_getElem?_getD, List.getElem?_take, hj, List.getElem?_drop]

theorem unpackBits_packedBytes (bits : List Bool) :
    unpackBits (packedBytes bits) bits.length = bits := by
  apply List.ext_getElem
  · simp [unpackBits]
  · intro k h1 h2
    simp only [unpackBits, List.getElem_map, List.getElem_range]
    rw [packedBytes_testBit bits (k / 8) (k % 8) (by omega) (Nat.mod_lt _ (by decide)),
      Nat.div_add_mod, List.getD_eq_getElem?_getD, List.getElem?_eq_getElem h2]
    rfl

end Xstools

namespace Xstools
open BitBuffer

namespace JtagPort

theorem take_min_length {α : Type} (l : List α) (n : Nat) :
    l.take (min n l.length) = l.take n := by
  rcases Nat.le_total n l.length with h | h
  · rw [Nat.min_eq_left h]
  · rw [Nat.min_eq_right h, List.take_of_length_le h, List.take_of_length_le (le_refl _)]

theorem drop_min_length {α : Type} (l : List α) (n : Nat) :
    l.drop (min n l.length) = l.drop n := by
  rcases Nat.le_total n l.length with h | h
  · rw [Nat.min_eq_left h]
  · rw [Nat.min_eq_right h, List.drop_of_length_le h, List.drop_of_length_le (le_refl _)]

theorem bitsVal_take_eight_lt (bits : List Bool) : bitsVal (bits.take 8) < 256 := by
  have h1 := bitsVal_lt (bits.take 8)
  have h2 : (bits.take 8).length ≤ 8 := by
    rw [List.length_take]; exact Nat.min_le_left _ _
  calc bitsVal (bits.take 8) < 2 ^ (bits.take 8).length := h1
    _ ≤ 2 ^ 8 := Nat.pow_le_pow_right (by decide) h2

theorem PackBitsLoop_eq : ∀ (fuel : Nat) (bits : BitBuffer) (words : List Nat),
    bits.length ≤ fuel →
    PackBitsLoop fuel bits words = some ([], words ++ packedBytes bits) := by
  intro fuel
  induction fuel with
  | zero =>
      intro bits words h
      have hnil : bits = [] := List.length_eq_zero.mp (Nat.le_zero.mp h)
      subst hnil
      simp [PackBitsLoop, packedBytes_nil]
  | succ fuel ih =>
      intro bits words h
      by_cases hb : bits = []
      · subst hb
        simp [PackBitsLoop, packedBytes_nil]
      · have hpos : 0 < bits.length := List.length_pos.mpr hb
        have hchunk : 0 < min Port.DATA_LENGTH bits.length := by
          simp only [Port.DATA_LENGTH]; omega
        have hfront := front_eq bits (min Port.DATA_LENGTH bits.length) hchunk
          (by simp only [Port.DATA_LENGTH]; omega) (Nat.min_le_right _ _)
        have hpop : pop_front bits (min Port.DATA_LENGTH bits.length)
            = some (bits.drop (min Port.DATA_LENGTH bits.length)) := by
          simp [pop_front]
        rw [PackBitsLoop, if_pos hpos, hfront, hpop]
        simp only [Option.some_bind, Port.DATA_LENGTH, take_min_length, drop_min_length]
        rw [ih _ _ (by rw [List.length_drop]; omega), packedBytes_cons bits hb,
          Nat.mod_eq_of_lt (bitsVal_take_eight_lt bits)]
        simp

theorem PackBitsIntoWords_eq (bits : BitBuffer) (words : List Nat) (hb : bits ≠ []) :
    PackBitsIntoWords bits words = some ([], words ++ packedBytes bits) := by
  have hne : words ++ packedBytes bits ≠ [] := by
    rw [packedBytes_cons bits hb]
    simp
  simp [PackBitsIntoWords, hb, PackBitsLoop_eq bits.length bits words (le_refl _), hne]

theorem InterleaveLoop_eq : ∀ (b1 b2 r : List Nat), b1.length = b2.length →
    InterleaveLoop b1 b2 r = some (r ++ interleaved b1 b2) := by
  intro b1
  induction b1 with
  | nil => intro b2 r _; cases b2 <;> simp [InterleaveLoop, interleaved]
  | cons x xs ih =>
      intro b2 r h
      cases b2 with
      | nil => simp at h
      | cons y ys =>
          rw [InterleaveLoop, ih ys _ (by simpa using h)]
          simp [interleaved]

theorem InterleaveBuffers_eq (b1 b2 r : List Nat) (h : b1.length = b2.length)
    (hr : r ≠ []) :
    InterleaveBuffers b1 b2 r = some (r ++ interleaved b1 b2) := by
  simp [InterleaveBuffers, h, InterleaveLoop_eq b1 b2 r h, hr]

theorem evenIndexed_interleaved : ∀ (a b : List Nat), a.length = b.length →
    evenIndexed (interleaved a b) = a := by
  intro a
  induction a with
  | nil => intro b _; cases b <;> rfl
  | cons x xs ih =>
      intro b h
      cases b with
      | nil => simp at h
      | cons y ys => simp [interleaved, evenIndexed, ih ys (by simpa using h)]

theorem oddIndexed_interleaved : ∀ (a b : List Nat), a.length = b.length →
    oddIndexed (interleaved a b) = b := by
  intro a
  induction a with
  | nil => intro b h; cases b with
    | nil => rfl
    | cons y ys => simp at h
  | cons x xs ih =>
      intro b h
      cases b with
      | nil => simp at h
      | cons y ys => simp [interleaved, oddIndexed, ih ys (by simpa using h)]

theorem length_interleaved : ∀ (a b : List Nat), a.length = b.length →
    (interleaved a b).length = 2 * a.length := by
  intro a
  induction a with
  | nil => intro b _; cases b <;> rfl
  | cons x xs ih =>
      intro b h
      cases b with
      | nil => simp at h
      | cons y ys =>
          simp only [interleaved, List.length_cons, ih ys (by simpa using h)]
          omega

theorem FlushWrite_eq (port : Port) (p : JtagPort) (wb : List Nat) (hwb : wb ≠ [])
    (htms : p.mTmsBitBuffer = []) (htdi : p.mTdiBitBuffer = []) :
    FlushWrite port p XsError.noError wb
      = some ((port.writeResults.headD PortStatus.ok).toXsError,
          { p with mpPhysPort := some (port.Write wb).2 }) := by
  simp [FlushWrite, hwb, Port.Write, XsError.orAssign_noError_status, IsBufferEmpty, htms, htdi]

end JtagPort
end Xstools

namespace Xstools
open BitBuffer

namespace JtagPort

theorem hdr_append (jc n flags : Nat) (payload : List Nat) :
    PrependJtagCmdHdr jc n flags [] ++ payload = PrependJtagCmdHdr jc n flags payload := rfl

theorem hdr_ne_nil (jc n flags : Nat) (payload : List Nat) :
    PrependJtagCmdHdr jc n flags payload ≠ [] := by
  simp [PrependJtagCmdHdr]

theorem FlushFuel_tms_only (jc k : Nat) (port : Port) (s : TapStateType) (tms : BitBuffer)
    (htms : tms ≠ []) :
    FlushFuel jc (k + 1) ⟨some port, s, tms, []⟩
      = some ((port.writeResults.headD PortStatus.ok).toXsError,
          ⟨some (port.Write (PrependJtagCmdHdr jc tms.length PUT_TMS_MASK (packedBytes tms))).2,
            s, [], []⟩) := by
  rw [FlushFuel]
  simp only [IsBufferEmpty, htms, decide_False, Bool.false_and, Bool.false_eq_true, if_false,
    if_true, XsError.orAssign_noError_noError, Option.some_bind,
    PackBitsIntoWords_eq tms _ htms, hdr_append]
  rw [FlushWrite_eq _ _ _ (hdr_ne_nil _ _ _ _) rfl rfl]

theorem FlushFuel_tdi_only (jc k : Nat) (port : Port) (s : TapStateType) (tdi : BitBuffer)
    (htdi : tdi ≠ []) :
    FlushFuel jc (k + 1) ⟨some port, s, [], tdi⟩
      = some ((port.writeResults.headD PortStatus.ok).toXsError,
          ⟨some (port.Write (PrependJtagCmdHdr jc tdi.length PUT_TDI_MASK (packedBytes tdi))).2,
            s, [], []⟩) := by
  rw [FlushFuel]
  simp only [IsBufferEmpty, htdi, decide_False, decide_True, Bool.and_false, Bool.false_eq_true,
    if_false, if_true, XsError.orAssign_noError_noError, Option.some_bind,
    PackBitsIntoWords_eq tdi _ htdi, hdr_append]
  rw [FlushWrite_eq _ _ _ (hdr_ne_nil _ _ _ _) rfl rfl]

theorem FlushFuel_equal (jc k : Nat) (port : Port) (s : TapStateType) (tms tdi : BitBuffer)
    (htms : tms ≠ []) (hlen : tms.length = tdi.length) :
    FlushFuel jc (k + 1) ⟨some port, s, tms, tdi⟩
      = some ((port.writeResults.headD PortStatus.ok).toXsError,
          ⟨some (port.Write (PrependJtagCmdHdr jc tdi.length (PUT_TDI_MASK ||| PUT_TMS_MASK)
              (interleaved (packedBytes tms) (packedBytes tdi)))).2,
            s, [], []⟩) := by
  have htdi : tdi ≠ [] := by
    intro h
    rw [h] at hlen
    exact htms (List.length_eq_zero.mp hlen)
  have hpl : (packedBytes tms).length = (packedBytes tdi).length := by
    rw [length_packedBytes, length_packedBytes, hlen]
  rw [FlushFuel]
  simp only [IsBufferEmpty, htms, htdi, hlen, decide_False, Bool.false_and, Bool.false_eq_true,
    if_false, if_true, XsError.orAssign_noError_noError, Option.some_bind,
    PackBitsIntoWords_eq tms _ htms, PackBitsIntoWords_eq tdi _ htdi, List.nil_append,
    InterleaveBuffers_eq _ _ _ hpl (hdr_ne_nil _ _ _ _), hdr_append]
  rw [FlushWrite_eq _ _ _ (hdr_ne_nil _ _ _ _) rfl rfl]

end JtagPort
end Xstools

namespace Xstools
open BitBuffer

namespace JtagPort

theorem back_one (b : BitBuffer) (h : 1 ≤ b.length) :
    back b 1 = some (if b.getLastD false then 1 else 0) := by
  simp [back, BITS_TYPE_LENGTH, h]

theorem pop_back_one (b : BitBuffer) (h : 1 ≤ b.length) :
    pop_back b 1 = some (b.take (b.length - 1)) := by
  simp [pop_back, h]

theorem push_back_val_bit (b : BitBuffer) (x : Bool) :
    push_back_val b (if x then 1 else 0) 1 = some (b ++ [x]) := by
  cases x <;> simp [push_back_val]

theorem packedBytes_singleton (x : Bool) : packedBytes [x] = [if x then 1 else 0] := by
  cases x <;> rfl

theorem FlushFuel_split_eq (jc k : Nat) (port : Port) (s : TapStateType) (t : Bool)
    (tdi : BitBuffer) (hlen : 2 ≤ tdi.length) :
    FlushFuel jc (k + 2) ⟨some port, s, [t], tdi⟩
      = (XsError.orAssign (port.writeResults.headD PortStatus.ok).toXsError
          ((port.Write (PrependJtagCmdHdr jc (tdi.length - 1) PUT_TDI_MASK
            (packedBytes (tdi.take (tdi.length - 1))))).2.writeResults.headD
              PortStatus.ok).toXsError).map
        fun err =>
          (err,
            ⟨some ((port.Write (PrependJtagCmdHdr jc (tdi.length - 1) PUT_TDI_MASK
                  (packedBytes (tdi.take (tdi.length - 1))))).2.Write
                (PrependJtagCmdHdr jc 1 (PUT_TDI_MASK ||| PUT_TMS_MASK)
                  [if t then 1 else 0, if tdi.getLastD false then 1 else 0])).2,
              s, [], []⟩) := by
  have htdi : tdi ≠ [] := by
    intro h; rw [h] at hlen; simp at hlen
  have hne : ¬ (1 = tdi.length) := by omega
  have htake : tdi.take (tdi.length - 1) ≠ [] := by
    intro h
    have := congrArg List.length h
    rw [List.length_take] at this
    simp at this
    omega
  have htl : (tdi.take (tdi.length - 1)).length = tdi.length - 1 := by
    rw [List.length_take]; omega
  rw [FlushFuel]
  simp only [IsBufferEmpty, htdi, hne, List.length_singleton, decide_False, Bool.false_and,
    Bool.and_false, Bool.false_eq_true, if_false, if_true, List.cons_ne_nil, not_false_eq_true,
    back_one [t] (le_refl _), back_one tdi (by omega), pop_back_one [t] (le_refl _),
    pop_back_one tdi (by omega), Option.some_bind, Nat.sub_self, List.take_zero,
    List.getLastD_cons, List.getLastD_nil, FlushFuel_tdi_only jc k port s _ htake, htl,
    XsError.orAssign_noError_status, push_back_val_bit, List.nil_append,
    FlushFuel_equal jc k _ s [t] [tdi.getLastD false] (by simp) rfl, packedBytes_singleton,
    interleaved]

theorem FlushFuel_split (jc k : Nat) (port : Port) (s : TapStateType) (t : Bool)
    (tdi : BitBuffer) (hlen : 2 ≤ tdi.length) :
    ∃ err : XsError, err.NonFatal ∧
      FlushFuel jc (k + 2) ⟨some port, s, [t], tdi⟩
        = some (err,
            ⟨some ((port.Write (PrependJtagCmdHdr jc (tdi.length - 1) PUT_TDI_MASK
                  (packedBytes (tdi.take (tdi.length - 1))))).2.Write
                (PrependJtagCmdHdr jc 1 (PUT_TDI_MASK ||| PUT_TMS_MASK)
                  [if t then 1 else 0, if tdi.getLastD false then 1 else 0])).2,
              s, [], []⟩) := by
  obtain ⟨err, herr, hnf⟩ := XsError.orAssign_nonFatal
    (port.writeResults.headD PortStatus.ok).toXsError
    ((port.Write (PrependJtagCmdHdr jc (tdi.length - 1) PUT_TDI_MASK
      (packedBytes (tdi.take (tdi.length - 1))))).2.writeResults.headD PortStatus.ok).toXsError
    (XsError.nonFatal_status _) (XsError.nonFatal_status _)
  exact ⟨err, hnf, by rw [FlushFuel_split_eq jc k port s t tdi hlen, herr]; rfl⟩

theorem FlushFuel_stable (jc k : Nat) (p : JtagPort) :
    FlushFuel jc (k + 2) p = FlushFuel jc 2 p := by
  obtain ⟨pp, s, tms, tdi⟩ := p
  cases pp with
  | none => simp [FlushFuel]
  | some port =>
    by_cases htdi : tdi = []
    · subst htdi
      by_cases htms : tms = []
      · subst htms; simp [FlushFuel, IsBufferEmpty]
      · rw [FlushFuel_tms_only jc (k + 1) port s tms htms, FlushFuel_tms_only jc 1 port s tms htms]
    · by_cases htms : tms = []
      · subst htms
        rw [FlushFuel_tdi_only jc (k + 1) port s tdi htdi, FlushFuel_tdi_only jc 1 port s tdi htdi]
      · by_cases hlen : tms.length = tdi.length
        · rw [FlushFuel_equal jc (k + 1) port s tms tdi htms hlen,
            FlushFuel_equal jc 1 port s tms tdi htms hlen]
        · by_cases hone : tms.length = 1
          · obtain ⟨t, rfl⟩ := List.length_eq_one.mp hone
            have h2 : 2 ≤ tdi.length := by
              have := List.length_pos.mpr htdi
              simp at hlen
              omega
            rw [FlushFuel_split_eq jc k port s t tdi h2, FlushFuel_split_eq jc 0 port s t tdi h2]
          · simp [FlushFuel, IsBufferEmpty, htms, htdi, hlen, hone]

end JtagPort
end Xstools

namespace Xstools
open BitBuffer

namespace JtagPort

theorem valid_code (s : TapStateType) (h : s ≠ .INVALID_TAP_STATE) :
    TapStateType.TEST_LOGIC_RESET.code ≤ s.code ∧ s.code ≤ TapStateType.UPDATE_IR.code := by
  cases s <;> first
    | exact absurd rfl h
    | decide

theorem next_valid (s : TapStateType) (tms : Bool) (h : s ≠ .INVALID_TAP_STATE) :
    nextTapStateAt s tms ≠ .INVALID_TAP_STATE := by
  cases s <;> cases tms <;> first
    | exact absurd rfl h
    | decide

theorem hop_step (s t : TapStateType)
    (h : nextTapStateAt s false = t ∨ nextTapStateAt s true = t) :
    nextTapStateAt s (decide (nextTapStateAt s true = t)) = t := by
  by_cases h1 : nextTapStateAt s true = t
  · simp [h1]
  · rcases h with h | h
    · simp [h1, h]
    · exact absurd h h1

theorem GoThruLoop_eq : ∀ (states : List TapStateType) (port : Option Port)
    (s : TapStateType) (tms tdi : BitBuffer),
    s ≠ .INVALID_TAP_STATE → hopsReachable s states = true →
    GoThruLoop states XsError.noError ⟨port, s, tms, tdi⟩
      = some (XsError.noError, ⟨port, states.getLastD s, tms ++ tmsPath s states, tdi⟩) ∧
      states.getLastD s ≠ .INVALID_TAP_STATE := by
  intro states
  induction states with
  | nil => intro port s tms tdi hs _; simp [GoThruLoop, tmsPath, hs]
  | cons t rest ih =>
      intro port s tms tdi hs hreach
      simp only [hopsReachable, Bool.and_eq_true, Bool.or_eq_true, decide_eq_true_eq] at hreach
      obtain ⟨hhop, hrest⟩ := hreach
      have hstep := hop_step s t hhop
      have ht : t ≠ .INVALID_TAP_STATE := by
        rw [← hstep]; exact next_valid s _ hs
      obtain ⟨h1, h2⟩ := ih port t (tms ++ [decide (nextTapStateAt s true = t)]) tdi ht hrest
      constructor
      · rw [GoThruLoop, if_pos (valid_code s hs)]
        simp only [XsError.orAssign_noError_noError, Option.some_bind, JtagPort.ShiftTms, hstep,
          if_true, h1, tmsPath, List.append_assoc, List.singleton_append, List.getLastD_cons]
      · rw [List.getLastD_cons]
        exact h2

theorem length_tmsPath : ∀ (states : List TapStateType) (s : TapStateType),
    (tmsPath s states).length = states.length := by
  intro states
  induction states with
  | nil => intro s; rfl
  | cons t rest ih => intro s; simp [tmsPath, ih t]

end JtagPort
end Xstools

namespace Xstools
open BitBuffer JtagPort

/-! ## Claims on the JTAG port -/

/-- C11: for every valid current TAP state with empty transmit buffers (and a port
to write to) and every non-empty sequence of target states in which each hop is
reachable from its predecessor by one TMS transition, `GoThruTapStates` returns,
leaves the software TAP state equal to the last state of the sequence and the TMS
buffer (and the TDI buffer) empty, having written one TMS frame with one bit per
hop. -/
theorem c11_go_thru_tap_states_reaches_last (jc : Nat) (port : Port) (s : TapStateType)
    (states : List TapStateType) (hs : s ≠ .INVALID_TAP_STATE) (hne : states ≠ [])
    (hreach : hopsReachable s states = true) :
    ∃ r, GoThruTapStates jc ⟨some port, s, [], []⟩ states = some r ∧
      r.2.mTapState = states.getLast hne ∧
      r.2.mTmsBitBuffer = [] ∧ r.2.mTdiBitBuffer = [] ∧
      r.2.mpPhysPort
        = some (port.Write (PrependJtagCmdHdr jc states.length PUT_TMS_MASK
            (packedBytes (tmsPath s states)))).2 := by
  have hpath : tmsPath s states ≠ [] := by
    intro h
    have := congrArg List.length h
    rw [length_tmsPath] at this
    exact hne (List.length_eq_zero.mp this)
  have hlast : states.getLastD s = states.getLast hne := by
    rw [List.getLastD_eq_getLast?, List.getLast?_eq_getLast _ hne]
    rfl
  obtain ⟨hloop, _⟩ := GoThruLoop_eq states (some port) s [] [] hs hreach
  have hres : GoThruTapStates jc ⟨some port, s, [], []⟩ states
      = some ((port.writeResults.headD PortStatus.ok).toXsError,
          ⟨some (port.Write (PrependJtagCmdHdr jc (tmsPath s states).length PUT_TMS_MASK
              (packedBytes (tmsPath s states)))).2,
            states.getLastD s, [], []⟩) := by
    rw [GoThruTapStates]
    simp only [IsBufferEmpty, decide_True, Bool.and_self, if_true, hloop, Option.some_bind,
      List.nil_append, Flush, FlushFuel_tms_only jc 1 port _ _ hpath,
      XsError.orAssign_noError_status, Option.map_some']
  exact ⟨_, hres, hlast, rfl, rfl, by rw [length_tmsPath]⟩

/-- C11 on the walk of `HostIo` from Test-Logic-Reset to Shift-IR. -/
theorem c11_go_thru_tap_states_reaches_last_witness :
    (TapStateType.TEST_LOGIC_RESET ≠ .INVALID_TAP_STATE ∧
      hopsReachable .TEST_LOGIC_RESET
        [.RUN_TEST_IDLE, .SELECT_DR_SCAN, .SELECT_IR_SCAN, .CAPTURE_IR, .SHIFT_IR] = true) ∧
    ∃ r, GoThruTapStates 0x4f ⟨some ⟨[], [], [], []⟩, .TEST_LOGIC_RESET, [], []⟩
          [.RUN_TEST_IDLE, .SELECT_DR_SCAN, .SELECT_IR_SCAN, .CAPTURE_IR, .SHIFT_IR] = some r ∧
      r.2.mTapState
        = [TapStateType.RUN_TEST_IDLE, .SELECT_DR_SCAN, .SELECT_IR_SCAN, .CAPTURE_IR,
            .SHIFT_IR].getLast (by decide) ∧
      r.2.mTmsBitBuffer = [] ∧ r.2.mTdiBitBuffer = [] ∧
      r.2.mpPhysPort
        = some ((⟨[], [], [], []⟩ : Port).Write (PrependJtagCmdHdr 0x4f
            [TapStateType.RUN_TEST_IDLE, .SELECT_DR_SCAN, .SELECT_IR_SCAN, .CAPTURE_IR,
              .SHIFT_IR].length PUT_TMS_MASK
            (packedBytes (tmsPath .TEST_LOGIC_RESET
              [.RUN_TEST_IDLE, .SELECT_DR_SCAN, .SELECT_IR_SCAN, .CAPTURE_IR, .SHIFT_IR])))).2 :=
  ⟨by decide,
    c11_go_thru_tap_states_reaches_last 0x4f ⟨[], [], [], []⟩ .TEST_LOGIC_RESET
      [.RUN_TEST_IDLE, .SELECT_DR_SCAN, .SELECT_IR_SCAN, .CAPTURE_IR, .SHIFT_IR]
      (by decide) (by decide) (by decide)⟩

/-- C12: for every software TAP state (INVALID included) with empty transmit buffers,
`ResetTap` returns, writes exactly one frame to the port,
`[JTAG_CMD, 5, 0, 0, 0, PUT_TMS (0x02), 0x1F]`, five TMS=1 bits, and leaves the
software state at Test-Logic-Reset with both buffers empty. -/
theorem c12_reset_tap_writes_five_ones (jc : Nat) (port : Port) (s : TapStateType) :
    ResetTap jc ⟨some port, s, [], []⟩
      = some ((port.writeResults.headD PortStatus.ok).toXsError,
          ⟨some { port with
              written := port.written ++ [[jc, 5, 0, 0, 0, 0x02, 0x1F]]
              writeResults := port.writeResults.tail },
            .TEST_LOGIC_RESET, [], []⟩) := by
  rw [ResetTap]
  simp only [IsBufferEmpty, decide_True, Bool.and_self, if_true,
    XsError.orAssign_noError_noError, Option.some_bind, JtagPort.ShiftTms, List.nil_append,
    List.cons_append, Flush,
    FlushFuel_tms_only jc 1 port _ [true, true, true, true, true] (by simp),
    XsError.orAssign_noError_status, Option.map_some']
  rfl

end Xstools

namespace Xstools
open BitBuffer JtagPort

/-- C14: for every TMS buffer of `L ≥ 1` bits and an empty TDI buffer, `Flush`
returns with both buffers empty and writes exactly one byte sequence
`[JTAG_CMD, L & 0xff, (L>>8) & 0xff, (L>>16) & 0xff, (L>>24) & 0xff, PUT_TMS]`
followed by the packed bytes; there are `⌈L/8⌉` of them, bit `j` of packed byte `i`
is the TMS bit `8i+j`, and the unused high bits of the last byte are zero (a position
past the end of the buffer reads as 0). -/
theorem c14_tms_only_flush_frame (jc : Nat) (port : Port) (s : TapStateType)
    (tms : BitBuffer) (hL : 1 ≤ tms.length) :
    ∃ packed : List Nat,
      Flush jc ⟨some port, s, tms, []⟩
        = some ((port.writeResults.headD PortStatus.ok).toXsError,
            ⟨some { port with
                written := port.written ++
                  [[jc, tms.length &&& 0xff, (tms.length >>> 8) &&& 0xff,
                    (tms.length >>> 16) &&& 0xff, (tms.length >>> 24) &&& 0xff,
                    PUT_TMS_MASK] ++ packed]
                writeResults := port.writeResults.tail },
              s, [], []⟩) ∧
      packed.length = (tms.length + 7) / 8 ∧
      (∀ i j, i < (tms.length + 7) / 8 → j < 8 →
        (packed.getD i 0).testBit j = tms.getD (8 * i + j) false) ∧
      (∀ x ∈ packed, x < 256) := by
  have htms : tms ≠ [] := List.length_pos.mp hL
  refine ⟨packedBytes tms, ?_, length_packedBytes tms, ?_, packedBytes_lt tms⟩
  · rw [Flush, FlushFuel_tms_only jc 1 port s tms htms]
    rfl
  · intro i j hi hj
    exact packedBytes_testBit tms i j hi hj

/-- C14 on a ten-bit TMS buffer. -/
theorem c14_tms_only_flush_frame_witness :
    1 ≤ [true, false, true, true, false, false, true, false, true, true].length ∧
    ∃ packed : List Nat,
      Flush 0x4f ⟨some ⟨[], [], [], []⟩, .RUN_TEST_IDLE,
          [true, false, true, true, false, false, true, false, true, true], []⟩
        = some (((⟨[], [], [], []⟩ : Port).writeResults.headD PortStatus.ok).toXsError,
            ⟨some { (⟨[], [], [], []⟩ : Port) with
                written := (⟨[], [], [], []⟩ : Port).written ++
                  [[0x4f,
                    [true, false, true, true, false, false, true, false, true, true].length
                      &&& 0xff,
                    ([true, false, true, true, false, false, true, false, true, true].length
                      >>> 8) &&& 0xff,
                    ([true, false, true, true, false, false, true, false, true, true].length
                      >>> 16) &&& 0xff,
                    ([true, false, true, true, false, false, true, false, true, true].length
                      >>> 24) &&& 0xff,
                    PUT_TMS_MASK] ++ packed]
                writeResults := (⟨[], [], [], []⟩ : Port).writeResults.tail },
              .RUN_TEST_IDLE, [], []⟩) ∧
      packed.length
        = ([true, false, true, true, false, false, true, false, true, true].length + 7) / 8 ∧
      (∀ i j,
        i < ([true, false, true, true, false, false, true, false, true, true].length + 7) / 8 →
        j < 8 →
        (packed.getD i 0).testBit j
          = [true, false, true, true, false, false, true, false, true, true].getD (8 * i + j)
              false) ∧
      (∀ x ∈ packed, x < 256) :=
  ⟨by decide,
    c14_tms_only_flush_frame 0x4f ⟨[], [], [], []⟩ .RUN_TEST_IDLE
      [true, false, true, true, false, false, true, false, true, true] (by decide)⟩

/-- C15: for all TMS and TDI buffers of the same length `L ≥ 1`, `Flush` returns with
both buffers empty and writes one frame, whose header carries `L` and the flags
`PUT_TMS|PUT_TDI` and whose payload has `2·⌈L/8⌉` bytes; the even-indexed payload
bytes, unpacked LSB-first, reproduce the TMS bits and the odd-indexed payload bytes
reproduce the TDI bits. -/
theorem c15_interleaved_flush_frame (jc : Nat) (port : Port) (s : TapStateType)
    (tms tdi : BitBuffer) (hL : 1 ≤ tms.length) (hlen : tms.length = tdi.length) :
    ∃ payload : List Nat,
      Flush jc ⟨some port, s, tms, tdi⟩
        = some ((port.writeResults.headD PortStatus.ok).toXsError,
            ⟨some { port with
                written := port.written ++
                  [[jc, tms.length &&& 0xff, (tms.length >>> 8) &&& 0xff,
                    (tms.length >>> 16) &&& 0xff, (tms.length >>> 24) &&& 0xff,
                    PUT_TMS_MASK ||| PUT_TDI_MASK] ++ payload]
                writeResults := port.writeResults.tail },
              s, [], []⟩) ∧
      payload.length = 2 * ((tms.length + 7) / 8) ∧
      unpackBits (evenIndexed payload) tms.length = tms ∧
      unpackBits (oddIndexed payload) tms.length = tdi := by
  have htms : tms ≠ [] := List.length_pos.mp hL
  have hpl : (packedBytes tms).length = (packedBytes tdi).length := by
    rw [length_packedBytes, length_packedBytes, hlen]
  refine ⟨interleaved (packedBytes tms) (packedBytes tdi), ?_, ?_, ?_, ?_⟩
  · rw [Flush, FlushFuel_equal jc 1 port s tms tdi htms hlen, ← hlen]
    rfl
  · rw [length_interleaved _ _ hpl, length_packedBytes]
  · rw [evenIndexed_interleaved _ _ hpl, unpackBits_packedBytes]
  · rw [oddIndexed_interleaved _ _ hpl, hlen, unpackBits_packedBytes]

/-- C15 on two nine-bit buffers. -/
theorem c15_interleaved_flush_frame_witness :
    (1 ≤ [true, false, false, false, false, false, false, false, true].length ∧
      [true, false, false, false, false, false, false, false, true].length
        = [false, true, true, false, true, false, false, true, false].length) ∧
    ∃ payload : List Nat,
      Flush 0x4f ⟨some ⟨[], [], [], []⟩, .SHIFT_DR,
          [true, false, false, false, false, false, false, false, true],
          [false, true, true, false, true, false, false, true, false]⟩
        = some (((⟨[], [], [], []⟩ : Port).writeResults.headD PortStatus.ok).toXsError,
            ⟨some { (⟨[], [], [], []⟩ : Port) with
                written := (⟨[], [], [], []⟩ : Port).written ++
                  [[0x4f,
                    [true, false, false, false, false, false, false, false, true].length
                      &&& 0xff,
                    ([true, false, false, false, false, false, false, false, true].length
                      >>> 8) &&& 0xff,
                    ([true, false, false, false, false, false, false, false, true].length
                      >>> 16) &&& 0xff,
                    ([true, false, false, false, false, false, false, false, true].length
                      >>> 24) &&& 0xff,
                    PUT_TMS_MASK ||| PUT_TDI_MASK] ++ payload]
                writeResults := (⟨[], [], [], []⟩ : Port).writeResults.tail },
              .SHIFT_DR, [], []⟩) ∧
      payload.length
        = 2 * (([true, false, false, false, false, false, false, false, true].length + 7) / 8) ∧
      unpackBits (evenIndexed payload)
          [true, false, false, false, false, false, false, false, true].length
        = [true, false, false, false, false, false, false, false, true] ∧
      unpackBits (oddIndexed payload)
          [true, false, false, false, false, false, false, false, true].length
        = [false, true, true, false, true, false, false, true, false] :=
  ⟨by decide,
    c15_interleaved_flush_frame 0x4f ⟨[], [], [], []⟩ .SHIFT_DR
      [true, false, false, false, false, false, false, false, true]
      [false, true, true, false, true, false, false, true, false] (by decide) (by decide)⟩

end Xstools

namespace Xstools
open BitBuffer JtagPort

/-- C16: for a TDI buffer of `N ≥ 2` bits and a TMS buffer of exactly one bit, `Flush`
returns with both buffers empty after two port writes in this order: a pure `PUT_TDI`
frame for `N - 1` bits that carries the first `N - 1` TDI bits, then a one-bit
`PUT_TMS|PUT_TDI` frame that carries the TMS bit and the last TDI bit. -/
theorem c16_split_flush_two_frames (jc : Nat) (port : Port) (s : TapStateType) (t : Bool)
    (tdi : BitBuffer) (hN : 2 ≤ tdi.length) :
    ∃ (err : XsError) (port2 : Port),
      Flush jc ⟨some port, s, [t], tdi⟩ = some (err, ⟨some port2, s, [], []⟩) ∧
      port2.written = port.written ++
        [[jc, (tdi.length - 1) &&& 0xff, ((tdi.length - 1) >>> 8) &&& 0xff,
            ((tdi.length - 1) >>> 16) &&& 0xff, ((tdi.length - 1) >>> 24) &&& 0xff,
            PUT_TDI_MASK] ++ packedBytes (tdi.take (tdi.length - 1)),
          [jc, 1, 0, 0, 0, PUT_TMS_MASK ||| PUT_TDI_MASK,
            if t then 1 else 0, if tdi.getLastD false then 1 else 0]] ∧
      unpackBits (packedBytes (tdi.take (tdi.length - 1))) (tdi.length - 1)
        = tdi.take (tdi.length - 1) := by
  obtain ⟨err, _, h⟩ := FlushFuel_split jc 0 port s t tdi hN
  refine ⟨err, _, h, ?_, ?_⟩
  · simp [Port.Write, PrependJtagCmdHdr, PUT_TDI_MASK, PUT_TMS_MASK]
  · have hl : (tdi.take (tdi.length - 1)).length = tdi.length - 1 := by
      rw [List.length_take]; omega
    have := unpackBits_packedBytes (tdi.take (tdi.length - 1))
    rw [hl] at this
    exact this

/-- C16 on the six-bit USER instruction with one TMS bit queued. -/
theorem c16_split_flush_two_frames_witness :
    2 ≤ [false, true, false, false, false, false].length ∧
    ∃ (err : XsError) (port2 : Port),
      Flush 0x4f ⟨some ⟨[], [], [], []⟩, .EXIT1_IR, [true],
          [false, true, false, false, false, false]⟩
        = some (err, ⟨some port2, .EXIT1_IR, [], []⟩) ∧
      port2.written = (⟨[], [], [], []⟩ : Port).written ++
        [[0x4f, ([false, true, false, false, false, false].length - 1) &&& 0xff,
            (([false, true, false, false, false, false].length - 1) >>> 8) &&& 0xff,
            (([false, true, false, false, false, false].length - 1) >>> 16) &&& 0xff,
            (([false, true, false, false, false, false].length - 1) >>> 24) &&& 0xff,
            PUT_TDI_MASK] ++
            packedBytes ([false, true, false, false, false, false].take
              ([false, true, false, false, false, false].length - 1)),
          [0x4f, 1, 0, 0, 0, PUT_TMS_MASK ||| PUT_TDI_MASK,
            if true then 1 else 0,
            if [false, true, false, false, false, false].getLastD false then 1 else 0]] ∧
      unpackBits
          (packedBytes ([false, true, false, false, false, false].take
            ([false, true, false, false, false, false].length - 1)))
          ([false, true, false, false, false, false].length - 1)
        = [false, true, false, false, false, false].take
            ([false, true, false, false, false, false].length - 1) :=
  ⟨by decide,
    c16_split_flush_two_frames 0x4f ⟨[], [], [], []⟩ .EXIT1_IR true
      [false, true, false, false, false, false] (by decide)⟩

/-- C17, as stated, fails at a TMS buffer of two bits and a TDI buffer of three bits:
`Flush` reaches `assert( 1 == 0 )` and the program is aborted, so no error is reported
and no state is left behind; the Fatal error object behind the assertion cannot be
built either, its constructor calls `Severity(FATAL_XS_ERROR)`, which aborts. -/
theorem c17_mismatched_flush_aborts :
    Flush 0x4f ⟨some ⟨[], [], [], []⟩, .SHIFT_DR, [true, false], [true, true, false]⟩ = none ∧
      (¬ ∃ err : XsError,
        Flush 0x4f ⟨some ⟨[], [], [], []⟩, .SHIFT_DR, [true, false], [true, true, false]⟩
          = some (err, ⟨some ⟨[], [], [], []⟩, .SHIFT_DR, [true, false], [true, true, false]⟩)) ∧
      XsError.construct .FATAL_XS_ERROR "Mismatched # of TMS and TDI bits".toList = none := by
  refine ⟨rfl, ?_, rfl⟩
  rintro ⟨err, h⟩
  exact Option.noConfusion (Eq.trans (Eq.symm h) rfl : some _ = none)

/-- C17, amended: when both buffers are non-empty, their lengths differ and the TMS
buffer does not hold exactly one bit, `Flush` does not return and reports no error:
the program is aborted at `assert( 1 == 0 )`, whatever call depth is allowed, and the
Fatal error object "Mismatched # of TMS and TDI bits" cannot be constructed without
aborting. -/
theorem c17_mismatched_flush_never_returns (jc : Nat) (p : JtagPort)
    (htms : p.mTmsBitBuffer ≠ []) (htdi : p.mTdiBitBuffer ≠ [])
    (hlen : p.mTmsBitBuffer.length ≠ p.mTdiBitBuffer.length)
    (hone : p.mTmsBitBuffer.length ≠ 1) :
    Flush jc p = none ∧ (∀ fuel, FlushFuel jc fuel p = none) ∧
      XsError.construct .FATAL_XS_ERROR "Mismatched # of TMS and TDI bits".toList = none := by
  have hall : ∀ fuel, FlushFuel jc fuel p = none := by
    intro fuel
    cases fuel with
    | zero => rfl
    | succ k =>
        rw [FlushFuel]
        cases hp : p.mpPhysPort with
        | none => simp
        | some port => simp [IsBufferEmpty, htms, htdi, hlen, hone]
  exact ⟨hall 2, hall, rfl⟩

/-- C17 at a TMS buffer of two bits and a TDI buffer of three bits. -/
theorem c17_mismatched_flush_never_returns_witness :
    ((⟨some ⟨[], [], [], []⟩, .SHIFT_DR, [true, false], [true, true, false]⟩ :
          JtagPort).mTmsBitBuffer ≠ [] ∧
      (⟨some ⟨[], [], [], []⟩, .SHIFT_DR, [true, false], [true, true, false]⟩ :
          JtagPort).mTdiBitBuffer ≠ [] ∧
      (⟨some ⟨[], [], [], []⟩, .SHIFT_DR, [true, false], [true, true, false]⟩ :
          JtagPort).mTmsBitBuffer.length
        ≠ (⟨some ⟨[], [], [], []⟩, .SHIFT_DR, [true, false], [true, true, false]⟩ :
          JtagPort).mTdiBitBuffer.length ∧
      (⟨some ⟨[], [], [], []⟩, .SHIFT_DR, [true, false], [true, true, false]⟩ :
          JtagPort).mTmsBitBuffer.length ≠ 1) ∧
    (Flush 0x4f ⟨some ⟨[], [], [], []⟩, .SHIFT_DR, [true, false], [true, true, false]⟩ = none ∧
      (∀ fuel,
        FlushFuel 0x4f fuel
          ⟨some ⟨[], [], [], []⟩, .SHIFT_DR, [true, false], [true, true, false]⟩ = none) ∧
      XsError.construct .FATAL_XS_ERROR "Mismatched # of TMS and TDI bits".toList = none) :=
  ⟨by decide,
    c17_mismatched_flush_never_returns 0x4f
      ⟨some ⟨[], [], [], []⟩, .SHIFT_DR, [true, false], [true, true, false]⟩
      (by decide) (by decide) (by decide) (by decide)⟩

end Xstools

namespace Xstools
open BitBuffer JtagPort

/-- C18 fails in the code when the last chunk is a single bit: for `n = 1` and a port
that delivers the byte 2, `ShiftTdo(1, out, false)` writes the frame
`[JTAG_CMD, 1, 0, 0, 0, 0x01]` and asks for one byte, as the claim says, but appends
a 1 although bit 0 of the byte is 0; for `n = 17` and the bytes `0x35, 0xff, 0x02` the
first sixteen appended bits are the bits of the first two bytes and the seventeenth
is again 1. The bit comes from the single-bit branch of `push_back`, which pushes
`!!val`. -/
theorem c18_single_trailing_bit_is_any_set_bit :
    ShiftTdo 0x4f ⟨some ⟨[], [], [], [(.ok, [2])]⟩, .SHIFT_DR, [], []⟩ 1 [] false
        = some (XsError.noError,
            ⟨some ⟨[[0x4f, 1, 0, 0, 0, 0x01]], [1], [], []⟩, .SHIFT_DR, [], []⟩, [true]) ∧
      Nat.testBit 2 0 = false ∧
      ShiftTdo 0x4f ⟨some ⟨[], [], [], [(.ok, [0x35, 0xff, 0x02])]⟩, .SHIFT_DR, [], []⟩ 17 []
          false
        = some (XsError.noError,
            ⟨some ⟨[[0x4f, 17, 0, 0, 0, 0x01]], [3], [], []⟩, .SHIFT_DR, [], []⟩,
            unpackBits [0x35, 0xff] 16 ++ [true]) := by
  decide

/-- C19 fails in the code at the last bit: for `n = 9` and a port that delivers the
byte `0x35` and then the byte 2, `ShiftTdo(9, out, true)` writes the frames
`[JTAG_CMD, 8, 0, 0, 0, 0x01]` and `[JTAG_CMD, 1, 0, 0, 0, 0x05]`, asks for one byte
each time and ends in Exit1-DR with both buffers empty, as the claim says, but the
ninth bit it appends is 1 although bit 0 of the last byte is 0 (`push_back(val, 1)`
pushes `!!val`). -/
theorem c19_exit_bit_is_any_set_bit :
    ShiftTdo 0x4f ⟨some ⟨[], [], [], [(.ok, [0x35]), (.ok, [2])]⟩, .SHIFT_DR, [], []⟩ 9 []
          true
        = some (XsError.noError,
            ⟨some ⟨[[0x4f, 8, 0, 0, 0, 0x01], [0x4f, 1, 0, 0, 0, 0x05]], [1, 1], [], []⟩,
              .EXIT1_DR, [], []⟩,
            unpackBits [0x35] 8 ++ [true]) ∧
      Nat.testBit 2 0 = false := by
  decide

/-- C20, as stated, fails in the spec scenario (id `0x02`, payload
`BitBuffer(0x05, 8) + "11"`, 48 result bits): the last 8 bits of the stream handed to
`ShiftTdi` are the address bits of the payload, of value 5, and the 32 bits before
them are not 58; the id `0x02` is in the first 8 bits and the length 58 in the
following 32 bits. -/
theorem c20_scenario_id_is_at_the_front :
    fromVal 0x02 8 = some [false, true, false, false, false, false, false, false] ∧
      (fromVal 0x05 8).map (fun address => add address (fromString "11".toList))
        = some [true, true, true, false, true, false, false, false, false, false] ∧
      (HostIoCmdTdiBits [false, true, false, false, false, false, false, false]
          [true, true, true, false, true, false, false, false, false, false] 48).bind
        (fun tdi => back tdi 8) = some 5 ∧
      (HostIoCmdTdiBits [false, true, false, false, false, false, false, false]
          [true, true, true, false, true, false, false, false, false, false] 48).bind
        (fun tdi => (GetBits tdi (tdi.length - 40) (tdi.length - 8)).bind toBitsType)
        = some 3221225486 ∧
      (HostIoCmdTdiBits [false, true, false, false, false, false, false, false]
          [true, true, true, false, true, false, false, false, false, false] 48).bind
        (fun tdi => front tdi 8) = some 0x02 ∧
      (HostIoCmdTdiBits [false, true, false, false, false, false, false, false]
          [true, true, true, false, true, false, false, false, false, false] 48).bind
        (fun tdi => (GetBits tdi 8 40).bind toBitsType) = some 58 := by
  decide

/-- C20, amended: for every id of 8 bits, every payload and every count of result
bits, the combined TDI stream `HostIoCmd` hands to `ShiftTdi` has size
`payload.size + 40` with the 8-bit id at the LSB (front) end, then the 32-bit length
field, which encodes `payload.size + n_result_bits` modulo `2 ^ 32`, then the payload
at the MSB (back) end, so that the device, which receives the front bit first, sees
the id first, then the length, then the payload. -/
theorem c20_host_io_cmd_stream_layout (id payload : BitBuffer) (numResultBits : Nat)
    (hid : id.length = ID_FIELD_LENGTH) :
    ∃ len tdi : BitBuffer,
      fromVal (payload.length + numResultBits) NUM_PAYLOAD_BITS_FIELD_LENGTH = some len ∧
      len.length = 32 ∧
      toBitsType len = some ((payload.length + numResultBits) % 2 ^ 32) ∧
      HostIoCmdTdiBits id payload numResultBits = some tdi ∧
      tdi = id ++ len ++ payload ∧
      tdi.length = payload.length + 40 ∧
      GetBits tdi 0 8 = some id ∧
      GetBits tdi 8 40 = some len ∧
      GetBits tdi 40 tdi.length = some payload := by
  have hid8 : id.length = 8 := hid
  have hlen : ((List.range 32).map (payload.length + numResultBits).testBit).length = 32 :=
    length_bits _ _
  have hfrom := fromVal_eq (payload.length + numResultBits) 32 (by decide)
  refine ⟨_, id ++ (List.range 32).map (payload.length + numResultBits).testBit ++ payload,
    hfrom, hlen, ?_, ?_, rfl, ?_, ?_, ?_, ?_⟩
  · rw [toBitsType_eq _ (by rw [hlen]; decide) (by rw [hlen]; decide), bitsVal_testBit]
  · rw [HostIoCmdTdiBits]
    simp only [NUM_PAYLOAD_BITS_FIELD_LENGTH, hfrom, Option.map_some', add, addAssign,
      push_front_eq, List.append_assoc]
  · simp only [List.length_append, hid8, hlen]
    omega
  · rw [GetBits_eq _ 0 8 (by decide) (by simp only [List.length_append, hid8]; omega)]
    simp [List.take_append_of_le_length, hid8]
  · rw [GetBits_eq _ 8 40 (by decide) (by simp only [List.length_append, hid8, hlen]; omega)]
    rw [List.append_assoc, ← hid8, List.drop_left, List.take_left' (by rw [hlen, hid8])]
  · have h40 : (id ++ (List.range 32).map (payload.length + numResultBits).testBit).length
        = 40 := by
      simp only [List.length_append, hid8, hlen]
    have hdrop : (id ++ (List.range 32).map (payload.length + numResultBits).testBit
        ++ payload).drop 40 = payload := by
      rw [← h40, List.drop_left]
    rw [GetBits_eq _ 40 _ (by simp only [List.length_append, hid8, hlen]; omega) (le_refl _),
      hdrop, List.take_of_length_le (by simp only [List.length_append, hid8, hlen]; omega)]

/-- C20 in the spec scenario: id `0x02`, payload `BitBuffer(0x05, 8) + "11"`, 48 result
bits. -/
theorem c20_host_io_cmd_stream_layout_witness :
    [false, true, false, false, false, false, false, false].length = ID_FIELD_LENGTH ∧
    ∃ len tdi : BitBuffer,
      fromVal ([true, true, true, false, true, false, false, false, false, false].length + 48)
          NUM_PAYLOAD_BITS_FIELD_LENGTH = some len ∧
      len.length = 32 ∧
      toBitsType len
        = some (([true, true, true, false, true, false, false, false, false, false].length + 48)
            % 2 ^ 32) ∧
      HostIoCmdTdiBits [false, true, false, false, false, false, false, false]
          [true, true, true, false, true, false, false, false, false, false] 48 = some tdi ∧
      tdi = [false, true, false, false, false, false, false, false] ++ len ++
          [true, true, true, false, true, false, false, false, false, false] ∧
      tdi.length
        = [true, true, true, false, true, false, false, false, false, false].length + 40 ∧
      GetBits tdi 0 8 = some [false, true, false, false, false, false, false, false] ∧
      GetBits tdi 8 40 = some len ∧
      GetBits tdi 40 tdi.length
        = some [true, true, true, false, true, false, false, false, false, false] :=
  ⟨by decide,
    c20_host_io_cmd_stream_layout [false, true, false, false, false, false, false, false]
      [true, true, true, false, true, false, false, false, false, false] 48 (by decide)⟩

end Xstools

namespace Xstools
open BitBuffer JtagPort

/-! ## Lemmas on the reference TAP -/

theorem hdr_len (n : Nat) :
    ((n >>> 0) &&& 0xFF) + 256 * ((n >>> 8) &&& 0xFF) + 65536 * ((n >>> 16) &&& 0xFF)
      + 16777216 * ((n >>> 24) &&& 0xFF) = n % 2 ^ 32 := by
  have h (x : Nat) : x &&& 0xFF = x % 256 := Nat.and_pow_two_sub_one_eq_mod x 8
  simp only [h, Nat.shiftRight_eq_div_pow]
  norm_num
  omega

theorem frameTmsBits_static (jc n flags : Nat) (payload : List Nat)
    (h : flags &&& PUT_TMS_MASK = 0) :
    frameTmsBits jc (PrependJtagCmdHdr jc n flags payload)
      = List.replicate (n % 2 ^ 32) (decide (flags &&& TMS_VAL_MASK ≠ 0)) := by
  simp only [PrependJtagCmdHdr, frameTmsBits, if_true, h, ne_eq, not_true_eq_false, if_false,
    hdr_len]

theorem frameTmsBits_tms_only (jc : Nat) (bits : List Bool) (h : bits.length < 2 ^ 32) :
    frameTmsBits jc (PrependJtagCmdHdr jc bits.length PUT_TMS_MASK (packedBytes bits))
      = bits := by
  have h1 : PUT_TMS_MASK &&& PUT_TMS_MASK ≠ 0 := by decide
  have h2 : ¬ (PUT_TMS_MASK &&& PUT_TDI_MASK ≠ 0) := by decide
  simp only [PrependJtagCmdHdr, frameTmsBits, if_true, hdr_len, Nat.mod_eq_of_lt h]
  rw [if_pos h1, if_neg h2, unpackBits_packedBytes]

theorem frameTmsBits_one_pair (jc x y : Nat) (hx : x = 0 ∨ x = 1) :
    frameTmsBits jc (PrependJtagCmdHdr jc 1 (PUT_TDI_MASK ||| PUT_TMS_MASK) [x, y])
      = [decide (x = 1)] := by
  have h1 : (PUT_TDI_MASK ||| PUT_TMS_MASK) &&& PUT_TMS_MASK ≠ 0 := by decide
  have h2 : (PUT_TDI_MASK ||| PUT_TMS_MASK) &&& PUT_TDI_MASK ≠ 0 := by decide
  have h3 : ((1 >>> 0) &&& 0xFF) + 256 * ((1 >>> 8) &&& 0xFF) + 65536 * ((1 >>> 16) &&& 0xFF)
      + 16777216 * ((1 >>> 24) &&& 0xFF) = 1 := by decide
  simp only [PrependJtagCmdHdr, frameTmsBits, if_true, h3]
  rw [if_pos h1, if_pos h2]
  rcases hx with hx | hx <;> subst hx <;> simp [evenIndexed, unpackBits, List.range_succ]

theorem next_eq_ieee (s : TapStateType) (tms : Bool) :
    nextTapStateAt s tms = ieee1149Next s tms := by
  cases s <;> cases tms <;> rfl

theorem tapRun_append (s : TapStateType) (a b : List Bool) :
    tapRun s (a ++ b) = tapRun (tapRun s a) b := by
  simp [tapRun, List.foldl_append]

theorem tapRun_zeros_shift (s : TapStateType) (h : s = .SHIFT_DR ∨ s = .SHIFT_IR) (n : Nat) :
    tapRun s (List.replicate n false) = s := by
  induction n with
  | zero => rfl
  | succ n ih =>
      rw [List.replicate_succ, tapRun, List.foldl_cons]
      have : ieee1149Next s false = s := by
        rcases h with h | h <;> subst h <;> rfl
      rw [this]
      exact ih

theorem tapRun_tmsPath : ∀ (states : List TapStateType) (s : TapStateType),
    hopsReachable s states = true → tapRun s (tmsPath s states) = states.getLastD s := by
  intro states
  induction states with
  | nil => intro s _; rfl
  | cons t rest ih =>
      intro s hreach
      simp only [hopsReachable, Bool.and_eq_true, Bool.or_eq_true, decide_eq_true_eq] at hreach
      obtain ⟨hhop, hrest⟩ := hreach
      rw [tmsPath, tapRun, List.foldl_cons, ← next_eq_ieee, hop_step s t hhop,
        List.getLastD_cons]
      exact ih t hrest

theorem tapRun_five_ones (s : TapStateType) (h : s ≠ .INVALID_TAP_STATE) :
    tapRun s [true, true, true, true, true] = .TEST_LOGIC_RESET := by
  cases s <;> first
    | exact absurd rfl h
    | rfl

theorem referenceTap_append (jc : Nat) (s : TapStateType) (a b : List (List Nat)) :
    referenceTap jc s (a ++ b) = referenceTap jc (referenceTap jc s a) b := by
  simp [referenceTap, List.foldl_append]

end Xstools

namespace Xstools
open BitBuffer JtagPort

namespace JtagPort

theorem written_write (port : Port) (buf : List Nat) :
    (port.Write buf).2.written = port.written ++ [buf] := rfl

theorem written_read (port : Port) (n : Nat) (buf : List Nat) :
    (port.Read n buf).2.1.written = port.written := rfl

theorem Flush_empty (jc : Nat) (pp : Option Port) (s : TapStateType) :
    Flush jc ⟨pp, s, [], []⟩ = none := by
  simp [Flush, FlushFuel, IsBufferEmpty]

theorem Flush_null (jc : Nat) (s : TapStateType) (tms tdi : BitBuffer) :
    Flush jc ⟨none, s, tms, tdi⟩ = none := by
  simp [Flush, FlushFuel]

theorem ResetTap_eq (jc : Nat) (port : Port) (s : TapStateType) :
    ResetTap jc ⟨some port, s, [], []⟩
      = some ((port.writeResults.headD PortStatus.ok).toXsError,
          ⟨some (port.Write (PrependJtagCmdHdr jc 5 PUT_TMS_MASK
              (packedBytes [true, true, true, true, true]))).2,
            .TEST_LOGIC_RESET, [], []⟩) := by
  rw [ResetTap]
  simp only [IsBufferEmpty, decide_True, Bool.and_self, if_true,
    XsError.orAssign_noError_noError, Option.some_bind, JtagPort.ShiftTms, List.nil_append,
    List.cons_append, Flush,
    FlushFuel_tms_only jc 1 port _ [true, true, true, true, true] (by simp),
    XsError.orAssign_noError_status, Option.map_some']
  rfl

theorem GoThruLoop_none : ∀ (states : List TapStateType) (port : Option Port)
    (s : TapStateType) (tms tdi : BitBuffer),
    s ≠ .INVALID_TAP_STATE → hopsReachable s states = false →
    GoThruLoop states XsError.noError ⟨port, s, tms, tdi⟩ = none := by
  intro states
  induction states with
  | nil => intro port s tms tdi _ h; simp [hopsReachable] at h
  | cons t rest ih =>
      intro port s tms tdi hs h
      rw [GoThruLoop, if_pos (valid_code s hs)]
      simp only [XsError.orAssign_noError_noError, Option.some_bind, JtagPort.ShiftTms]
      by_cases hhop : nextTapStateAt s false = t ∨ nextTapStateAt s true = t
      · have hstep := hop_step s t hhop
        have hrest : hopsReachable t rest = false := by
          simp only [hopsReachable, Bool.and_eq_false_iff, Bool.or_eq_false_iff,
            decide_eq_false_iff_not] at h
          rcases h with h | h
          · exact absurd hhop (by tauto)
          · exact h
        have ht : t ≠ .INVALID_TAP_STATE := by
          rw [← hstep]; exact next_valid s _ hs
        simp only [hstep, if_true]
        exact ih port t _ tdi ht hrest
      · have hne : nextTapStateAt s (decide (nextTapStateAt s true = t)) ≠ t := by
          intro hcontra
          by_cases h1 : nextTapStateAt s true = t
          · exact hhop (Or.inr h1)
          · simp only [h1, decide_False] at hcontra
            exact hhop (Or.inl hcontra)
        simp only [hne, if_false]

theorem GoThruTapStates_eq (jc : Nat) (port : Port) (s : TapStateType)
    (states : List TapStateType) (hs : s ≠ .INVALID_TAP_STATE) (hne : states ≠ [])
    (hreach : hopsReachable s states = true) :
    GoThruTapStates jc ⟨some port, s, [], []⟩ states
      = some ((port.writeResults.headD PortStatus.ok).toXsError,
          ⟨some (port.Write (PrependJtagCmdHdr jc (tmsPath s states).length PUT_TMS_MASK
              (packedBytes (tmsPath s states)))).2,
            states.getLastD s, [], []⟩) := by
  have hpath : tmsPath s states ≠ [] := by
    intro h
    have := congrArg List.length h
    rw [length_tmsPath] at this
    exact hne (List.length_eq_zero.mp this)
  obtain ⟨hloop, _⟩ := GoThruLoop_eq states (some port) s [] [] hs hreach
  rw [GoThruTapStates]
  simp only [IsBufferEmpty, decide_True, Bool.and_self, if_true, hloop, Option.some_bind,
    List.nil_append, Flush, FlushFuel_tms_only jc 1 port _ _ hpath,
    XsError.orAssign_noError_status, Option.map_some']

theorem GoThruTapStates_nil (jc : Nat) (pp : Option Port) (s : TapStateType) :
    GoThruTapStates jc ⟨pp, s, [], []⟩ [] = none := by
  simp [GoThruTapStates, GoThruLoop, IsBufferEmpty, Flush_empty]

theorem GoThruTapStates_unreachable (jc : Nat) (pp : Option Port) (s : TapStateType)
    (states : List TapStateType) (hs : s ≠ .INVALID_TAP_STATE)
    (h : hopsReachable s states = false) :
    GoThruTapStates jc ⟨pp, s, [], []⟩ states = none := by
  simp [GoThruTapStates, IsBufferEmpty, GoThruLoop_none states pp s [] [] hs h]

end JtagPort
end Xstools

namespace Xstools
open BitBuffer JtagPort

namespace JtagPort

theorem ShiftTdoStay_some (jc : Nat) (port : Port) (s : TapStateType) (n : Nat)
    (out : BitBuffer) (r : XsError × JtagPort × BitBuffer)
    (h : ShiftTdoStay jc ⟨some port, s, [], []⟩ n out = some r) :
    (s = .SHIFT_DR ∨ s = .SHIFT_IR) ∧
      r.2.1 = ⟨some ((port.Write (PrependJtagCmdHdr jc n GET_TDO_MASK [])).2.Read
          ((n + Port.DATA_LENGTH - 1) / Port.DATA_LENGTH) []).2.1, s, [], []⟩ := by
  unfold ShiftTdoStay at h
  by_cases hs : s = .SHIFT_DR ∨ s = .SHIFT_IR
  · refine ⟨hs, ?_⟩
    obtain ⟨c, hc, _⟩ := XsError.orAssign_nonFatal
      (port.Write (PrependJtagCmdHdr jc n GET_TDO_MASK [])).1
      ((port.Write (PrependJtagCmdHdr jc n GET_TDO_MASK [])).2.Read
        ((n + Port.DATA_LENGTH - 1) / Port.DATA_LENGTH) []).1
      (XsError.nonFatal_status _) (XsError.nonFatal_status _)
    simp only [IsBufferEmpty, decide_True, Bool.and_self, if_true, hs,
      XsError.orAssign_noError_noError, Option.some_bind] at h
    rw [show (port.Write (PrependJtagCmdHdr jc n GET_TDO_MASK [])).1
        = (port.writeResults.headD PortStatus.ok).toXsError from rfl,
      XsError.orAssign_noError_status] at h
    simp only [Option.some_bind] at h
    rw [show (port.writeResults.headD PortStatus.ok).toXsError
        = (port.Write (PrependJtagCmdHdr jc n GET_TDO_MASK [])).1 from rfl, hc] at h
    simp only [Option.some_bind] at h
    cases hl : ShiftTdoLoop ((port.Write (PrependJtagCmdHdr jc n GET_TDO_MASK [])).2.Read
        ((n + Port.DATA_LENGTH - 1) / Port.DATA_LENGTH) []).2.2 n out with
    | none => rw [hl] at h; simp at h
    | some l =>
        rw [hl] at h
        simp only [Option.some_bind] at h
        split at h
        · split at h
          · split at h
            · simp at h
            · obtain ⟨tdo, _, htdo⟩ := Option.map_eq_some'.mp h
              rw [← htdo]
          · simp only [Option.some.injEq] at h
            rw [← h]
        · simp at h
  · simp [IsBufferEmpty, hs] at h

end JtagPort
end Xstools

namespace Xstools
open BitBuffer JtagPort

theorem referenceTap_single (jc : Nat) (s : TapStateType) (frame : List Nat) :
    referenceTap jc s [frame] = tapRun s (frameTmsBits jc frame) := rfl

theorem step_resetTap (jc : Nat) (p0 p1 : JtagPort) (d : TapStateType)
    (hd : d ≠ .INVALID_TAP_STATE) (h : runOp jc p0 .resetTap = some p1) :
    ∃ port, p0.mpPhysPort = some port ∧ TracksFrom jc port d p1 := by
  obtain ⟨pp, s, tms, tdi⟩ := p0
  simp only [runOp] at h
  obtain ⟨r, hr, hp⟩ := Option.map_eq_some'.mp h
  by_cases hbuf : tms = [] ∧ tdi = []
  · obtain ⟨rfl, rfl⟩ := hbuf
    cases pp with
    | none =>
        simp [ResetTap, IsBufferEmpty, XsError.orAssign_noError_noError, JtagPort.ShiftTms,
          Flush_null] at hr
    | some port =>
        rw [ResetTap_eq] at hr
        simp only [Option.some.injEq] at hr
        have hframe : frameTmsBits jc (PrependJtagCmdHdr jc 5 PUT_TMS_MASK
            (packedBytes [true, true, true, true, true])) = [true, true, true, true, true] :=
          frameTmsBits_tms_only jc [true, true, true, true, true] (by decide)
        refine ⟨port, rfl, _, [PrependJtagCmdHdr jc 5 PUT_TMS_MASK
          (packedBytes [true, true, true, true, true])], ?_, written_write _ _, ?_⟩
        · rw [← hp, ← hr, referenceTap_single, hframe, tapRun_five_ones d hd]
        · rw [referenceTap_single, hframe, tapRun_five_ones d hd]
          decide
  · have : IsBufferEmpty ⟨pp, s, tms, tdi⟩ = false := by
      simp only [IsBufferEmpty, Bool.and_eq_false_iff, decide_eq_false_iff_not]
      tauto
    simp [ResetTap, this] at hr

theorem step_goThru (jc : Nat) (port : Port) (s : TapStateType) (states : List TapStateType)
    (p1 : JtagPort) (hs : s ≠ .INVALID_TAP_STATE) (hlen : states.length < 2 ^ 32)
    (h : runOp jc ⟨some port, s, [], []⟩ (.goThruTapStates states) = some p1) :
    TracksFrom jc port s p1 := by
  simp only [runOp] at h
  obtain ⟨r, hr, hp⟩ := Option.map_eq_some'.mp h
  by_cases hne : states = []
  · subst hne
    rw [GoThruTapStates_nil] at hr
    exact Option.noConfusion hr
  · cases hreach : hopsReachable s states with
    | false =>
        rw [GoThruTapStates_unreachable jc _ s states hs hreach] at hr
        exact Option.noConfusion hr
    | true =>
        rw [GoThruTapStates_eq jc port s states hs hne hreach] at hr
        simp only [Option.some.injEq] at hr
        have hl : (tmsPath s states).length < 2 ^ 32 := by rw [length_tmsPath]; exact hlen
        have href : referenceTap jc s [PrependJtagCmdHdr jc (tmsPath s states).length
            PUT_TMS_MASK (packedBytes (tmsPath s states))] = states.getLastD s := by
          rw [referenceTap_single, frameTmsBits_tms_only jc _ hl, tapRun_tmsPath states s hreach]
        refine ⟨_, [PrependJtagCmdHdr jc (tmsPath s states).length PUT_TMS_MASK
          (packedBytes (tmsPath s states))], ?_, written_write _ _, ?_⟩
        · rw [← hp, ← hr, href]
        · rw [href]
          exact (GoThruLoop_eq states (some port) s [] [] hs hreach).2

end Xstools

namespace Xstools
open BitBuffer JtagPort

theorem static_zero_frame (jc n flags : Nat) (payload : List Nat) (s : TapStateType)
    (hs : s = .SHIFT_DR ∨ s = .SHIFT_IR) (h1 : flags &&& PUT_TMS_MASK = 0)
    (h2 : flags &&& TMS_VAL_MASK = 0) :
    tapRun s (frameTmsBits jc (PrependJtagCmdHdr jc n flags payload)) = s := by
  rw [frameTmsBits_static jc n flags payload h1]
  simp only [h2, ne_eq, not_true_eq_false, decide_False]
  exact tapRun_zeros_shift s hs _

theorem tapRun_one (s : TapStateType) : tapRun s [true] = nextTapStateAt s true := by
  rw [next_eq_ieee]; rfl

theorem shift_valid (s : TapStateType) (hs : s = .SHIFT_DR ∨ s = .SHIFT_IR) :
    s ≠ .INVALID_TAP_STATE := by
  rcases hs with h | h <;> subst h <;> decide

theorem tracks_intro (jc : Nat) (port port1 : Port) (d s1 : TapStateType)
    (frames : List (List Nat)) (h1 : port1.written = port.written ++ frames)
    (h2 : referenceTap jc d frames = s1) (h3 : s1 ≠ .INVALID_TAP_STATE) :
    TracksFrom jc port d ⟨some port1, s1, [], []⟩ := by
  subst h2
  exact ⟨port1, frames, rfl, h1, h3⟩

theorem written_write_write (port : Port) (f1 f2 : List Nat) :
    ((port.Write f1).2.Write f2).2.written = port.written ++ [f1, f2] := by
  simp [Port.Write]

theorem step_shiftTdi (jc : Nat) (port : Port) (s : TapStateType) (bits : BitBuffer)
    (ex : Bool) (p1 : JtagPort)
    (h : runOp jc ⟨some port, s, [], []⟩ (.shiftTdi bits ex) = some p1) :
    TracksFrom jc port s p1 := by
  simp only [runOp] at h
  obtain ⟨r, hr, hp⟩ := Option.map_eq_some'.mp h
  subst hp
  unfold ShiftTdi at hr
  by_cases hs : s = .SHIFT_DR ∨ s = .SHIFT_IR
  · simp only [hs, if_true, push_back_eq, List.nil_append] at hr
    cases ex with
    | false =>
        simp only [Bool.false_eq_true, if_false] at hr
        by_cases hb : bits = []
        · subst hb
          rw [Flush_empty] at hr
          exact Option.noConfusion hr
        · rw [Flush, FlushFuel_tdi_only jc 1 port s bits hb] at hr
          simp only [Option.some_bind, XsError.orAssign_noError_status, Option.map_some',
            Option.some.injEq] at hr
          have href : referenceTap jc s [PrependJtagCmdHdr jc bits.length PUT_TDI_MASK
              (packedBytes bits)] = s := by
            rw [referenceTap_single]
            exact static_zero_frame jc _ _ _ s hs (by decide) (by decide)
          rw [← hr]
          exact tracks_intro jc port _ s s _ (written_write _ _) href (shift_valid s hs)
    | true =>
        simp only [if_true, JtagPort.ShiftTms, List.nil_append] at hr
        have hv : nextTapStateAt s true ≠ .INVALID_TAP_STATE :=
          next_valid s true (shift_valid s hs)
        by_cases hb : bits = []
        · subst hb
          rw [Flush, FlushFuel_tms_only jc 1 port _ [true] (by simp)] at hr
          simp only [Option.some_bind, XsError.orAssign_noError_status, Option.map_some',
            Option.some.injEq] at hr
          have href : referenceTap jc s [PrependJtagCmdHdr jc [true].length PUT_TMS_MASK
              (packedBytes [true])] = nextTapStateAt s true := by
            rw [referenceTap_single, frameTmsBits_tms_only jc [true] (by decide), tapRun_one]
          rw [← hr]
          exact tracks_intro jc port _ s _ _ (written_write _ _) href hv
        · by_cases h1 : bits.length = 1
          · obtain ⟨b, rfl⟩ := List.length_eq_one.mp h1
            rw [Flush, FlushFuel_equal jc 1 port _ [true] [b] (by simp) rfl] at hr
            simp only [Option.some_bind, XsError.orAssign_noError_status, Option.map_some',
              Option.some.injEq, packedBytes_singleton, interleaved, if_true,
              List.length_singleton] at hr
            have href : referenceTap jc s [PrependJtagCmdHdr jc 1
                (PUT_TDI_MASK ||| PUT_TMS_MASK) [1, if b then 1 else 0]]
                = nextTapStateAt s true := by
              rw [referenceTap_single, frameTmsBits_one_pair jc 1 _ (Or.inr rfl)]
              exact tapRun_one s
            rw [← hr]
            exact tracks_intro jc port _ s _ _ (written_write _ _) href hv
          · have h2 : 2 ≤ bits.length := by
              have := List.length_pos.mpr hb
              omega
            obtain ⟨err, _, hsplit⟩ := FlushFuel_split jc 0 port (nextTapStateAt s true) true
              bits h2
            rw [Flush, hsplit] at hr
            simp only [Option.some_bind, if_true] at hr
            obtain ⟨e2, _, hr2⟩ := Option.map_eq_some'.mp hr
            have href : referenceTap jc s
                [PrependJtagCmdHdr jc (bits.length - 1) PUT_TDI_MASK
                    (packedBytes (bits.take (bits.length - 1))),
                  PrependJtagCmdHdr jc 1 (PUT_TDI_MASK ||| PUT_TMS_MASK)
                    [1, if bits.getLastD false then 1 else 0]]
                = nextTapStateAt s true := by
              rw [show ([PrependJtagCmdHdr jc (bits.length - 1) PUT_TDI_MASK
                    (packedBytes (bits.take (bits.length - 1))),
                  PrependJtagCmdHdr jc 1 (PUT_TDI_MASK ||| PUT_TMS_MASK)
                    [1, if bits.getLastD false then 1 else 0]] : List (List Nat))
                  = [PrependJtagCmdHdr jc (bits.length - 1) PUT_TDI_MASK
                    (packedBytes (bits.take (bits.length - 1)))] ++
                  [PrependJtagCmdHdr jc 1 (PUT_TDI_MASK ||| PUT_TMS_MASK)
                    [1, if bits.getLastD false then 1 else 0]] from rfl,
                referenceTap_append, referenceTap_single, referenceTap_single,
                static_zero_frame jc _ _ _ s hs (by decide) (by decide),
                frameTmsBits_one_pair jc 1 _ (Or.inr rfl)]
              exact tapRun_one s
            rw [← hr2]
            exact tracks_intro jc port _ s _ _ (written_write_write _ _ _) href hv
  · simp [hs] at hr

end Xstools

namespace Xstools
open BitBuffer JtagPort

namespace JtagPort

theorem ShiftTdo_exit_some (jc : Nat) (port : Port) (s : TapStateType) (n : Nat)
    (out : BitBuffer) (r : XsError × JtagPort × BitBuffer)
    (h : ShiftTdo jc ⟨some port, s, [], []⟩ n out true = some r) :
    (s = .SHIFT_DR ∨ s = .SHIFT_IR) ∧
      r.2.1 = ⟨some ((((port.Write
          (PrependJtagCmdHdr jc ((n + 2 ^ 64 - 1) % 2 ^ 64) GET_TDO_MASK [])).2.Read
          (((n + 2 ^ 64 - 1) % 2 ^ 64 + Port.DATA_LENGTH - 1) / Port.DATA_LENGTH) []).2.1.Write
            (PrependJtagCmdHdr jc 1 (GET_TDO_MASK ||| TMS_VAL_MASK) [])).2.Read 1 []).2.1,
        nextTapStateAt s true, [], []⟩ := by
  unfold ShiftTdo at h
  simp only [if_true, IsBufferEmpty, decide_True, Bool.and_self] at h
  by_cases hs : s = .SHIFT_DR ∨ s = .SHIFT_IR
  · refine ⟨hs, ?_⟩
    simp only [hs, if_true] at h
    obtain ⟨first, hfirst, h⟩ := Option.bind_eq_some.mp h
    obtain ⟨_, hp⟩ := ShiftTdoStay_some jc port s _ out first hfirst
    obtain ⟨e1, _, h⟩ := Option.bind_eq_some.mp h
    obtain ⟨e2, _, h⟩ := Option.bind_eq_some.mp h
    rw [hp] at h
    simp only [JtagPort.ShiftTms] at h
    obtain ⟨e3, _, h⟩ := Option.bind_eq_some.mp h
    obtain ⟨e4, _, h⟩ := Option.bind_eq_some.mp h
    split at h
    · exact Option.noConfusion h
    · obtain ⟨tdo, _, htdo⟩ := Option.map_eq_some'.mp h
      rw [← htdo]
  · simp [hs] at h

end JtagPort

theorem step_shiftTdo (jc : Nat) (port : Port) (s : TapStateType) (n : Nat) (out : BitBuffer)
    (ex : Bool) (p1 : JtagPort)
    (h : runOp jc ⟨some port, s, [], []⟩ (.shiftTdo n out ex) = some p1) :
    TracksFrom jc port s p1 := by
  simp only [runOp] at h
  obtain ⟨r, hr, hp⟩ := Option.map_eq_some'.mp h
  subst hp
  cases ex with
  | false =>
      have hr' : ShiftTdoStay jc ⟨some port, s, [], []⟩ n out = some r := by
        simpa [ShiftTdo] using hr
      obtain ⟨hs, hp⟩ := ShiftTdoStay_some jc port s n out r hr'
      rw [hp]
      refine tracks_intro jc port _ s s [PrependJtagCmdHdr jc n GET_TDO_MASK []] rfl ?_
        (shift_valid s hs)
      rw [referenceTap_single]
      exact static_zero_frame jc _ _ _ s hs (by decide) (by decide)
  | true =>
      obtain ⟨hs, hp⟩ := ShiftTdo_exit_some jc port s n out r hr
      rw [hp]
      refine tracks_intro jc port _ s _
        [PrependJtagCmdHdr jc ((n + 2 ^ 64 - 1) % 2 ^ 64) GET_TDO_MASK [],
          PrependJtagCmdHdr jc 1 (GET_TDO_MASK ||| TMS_VAL_MASK) []] ?_ ?_
        (next_valid s true (shift_valid s hs))
      · simp [Port.Write, Port.Read]
      · rw [show ([PrependJtagCmdHdr jc ((n + 2 ^ 64 - 1) % 2 ^ 64) GET_TDO_MASK [],
            PrependJtagCmdHdr jc 1 (GET_TDO_MASK ||| TMS_VAL_MASK) []] : List (List Nat))
            = [PrependJtagCmdHdr jc ((n + 2 ^ 64 - 1) % 2 ^ 64) GET_TDO_MASK []] ++
              [PrependJtagCmdHdr jc 1 (GET_TDO_MASK ||| TMS_VAL_MASK) []] from rfl,
          referenceTap_append, referenceTap_single, referenceTap_single,
          static_zero_frame jc _ _ _ s hs (by decide) (by decide),
          frameTmsBits_static jc 1 _ [] (by decide)]
        exact tapRun_one s

theorem step_op (jc : Nat) (port : Port) (s : TapStateType) (op : JtagOp) (p1 : JtagPort)
    (hs : s ≠ .INVALID_TAP_STATE) (hfit : walksFitLengthField [op] = true)
    (h : runOp jc ⟨some port, s, [], []⟩ op = some p1) :
    TracksFrom jc port s p1 := by
  cases op with
  | resetTap =>
      obtain ⟨port', hport, ht⟩ := step_resetTap jc _ p1 s hs h
      simp only [Option.some.injEq] at hport
      rw [hport]
      exact ht
  | goThruTapStates states =>
      simp only [walksFitLengthField, Bool.and_true, decide_eq_true_eq] at hfit
      exact step_goThru jc port s states p1 hs hfit h
  | shiftTdi bits ex => exact step_shiftTdi jc port s bits ex p1 h
  | shiftTdo n out ex => exact step_shiftTdo jc port s n out ex p1 h

theorem walksFit_cons (op : JtagOp) (rest : List JtagOp)
    (h : walksFitLengthField (op :: rest) = true) :
    walksFitLengthField [op] = true ∧ walksFitLengthField rest = true := by
  cases op <;> simp_all [walksFitLengthField]

theorem runOps_tracks (jc : Nat) : ∀ (ops : List JtagOp) (port : Port) (s : TapStateType)
    (p1 : JtagPort), s ≠ .INVALID_TAP_STATE → walksFitLengthField ops = true →
    runOps jc ops ⟨some port, s, [], []⟩ = some p1 → TracksFrom jc port s p1 := by
  intro ops
  induction ops with
  | nil =>
      intro port s p1 hs _ h
      simp only [runOps, Option.some.injEq] at h
      rw [← h]
      exact tracks_intro jc port port s s [] (by simp) rfl hs
  | cons op rest ih =>
      intro port s p1 hs hfit h
      obtain ⟨hfit1, hfit2⟩ := walksFit_cons op rest hfit
      simp only [runOps] at h
      obtain ⟨pm, hpm, hrest⟩ := Option.bind_eq_some.mp h
      obtain ⟨portm, frames1, hpmeq, hw1, hv1⟩ := step_op jc port s op pm hs hfit1 hpm
      rw [hpmeq] at hrest
      obtain ⟨port2, frames2, hp1eq, hw2, hv2⟩ := ih portm _ p1 hv1 hfit2 hrest
      rw [hp1eq]
      refine tracks_intro jc port port2 s _ (frames1 ++ frames2) ?_ ?_ hv2
      · rw [hw2, hw1, List.append_assoc]
      · rw [referenceTap_append]

end Xstools

namespace Xstools
open BitBuffer JtagPort

/-- C13: for every sequence of `JtagPort` operations that begins with `ResetTap` and
continues with `GoThruTapStates`, `ShiftTdi` with flush and `ShiftTdo`, all of which
return, the object ends with empty transmit buffers and its software TAP state equals
the state of a reference IEEE 1149.1 TAP that starts in any of the sixteen IEEE states
and takes one TMS value per bit of every `JTAG_CMD` frame written to the port since
the start (the TMS payload bit when `PUT_TMS` is set, otherwise the static `TMS_VAL`
flag). Every prefix of such a sequence is such a sequence, so this holds after each
operation. Each `GoThruTapStates` lists fewer than `2 ^ 32` states, what the length
field of its frame can hold. -/
theorem c13_software_tap_state_tracks_reference (jc : Nat) (p0 p1 : JtagPort)
    (d0 : TapStateType) (ops : List JtagOp) (hd0 : d0 ≠ .INVALID_TAP_STATE)
    (hfit : walksFitLengthField ops = true)
    (hrun : runOps jc (.resetTap :: ops) p0 = some p1) :
    p1.mTapState = referenceTap jc d0 (p1.written.drop p0.written.length) ∧
      p1.mTmsBitBuffer = [] ∧ p1.mTdiBitBuffer = [] := by
  simp only [runOps] at hrun
  obtain ⟨pm, hpm, hrest⟩ := Option.bind_eq_some.mp hrun
  obtain ⟨port, hport, portm, frames1, hpmeq, hw1, hv1⟩ := step_resetTap jc p0 pm d0 hd0 hpm
  rw [hpmeq] at hrest
  obtain ⟨port2, frames2, hp1eq, hw2, _⟩ :=
    runOps_tracks jc ops portm _ p1 hv1 hfit hrest
  have hwr0 : p0.written = port.written := by
    simp only [JtagPort.written, hport]
  have hwr1 : p1.written = port.written ++ (frames1 ++ frames2) := by
    rw [hp1eq]
    simp only [JtagPort.written, hw2, hw1, List.append_assoc]
  refine ⟨?_, by rw [hp1eq], by rw [hp1eq]⟩
  rw [hwr1, hwr0, List.drop_left, referenceTap_append, hp1eq]

/-- C13 on the bring-up of `HostIo` followed by a read of nine TDO bits that leaves the
shift state, with a device that starts in Pause-DR. -/
theorem c13_software_tap_state_tracks_reference_witness :
    (TapStateType.PAUSE_DR ≠ .INVALID_TAP_STATE ∧
      walksFitLengthField exampleOps = true ∧
      runOps 0x4f (.resetTap :: exampleOps) exampleStart = some exampleEnd) ∧
    (exampleEnd.mTapState
        = referenceTap 0x4f .PAUSE_DR (exampleEnd.written.drop exampleStart.written.length) ∧
      exampleEnd.mTmsBitBuffer = [] ∧ exampleEnd.mTdiBitBuffer = []) :=
  ⟨by decide,
    c13_software_tap_state_tracks_reference 0x4f exampleStart exampleEnd .PAUSE_DR exampleOps
      (by decide) (by decide) (by decide)⟩

end Xstools

namespace Xstools
open BitBuffer JtagPort

/-! ## Lemmas on the HostIo command -/

namespace XsError

theorem SetSeverity_nonFatal (a c : XsError) (sev : ErrorSeverityType)
    (h : SetSeverity a sev = some c) : c.NonFatal := by
  cases sev <;> simp [SetSeverity] at h <;> rw [← h] <;> simp [NonFatal]

theorem orAssign_some_nonFatal (a b c : XsError) (h : orAssign a b = some c) : c.NonFatal :=
  SetSeverity_nonFatal _ _ _ h

end XsError

namespace JtagPort

theorem ShiftTdi_stay_flush (jc : Nat) (port : Port) (s : TapStateType) (bits : BitBuffer)
    (hs : s = .SHIFT_DR ∨ s = .SHIFT_IR) (hb : bits ≠ []) :
    ShiftTdi jc ⟨some port, s, [], []⟩ bits false true
      = some ((port.writeResults.headD PortStatus.ok).toXsError,
          ⟨some (port.Write (PrependJtagCmdHdr jc bits.length PUT_TDI_MASK
            (packedBytes bits))).2, s, [], []⟩) := by
  rw [ShiftTdi]
  simp only [if_true, hs, push_back_eq, List.nil_append, Bool.false_eq_true, if_false, Flush,
    FlushFuel_tdi_only jc 1 port s bits hb, Option.some_bind, XsError.orAssign_noError_status,
    Option.map_some']

theorem ShiftTdi_exit_flush_frames (jc : Nat) (port : Port) (s : TapStateType)
    (bits : BitBuffer) (hs : s = .SHIFT_DR ∨ s = .SHIFT_IR) (hb : bits ≠ []) :
    ∃ (err : XsError) (port1 : Port), err.NonFatal ∧
      ShiftTdi jc ⟨some port, s, [], []⟩ bits true true
        = some (err, ⟨some port1, nextTapStateAt s true, [], []⟩) ∧
      port1.written = port.written ++ exitTdiFrames jc bits ∧
      port1.readRequests = port.readRequests ∧ port1.readResults = port.readResults := by
  rw [ShiftTdi]
  simp only [if_true, hs, push_back_eq, List.nil_append, Flush, JtagPort.ShiftTms]
  by_cases h1 : bits.length = 1
  · have hlen : ([true] : BitBuffer).length = bits.length := by rw [h1]; rfl
    rw [FlushFuel_equal jc 1 port _ [true] bits (by simp) hlen]
    simp only [Option.some_bind, XsError.orAssign_noError_status, Option.map_some']
    refine ⟨_, _, XsError.nonFatal_status _, rfl, ?_, rfl, rfl⟩
    obtain ⟨b, rfl⟩ : ∃ b, bits = [b] := List.length_eq_one.mp h1
    cases b <;> rfl
  · have h2 : 2 ≤ bits.length := by
      have : bits.length ≠ 0 := fun h => hb (List.length_eq_zero.mp h)
      omega
    obtain ⟨err, hnf, hfl⟩ := FlushFuel_split jc 0 port (nextTapStateAt s true) true bits h2
    rw [hfl]
    simp only [Option.some_bind]
    obtain ⟨c, hc, hcn⟩ := XsError.orAssign_nonFatal XsError.noError err
      XsError.nonFatal_noError hnf
    rw [hc]
    refine ⟨_, _, hcn, rfl, ?_, rfl, rfl⟩
    simp [Port.Write, exitTdiFrames, h1]

end JtagPort
end Xstools

namespace Xstools
open BitBuffer JtagPort

theorem unpackBits_cons (x : Nat) (rcv : List Nat) (m : Nat) :
    unpackBits (x :: rcv) (8 + m) = (List.range 8).map x.testBit ++ unpackBits rcv m := by
  apply List.ext_getElem
  · simp [unpackBits]
  · intro k h1 h2
    simp only [unpackBits, List.getElem_map, List.getElem_range, List.getElem_append,
      List.length_map, List.length_range]
    by_cases hk : k < 8
    · rw [dif_pos hk]
      have h0 : k / 8 = 0 := by omega
      have hm : k % 8 = k := by omega
      simp [h0, hm]
    · rw [dif_neg hk]
      have h0 : k / 8 = (k - 8) / 8 + 1 := by omega
      have hm : k % 8 = (k - 8) % 8 := by omega
      simp [h0, hm]

theorem tdoBitsOf_length (bytes : List Nat) (n : Nat) : (tdoBitsOf bytes n).length = n := by
  unfold tdoBitsOf unpackBits
  by_cases h : n % 8 = 1
  · simp [h]; omega
  · simp [h]; omega

namespace JtagPort

theorem ShiftTdoLoop_eq : ∀ (rcv : List Nat) (i : Nat) (out : BitBuffer), i / 8 ≤ rcv.length →
    ShiftTdoLoop rcv i out
      = some (i % 8, rcv.drop (i / 8), out ++ unpackBits rcv (8 * (i / 8))) := by
  intro rcv
  induction rcv with
  | nil =>
      intro i out h
      have hi : i < 8 := by simp at h; omega
      have h0 : i / 8 = 0 := by omega
      have hm : i % 8 = i := by omega
      simp [ShiftTdoLoop, Port.DATA_LENGTH, hi, h0, hm, unpackBits]
  | cons x rcv ih =>
      intro i out h
      rw [ShiftTdoLoop]
      by_cases hi : 8 ≤ i
      · have h1 : (i - 8) / 8 ≤ rcv.length := by simp at h; omega
        have h0 : i / 8 = (i - 8) / 8 + 1 := by omega
        have hm : i % 8 = (i - 8) % 8 := by omega
        rw [if_pos (by simpa [Port.DATA_LENGTH] using hi)]
        rw [show Port.DATA_LENGTH = 8 from rfl,
          push_back_val_eq out x 8 (by decide) (by omega), Option.some_bind, ih _ _ h1, h0, hm,
          show 8 * ((i - 8) / 8 + 1) = 8 + 8 * ((i - 8) / 8) by ring, unpackBits_cons,
          List.drop_succ_cons, List.append_assoc]
      · have h0 : i / 8 = 0 := by omega
        have hm : i % 8 = i := by omega
        rw [if_neg (by simpa [Port.DATA_LENGTH] using hi)]
        simp [h0, hm, unpackBits]

theorem push_back_val_length (b : BitBuffer) (x k : Nat) (hk : k < 64) (t : BitBuffer)
    (h : push_back_val b x k = some t) : t.length = b.length + k := by
  unfold push_back_val at h
  by_cases h1 : k = 1
  · rw [if_pos h1] at h
    simp only [Option.some.injEq] at h
    rw [← h, h1]
    simp
  · rw [if_neg h1, fromVal_eq x k hk, Option.map_some', push_back_eq] at h
    simp only [Option.some.injEq] at h
    rw [← h]
    simp

theorem ShiftTdoLoop_length : ∀ (rcv : List Nat) (i : Nat) (out : BitBuffer)
    (l : Nat × List Nat × BitBuffer), ShiftTdoLoop rcv i out = some l →
    l.2.2.length + l.1 = out.length + i ∧ l.1 < 8 := by
  intro rcv
  induction rcv with
  | nil =>
      intro i out l h
      rw [ShiftTdoLoop] at h
      by_cases hi : Port.DATA_LENGTH ≤ i
      · rw [if_pos hi] at h; simp at h
      · rw [if_neg hi] at h
        simp only [Option.some.injEq] at h
        rw [← h]
        simp only [Port.DATA_LENGTH] at hi
        exact ⟨rfl, by omega⟩
  | cons x rcv ih =>
      intro i out l h
      rw [ShiftTdoLoop] at h
      by_cases hi : Port.DATA_LENGTH ≤ i
      · rw [if_pos hi] at h
        rw [show Port.DATA_LENGTH = 8 from rfl,
          push_back_val_eq out x 8 (by decide) (by omega), Option.some_bind] at h
        obtain ⟨h1, h2⟩ := ih _ _ l h
        simp only [Port.DATA_LENGTH] at hi
        simp only [List.length_append, List.length_map, List.length_range] at h1
        exact ⟨by omega, h2⟩
      · rw [if_neg hi] at h
        simp only [Option.some.injEq] at h
        rw [← h]
        simp only [Port.DATA_LENGTH] at hi
        exact ⟨rfl, by omega⟩

end JtagPort
end Xstools

namespace Xstools
open BitBuffer JtagPort

namespace JtagPort

theorem drop_eq_getD_of_length (bytes : List Nat) (k : Nat) (h : bytes.length = k + 1) :
    bytes.drop k = [bytes.getD k 0] := by
  rw [drop_eq_getD_cons bytes 0 k (by omega)]
  rw [List.drop_of_length_le (by omega)]

theorem ShiftTdoStay_eq (jc : Nat) (port : Port) (s : TapStateType) (n : Nat) (out : BitBuffer)
    (hs : s = .SHIFT_DR ∨ s = .SHIFT_IR) (hbytes : port.nextBytes.length = (n + 7) / 8) :
    ∃ err : XsError, err.NonFatal ∧
      ShiftTdoStay jc ⟨some port, s, [], []⟩ n out
        = some (err,
            ⟨some ((port.Write (tdoFrame jc n)).2.Read ((n + 7) / 8) []).2.1, s, [], []⟩,
            out ++ tdoBitsOf port.nextBytes n) := by
  obtain ⟨c, hc, hcn⟩ := XsError.orAssign_nonFatal
    (port.Write (PrependJtagCmdHdr jc n GET_TDO_MASK [])).1
    ((port.Write (PrependJtagCmdHdr jc n GET_TDO_MASK [])).2.Read
      ((n + Port.DATA_LENGTH - 1) / Port.DATA_LENGTH) []).1
    (XsError.nonFatal_status _) (XsError.nonFatal_status _)
  refine ⟨c, hcn, ?_⟩
  have hrd : ((port.Write (PrependJtagCmdHdr jc n GET_TDO_MASK [])).2.Read
      ((n + Port.DATA_LENGTH - 1) / Port.DATA_LENGTH) []).2.2 = port.nextBytes := rfl
  have hw : XsError.orAssign XsError.noError
      (port.Write (PrependJtagCmdHdr jc n GET_TDO_MASK [])).1
      = some (port.Write (PrependJtagCmdHdr jc n GET_TDO_MASK [])).1 :=
    XsError.orAssign_noError_status _
  unfold ShiftTdoStay
  simp only [IsBufferEmpty, decide_True, Bool.and_self, if_true, hs,
    XsError.orAssign_noError_noError, Option.some_bind, hw, hc, hrd]
  rw [ShiftTdoLoop_eq _ _ _ (by rw [hbytes]; omega)]
  simp only [Option.some_bind, List.length_drop, hbytes]
  rw [if_pos (by omega)]
  by_cases h0 : n % 8 = 0
  · rw [if_neg (by simpa using h0)]
    simp [tdoBitsOf, tdoFrame, h0, Port.DATA_LENGTH]
  · rw [if_pos h0]
    have hlen : port.nextBytes.length = n / 8 + 1 := by rw [hbytes]; omega
    rw [drop_eq_getD_of_length _ _ hlen]
    simp only []
    by_cases h1 : n % 8 = 1
    · simp [push_back_val, tdoBitsOf, tdoFrame, h1, Port.DATA_LENGTH]
    · rw [push_back_val, if_neg h1, fromVal_eq _ _ (by omega), Option.map_some', push_back_eq]
      simp [tdoBitsOf, tdoFrame, h1, Port.DATA_LENGTH]

theorem ShiftTdoStay_length (jc : Nat) (p : JtagPort) (n : Nat) (out : BitBuffer)
    (r : XsError × JtagPort × BitBuffer) (h : ShiftTdoStay jc p n out = some r) :
    r.2.2.length = out.length + n ∧ r.1.NonFatal := by
  unfold ShiftTdoStay at h
  split at h
  · split at h
    · simp only [XsError.orAssign_noError_noError, Option.some_bind] at h
      split at h
      · simp at h
      · rename_i port hp
        obtain ⟨e2, he2, h⟩ := Option.bind_eq_some.mp h
        obtain ⟨e3, he3, h⟩ := Option.bind_eq_some.mp h
        obtain ⟨l, hl, h⟩ := Option.bind_eq_some.mp h
        obtain ⟨hlen, hlt⟩ := ShiftTdoLoop_length _ _ _ _ hl
        have hnf := XsError.orAssign_some_nonFatal _ _ _ he3
        split at h
        · split at h
          · split at h
            · simp at h
            · obtain ⟨tdo, htdo, hr⟩ := Option.map_eq_some'.mp h
              have := push_back_val_length _ _ _ (by omega) _ htdo
              rw [← hr]
              exact ⟨by simp only []; omega, hnf⟩
          · rename_i hz
            simp only [Option.some.injEq] at h
            rw [← h]
            have : l.1 = 0 := by simpa using hz
            exact ⟨by simp only []; omega, hnf⟩
        · simp at h
    · simp at h
  · simp at h

end JtagPort
end Xstools

namespace Xstools
open BitBuffer JtagPort

theorem HostIoCmdTdiBits_eq (id payload : BitBuffer) (n : Nat) :
    HostIoCmdTdiBits id payload n = some (cmdStream id payload n) := by
  rw [HostIoCmdTdiBits]
  simp only [NUM_PAYLOAD_BITS_FIELD_LENGTH, fromVal_eq (payload.length + n) 32 (by decide),
    Option.map_some', add, addAssign, push_front_eq, List.append_assoc, cmdStream]

theorem cmdStream_ne_nil (id payload : BitBuffer) (n : Nat) : cmdStream id payload n ≠ [] := by
  intro h
  have := congrArg List.length h
  simp [cmdStream] at this

theorem HostIoCmd_eq (jc : Nat) (port : Port) (s : TapStateType) (id payload : BitBuffer)
    (n : Nat) (out : BitBuffer) (hs : s = .SHIFT_DR ∨ s = .SHIFT_IR)
    (hsup : SuppliesBytes port n) :
    ∃ (err : XsError) (port1 : Port), err.NonFatal ∧
      HostIoCmd jc ⟨some port, s, [], []⟩ id payload n out
        = some (err, ⟨some port1, s, [], []⟩, out ++ tdoBitsOf port.nextBytes n) ∧
      port1.written = port.written ++
        cmdFrame jc (cmdStream id payload n) :: (if n = 0 then [] else [tdoFrame jc n]) ∧
      port1.readResults = (if n = 0 then port.readResults else port.readResults.tail) := by
  rw [HostIoCmd, HostIoCmdTdiBits_eq, Option.some_bind,
    ShiftTdi_stay_flush jc port s _ hs (cmdStream_ne_nil id payload n), Option.some_bind,
    XsError.orAssign_noError_status, Option.some_bind]
  by_cases hn : n = 0
  · subst hn
    rw [if_neg (by simp)]
    refine ⟨(port.writeResults.headD PortStatus.ok).toXsError,
      (port.Write (cmdFrame jc (cmdStream id payload 0))).2, XsError.nonFatal_status _, ?_, ?_,
      ?_⟩
    · simp [tdoBitsOf, unpackBits, cmdFrame]
    · simp [Port.Write, cmdFrame]
    · simp [Port.Write]
  · rw [if_pos hn]
    obtain ⟨e, hen, he⟩ := ShiftTdoStay_eq jc
      (port.Write (PrependJtagCmdHdr jc (cmdStream id payload n).length PUT_TDI_MASK
        (packedBytes (cmdStream id payload n)))).2 s n out hs (hsup hn)
    obtain ⟨c, hc, hcn⟩ := XsError.orAssign_nonFatal
      (port.writeResults.headD PortStatus.ok).toXsError e (XsError.nonFatal_status _) hen
    rw [ShiftTdo, if_neg (by simp), he, Option.some_bind]
    simp only [hc, Option.map_some']
    refine ⟨_, _, hcn, rfl, ?_, ?_⟩
    · simp [Port.Write, Port.Read, cmdFrame, hn]
    · simp [Port.Write, Port.Read, hn]

theorem HostIoCmd_some (jc : Nat) (port : Port) (s : TapStateType) (id payload : BitBuffer)
    (n : Nat) (out : BitBuffer) (r : XsError × JtagPort × BitBuffer)
    (h : HostIoCmd jc ⟨some port, s, [], []⟩ id payload n out = some r) :
    (s = .SHIFT_DR ∨ s = .SHIFT_IR) ∧ r.1.NonFatal ∧ r.2.2.length = out.length + n ∧
      ∃ port1 : Port, r.2.1 = ⟨some port1, s, [], []⟩ ∧
        port1.written = port.written ++
          cmdFrame jc (cmdStream id payload n) :: (if n = 0 then [] else [tdoFrame jc n]) := by
  rw [HostIoCmd, HostIoCmdTdiBits_eq, Option.some_bind] at h
  by_cases hs : s = .SHIFT_DR ∨ s = .SHIFT_IR
  · rw [ShiftTdi_stay_flush jc port s _ hs (cmdStream_ne_nil id payload n), Option.some_bind,
      XsError.orAssign_noError_status, Option.some_bind] at h
    refine ⟨hs, ?_⟩
    by_cases hn : n = 0
    · subst hn
      simp only [ne_eq, not_true_eq_false, if_false, Option.some.injEq] at h
      rw [← h]
      exact ⟨XsError.nonFatal_status _, rfl, _, rfl, by simp [Port.Write, cmdFrame]⟩
    · rw [if_pos hn, ShiftTdo, if_neg (by simp)] at h
      obtain ⟨got, hgot, h⟩ := Option.bind_eq_some.mp h
      obtain ⟨e2, he2, h⟩ := Option.map_eq_some'.mp h
      obtain ⟨_, hport⟩ := ShiftTdoStay_some jc _ s n out got hgot
      obtain ⟨hlen, _⟩ := ShiftTdoStay_length jc _ n out got hgot
      rw [← h]
      refine ⟨XsError.orAssign_some_nonFatal _ _ _ he2, hlen, _, hport, ?_⟩
      simp [Port.Write, Port.Read, cmdFrame, tdoFrame, hn]
  · rw [ShiftTdi] at h
    simp [hs] at h

end Xstools

namespace Xstools
open BitBuffer JtagPort

/-! ## Claims on the HostIo layer -/

set_option maxRecDepth 16384 in
/-- C21: for every USER instruction of at least one bit and every initial software TAP
state, `HostIo::Reset()` on a JTAG port that has a physical port and empty transmit
buffers returns: `ResetTap`, the walk Run-Test/Idle, Select-DR-Scan, Select-IR-Scan,
Capture-IR, Shift-IR, the exiting and flushing `ShiftTdi` of the instruction and the walk
Update-IR, Select-DR-Scan, Capture-DR, Shift-DR pass every assertion (each hop of the
two walks is a successor in the table, and `ShiftTdi` starts in Shift-IR and leaves it
for Exit1-IR), the error returned and stored is below Fatal, the software TAP state is
Shift-DR and both transmit buffers are empty. The port has been handed, in this order
and after what it held before, the frame of `ResetTap` (five TMS bits 1), the frame of
the first walk (TMS bits 0, 1, 1, 0, 0), the frames of the instruction (all bits but
the last as TDI, then the last bit with TMS = 1) and the frame of the second walk (TMS
bits 1, 1, 0, 0), and nothing has been read from it. For the instruction `"000010"`
these are the five frames listed. -/
theorem c21_host_io_reset_ends_in_shift_dr (jc : Nat) (port : Port) (s : TapStateType)
    (lastError : XsError) (userInstr : BitBuffer) (hlen : 1 ≤ userInstr.length) :
    hopsReachable .TEST_LOGIC_RESET
        [.RUN_TEST_IDLE, .SELECT_DR_SCAN, .SELECT_IR_SCAN, .CAPTURE_IR, .SHIFT_IR] = true ∧
      nextTapStateAt .SHIFT_IR true = .EXIT1_IR ∧
      hopsReachable .EXIT1_IR [.UPDATE_IR, .SELECT_DR_SCAN, .CAPTURE_DR, .SHIFT_DR] = true ∧
      (∃ (err : XsError) (port1 : Port), err.NonFatal ∧
        HostIo.Reset jc ⟨lastError, some ⟨some port, s, [], []⟩, userInstr⟩
          = some (err, ⟨err, some ⟨some port1, .SHIFT_DR, [], []⟩, userInstr⟩) ∧
        port1.written = port.written
          ++ [PrependJtagCmdHdr jc 5 PUT_TMS_MASK (packedBytes [true, true, true, true, true]),
              PrependJtagCmdHdr jc 5 PUT_TMS_MASK
                (packedBytes [false, true, true, false, false])]
          ++ exitTdiFrames jc userInstr
          ++ [PrependJtagCmdHdr jc 4 PUT_TMS_MASK (packedBytes [true, true, false, false])] ∧
        port1.readRequests = port.readRequests ∧ port1.readResults = port.readResults) ∧
      (HostIo.Reset 0x4f exampleMemory.toHostIo).map
          (fun r => r.2.mpJtagPort.map fun j => (j.mpPhysPort.map Port.written, j.mTapState))
        = some (some (some [[0x4f, 5, 0, 0, 0, 2, 31], [0x4f, 5, 0, 0, 0, 2, 6],
            [0x4f, 5, 0, 0, 0, 8, 2], [0x4f, 1, 0, 0, 0, 10, 1, 0], [0x4f, 4, 0, 0, 0, 2, 3]],
            .SHIFT_DR)) := by
  refine ⟨by decide, by decide, by decide, ?_, by decide⟩
  have h1 := ResetTap_eq jc port s
  have hw1 : (port.Write (PrependJtagCmdHdr jc 5 PUT_TMS_MASK
      (packedBytes [true, true, true, true, true]))).2.written
      = port.written ++ [PrependJtagCmdHdr jc 5 PUT_TMS_MASK
        (packedBytes [true, true, true, true, true])] := rfl
  have hq1 : (port.Write (PrependJtagCmdHdr jc 5 PUT_TMS_MASK
      (packedBytes [true, true, true, true, true]))).2.readRequests = port.readRequests := rfl
  have hr1 : (port.Write (PrependJtagCmdHdr jc 5 PUT_TMS_MASK
      (packedBytes [true, true, true, true, true]))).2.readResults = port.readResults := rfl
  generalize (port.Write (PrependJtagCmdHdr jc 5 PUT_TMS_MASK
    (packedBytes [true, true, true, true, true]))).2 = port1 at h1 hw1 hq1 hr1
  have h2 := GoThruTapStates_eq jc port1 .TEST_LOGIC_RESET
    [.RUN_TEST_IDLE, .SELECT_DR_SCAN, .SELECT_IR_SCAN, .CAPTURE_IR, .SHIFT_IR]
    (by decide) (by simp) (by decide)
  rw [show List.getLastD
      [TapStateType.RUN_TEST_IDLE, .SELECT_DR_SCAN, .SELECT_IR_SCAN, .CAPTURE_IR, .SHIFT_IR]
      TapStateType.TEST_LOGIC_RESET = .SHIFT_IR from rfl,
    show tmsPath .TEST_LOGIC_RESET
      [.RUN_TEST_IDLE, .SELECT_DR_SCAN, .SELECT_IR_SCAN, .CAPTURE_IR, .SHIFT_IR]
      = [false, true, true, false, false] from by decide] at h2
  have hw2 : (port1.Write (PrependJtagCmdHdr jc
      ([false, true, true, false, false] : List Bool).length PUT_TMS_MASK
      (packedBytes [false, true, true, false, false]))).2.written
      = port1.written ++ [PrependJtagCmdHdr jc 5 PUT_TMS_MASK
        (packedBytes [false, true, true, false, false])] := rfl
  have hq2 : (port1.Write (PrependJtagCmdHdr jc
      ([false, true, true, false, false] : List Bool).length PUT_TMS_MASK
      (packedBytes [false, true, true, false, false]))).2.readRequests
      = port1.readRequests := rfl
  have hr2 : (port1.Write (PrependJtagCmdHdr jc
      ([false, true, true, false, false] : List Bool).length PUT_TMS_MASK
      (packedBytes [false, true, true, false, false]))).2.readResults
      = port1.readResults := rfl
  generalize (port1.Write (PrependJtagCmdHdr jc
    ([false, true, true, false, false] : List Bool).length PUT_TMS_MASK
    (packedBytes [false, true, true, false, false]))).2 = port2 at h2 hw2 hq2 hr2
  obtain ⟨e3, port3, hn3, h3, hw3, hq3, hr3⟩ :=
    ShiftTdi_exit_flush_frames jc port2 .SHIFT_IR userInstr (Or.inr rfl)
      (by intro h; rw [h] at hlen; simp at hlen)
  rw [show nextTapStateAt .SHIFT_IR true = .EXIT1_IR from rfl] at h3
  have h4 := GoThruTapStates_eq jc port3 .EXIT1_IR
    [.UPDATE_IR, .SELECT_DR_SCAN, .CAPTURE_DR, .SHIFT_DR] (by decide) (by simp) (by decide)
  rw [show List.getLastD [TapStateType.UPDATE_IR, .SELECT_DR_SCAN, .CAPTURE_DR, .SHIFT_DR]
      TapStateType.EXIT1_IR = .SHIFT_DR from rfl,
    show tmsPath .EXIT1_IR [.UPDATE_IR, .SELECT_DR_SCAN, .CAPTURE_DR, .SHIFT_DR]
      = [true, true, false, false] from by decide] at h4
  have hw4 : (port3.Write (PrependJtagCmdHdr jc
      ([true, true, false, false] : List Bool).length PUT_TMS_MASK
      (packedBytes [true, true, false, false]))).2.written
      = port3.written ++ [PrependJtagCmdHdr jc 4 PUT_TMS_MASK
        (packedBytes [true, true, false, false])] := rfl
  have hq4 : (port3.Write (PrependJtagCmdHdr jc
      ([true, true, false, false] : List Bool).length PUT_TMS_MASK
      (packedBytes [true, true, false, false]))).2.readRequests = port3.readRequests := rfl
  have hr4 : (port3.Write (PrependJtagCmdHdr jc
      ([true, true, false, false] : List Bool).length PUT_TMS_MASK
      (packedBytes [true, true, false, false]))).2.readResults = port3.readResults := rfl
  generalize (port3.Write (PrependJtagCmdHdr jc
    ([true, true, false, false] : List Bool).length PUT_TMS_MASK
    (packedBytes [true, true, false, false]))).2 = port4 at h4 hw4 hq4 hr4
  obtain ⟨c2, hc2, hc2n⟩ := XsError.orAssign_nonFatal
    (port.writeResults.headD PortStatus.ok).toXsError
    (port1.writeResults.headD PortStatus.ok).toXsError
    (XsError.nonFatal_status _) (XsError.nonFatal_status _)
  obtain ⟨c3, hc3, hc3n⟩ := XsError.orAssign_nonFatal c2 e3 hc2n hn3
  obtain ⟨c4, hc4, hc4n⟩ := XsError.orAssign_nonFatal c3
    (port3.writeResults.headD PortStatus.ok).toXsError hc3n (XsError.nonFatal_status _)
  refine ⟨c4, port4, hc4n, ?_, ?_, ?_, ?_⟩
  · unfold HostIo.Reset HostIo.Init
    simp only [h1, Option.some_bind, XsError.orAssign_noError_status, h2, hc2, h3, hc3, h4, hc4,
      Option.map_some']
  · rw [hw4, hw3, hw2, hw1]
    simp only [List.append_assoc, List.cons_append, List.nil_append]
  · rw [hq4, hq3, hq2, hq1]
  · rw [hr4, hr3, hr2, hr1]

/-- C21 for the USER1 instruction `"000010"` of the API, from Run-Test/Idle. -/
theorem c21_host_io_reset_ends_in_shift_dr_witness :
    1 ≤ (fromString "000010".toList).length ∧
    (hopsReachable .TEST_LOGIC_RESET
        [.RUN_TEST_IDLE, .SELECT_DR_SCAN, .SELECT_IR_SCAN, .CAPTURE_IR, .SHIFT_IR] = true ∧
      nextTapStateAt .SHIFT_IR true = .EXIT1_IR ∧
      hopsReachable .EXIT1_IR [.UPDATE_IR, .SELECT_DR_SCAN, .CAPTURE_DR, .SHIFT_DR] = true ∧
      (∃ (err : XsError) (port1 : Port), err.NonFatal ∧
        HostIo.Reset 0x4f
            ⟨XsError.noError, some ⟨some ⟨[], [], [], []⟩, .RUN_TEST_IDLE, [], []⟩,
              fromString "000010".toList⟩
          = some (err, ⟨err, some ⟨some port1, .SHIFT_DR, [], []⟩,
              fromString "000010".toList⟩) ∧
        port1.written = (⟨[], [], [], []⟩ : Port).written
          ++ [PrependJtagCmdHdr 0x4f 5 PUT_TMS_MASK
                (packedBytes [true, true, true, true, true]),
              PrependJtagCmdHdr 0x4f 5 PUT_TMS_MASK
                (packedBytes [false, true, true, false, false])]
          ++ exitTdiFrames 0x4f (fromString "000010".toList)
          ++ [PrependJtagCmdHdr 0x4f 4 PUT_TMS_MASK
                (packedBytes [true, true, false, false])] ∧
        port1.readRequests = (⟨[], [], [], []⟩ : Port).readRequests ∧
        port1.readResults = (⟨[], [], [], []⟩ : Port).readResults) ∧
      (HostIo.Reset 0x4f exampleMemory.toHostIo).map
          (fun r => r.2.mpJtagPort.map fun j => (j.mpPhysPort.map Port.written, j.mTapState))
        = some (some (some [[0x4f, 5, 0, 0, 0, 2, 31], [0x4f, 5, 0, 0, 0, 2, 6],
            [0x4f, 5, 0, 0, 0, 8, 2], [0x4f, 1, 0, 0, 0, 10, 1, 0], [0x4f, 4, 0, 0, 0, 2, 3]],
            .SHIFT_DR))) :=
  ⟨by decide,
    c21_host_io_reset_ends_in_shift_dr 0x4f ⟨[], [], [], []⟩ .RUN_TEST_IDLE XsError.noError
      (fromString "000010".toList) (by decide)⟩

end Xstools

namespace Xstools
open BitBuffer JtagPort

namespace HostIo

theorem cmd_eq (jc : Nat) (h : HostIo) (port : Port) (s : TapStateType) (id payload : BitBuffer)
    (n : Nat) (out : BitBuffer) (hj : h.mpJtagPort = some ⟨some port, s, [], []⟩)
    (hs : s = .SHIFT_DR ∨ s = .SHIFT_IR) (hsup : SuppliesBytes port n) :
    ∃ (err : XsError) (port1 : Port), err.NonFatal ∧
      h.HostIoCmd jc id payload n out
        = some (err, ⟨err, some ⟨some port1, s, [], []⟩, h.mUserInstr⟩,
            out ++ tdoBitsOf port.nextBytes n) ∧
      port1.written = port.written ++
        cmdFrame jc (cmdStream id payload n) :: (if n = 0 then [] else [tdoFrame jc n]) ∧
      port1.readResults = (if n = 0 then port.readResults else port.readResults.tail) := by
  obtain ⟨err, port1, hn, hcmd, hw, hr⟩ := HostIoCmd_eq jc port s id payload n out hs hsup
  refine ⟨err, port1, hn, ?_, hw, hr⟩
  rw [HostIo.HostIoCmd, hj]
  simp only [hcmd, Option.map_some']

theorem cmd_some (jc : Nat) (h : HostIo) (port : Port) (s : TapStateType)
    (id payload : BitBuffer) (n : Nat) (out : BitBuffer) (r : XsError × HostIo × BitBuffer)
    (hj : h.mpJtagPort = some ⟨some port, s, [], []⟩)
    (hr : h.HostIoCmd jc id payload n out = some r) :
    (s = .SHIFT_DR ∨ s = .SHIFT_IR) ∧ r.1.NonFatal ∧ r.2.2.length = out.length + n ∧
      ∃ port1 : Port, r.2.1 = ⟨r.1, some ⟨some port1, s, [], []⟩, h.mUserInstr⟩ ∧
        port1.written = port.written ++
          cmdFrame jc (cmdStream id payload n) :: (if n = 0 then [] else [tdoFrame jc n]) := by
  rw [HostIo.HostIoCmd, hj] at hr
  obtain ⟨r0, hr0, hr⟩ := Option.map_eq_some'.mp hr
  obtain ⟨hs, hnf, hlen, port1, hp1, hw⟩ := HostIoCmd_some jc port s id payload n out r0 hr0
  rw [← hr]
  exact ⟨hs, hnf, hlen, port1, by simp only [hp1], hw⟩

theorem cmd_length (jc : Nat) (h : HostIo) (id payload : BitBuffer) (n : Nat) (out : BitBuffer)
    (r : XsError × HostIo × BitBuffer) (hr : h.HostIoCmd jc id payload n out = some r) :
    r.2.2.length = out.length + n ∧ r.1.NonFatal := by
  unfold HostIo.HostIoCmd at hr
  split at hr
  · simp at hr
  · rename_i jtag hj
    obtain ⟨r0, hr0, hr⟩ := Option.map_eq_some'.mp hr
    rw [← hr]
    simp only []
    unfold Xstools.HostIoCmd at hr0
    obtain ⟨tdi, _, hr0⟩ := Option.bind_eq_some.mp hr0
    obtain ⟨sent, _, hr0⟩ := Option.bind_eq_some.mp hr0
    obtain ⟨e1, he1, hr0⟩ := Option.bind_eq_some.mp hr0
    split at hr0
    · obtain ⟨got, hgot, hr0⟩ := Option.bind_eq_some.mp hr0
      obtain ⟨e2, he2, hr0⟩ := Option.map_eq_some'.mp hr0
      rw [ShiftTdo, if_neg (by simp)] at hgot
      rw [← hr0]
      exact ⟨(ShiftTdoStay_length jc _ n out got hgot).1, XsError.orAssign_some_nonFatal _ _ _ he2⟩
    · rename_i hz
      simp only [Option.some.injEq] at hr0
      rw [← hr0]
      have : n = 0 := by simpa using hz
      exact ⟨by simp only []; omega, XsError.orAssign_some_nonFatal _ _ _ he1⟩

end HostIo
end Xstools

namespace Xstools
open BitBuffer JtagPort

/-- C22: for every HostIo session whose JTAG port is in Shift-DR with empty transmit
buffers, and every id, non-empty payload and number of result bits, whenever
`HostIoCmd` returns, the software TAP state is still Shift-DR, both transmit buffers
are empty, the error is below Fatal and the port has been handed one frame with the
flags `PUT_TDI` alone, followed, when result bits are asked for, by one frame with the
flags `GET_TDO` alone, so no frame carries a TMS bit; and it does return when the
port supplies the bytes requested. -/
theorem c22_host_io_cmd_stays_in_shift_dr (jc : Nat) (h : HostIo) (port : Port)
    (id payload : BitBuffer) (n : Nat) (out : BitBuffer)
    (hj : h.mpJtagPort = some ⟨some port, .SHIFT_DR, [], []⟩) (_hp : payload ≠ []) :
    (SuppliesBytes port n → ∃ r, h.HostIoCmd jc id payload n out = some r) ∧
      (∀ r, h.HostIoCmd jc id payload n out = some r →
        r.1.NonFatal ∧
        ∃ port1 : Port,
          r.2.1.mpJtagPort = some ⟨some port1, .SHIFT_DR, [], []⟩ ∧
          port1.written = port.written ++
            cmdFrame jc (cmdStream id payload n) ::
              (if n = 0 then [] else [tdoFrame jc n])) ∧
      (cmdFrame jc (cmdStream id payload n)).getD 5 0 = PUT_TDI_MASK ∧
      (tdoFrame jc n).getD 5 0 = GET_TDO_MASK ∧
      PUT_TDI_MASK &&& PUT_TMS_MASK = 0 ∧ GET_TDO_MASK &&& PUT_TMS_MASK = 0 := by
  refine ⟨?_, ?_, rfl, rfl, by decide, by decide⟩
  · intro hsup
    obtain ⟨err, port1, _, hcmd, _⟩ :=
      HostIo.cmd_eq jc h port .SHIFT_DR id payload n out hj (Or.inl rfl) hsup
    exact ⟨_, hcmd⟩
  · intro r hr
    obtain ⟨_, hnf, _, port1, hp1, hw⟩ :=
      HostIo.cmd_some jc h port .SHIFT_DR id payload n out r hj hr
    exact ⟨hnf, port1, by rw [hp1], hw⟩

/-- C22 in the spec scenario: a read command with payload `BitBuffer(0x05, 8) + "11"`
for module 2 that asks for 48 result bits. -/
theorem c22_host_io_cmd_stays_in_shift_dr_witness :
    (HostIo.mk XsError.noError
        (some ⟨some ⟨[], [], [], [(PortStatus.ok, [1, 2, 3, 4, 5, 6])]⟩, .SHIFT_DR, [], []⟩)
        []).mpJtagPort
      = some ⟨some ⟨[], [], [], [(PortStatus.ok, [1, 2, 3, 4, 5, 6])]⟩, .SHIFT_DR, [], []⟩ ∧
    [true, true, true, false, true, false, false, false, false, false] ≠ ([] : BitBuffer) ∧
    ((SuppliesBytes ⟨[], [], [], [(PortStatus.ok, [1, 2, 3, 4, 5, 6])]⟩ 48 →
        ∃ r, (HostIo.mk XsError.noError
          (some ⟨some ⟨[], [], [], [(PortStatus.ok, [1, 2, 3, 4, 5, 6])]⟩, .SHIFT_DR, [], []⟩)
          []).HostIoCmd 0x4f [false, true, false, false, false, false, false, false]
            [true, true, true, false, true, false, false, false, false, false] 48 []
          = some r) ∧
      (∀ r, (HostIo.mk XsError.noError
          (some ⟨some ⟨[], [], [], [(PortStatus.ok, [1, 2, 3, 4, 5, 6])]⟩, .SHIFT_DR, [], []⟩)
          []).HostIoCmd 0x4f [false, true, false, false, false, false, false, false]
            [true, true, true, false, true, false, false, false, false, false] 48 []
          = some r →
        r.1.NonFatal ∧
        ∃ port1 : Port,
          r.2.1.mpJtagPort = some ⟨some port1, .SHIFT_DR, [], []⟩ ∧
          port1.written = (Port.mk [] [] [] [(PortStatus.ok, [1, 2, 3, 4, 5, 6])]).written ++
            cmdFrame 0x4f (cmdStream [false, true, false, false, false, false, false, false]
              [true, true, true, false, true, false, false, false, false, false] 48) ::
              (if 48 = 0 then [] else [tdoFrame 0x4f 48])) ∧
      (cmdFrame 0x4f (cmdStream [false, true, false, false, false, false, false, false]
        [true, true, true, false, true, false, false, false, false, false] 48)).getD 5 0
          = PUT_TDI_MASK ∧
      (tdoFrame 0x4f 48).getD 5 0 = GET_TDO_MASK ∧
      PUT_TDI_MASK &&& PUT_TMS_MASK = 0 ∧ GET_TDO_MASK &&& PUT_TMS_MASK = 0) :=
  ⟨rfl, by decide,
    c22_host_io_cmd_stays_in_shift_dr 0x4f
      (HostIo.mk XsError.noError
        (some ⟨some ⟨[], [], [], [(PortStatus.ok, [1, 2, 3, 4, 5, 6])]⟩, .SHIFT_DR, [], []⟩) [])
      ⟨[], [], [], [(PortStatus.ok, [1, 2, 3, 4, 5, 6])]⟩
      [false, true, false, false, false, false, false, false]
      [true, true, true, false, true, false, false, false, false, false] 48 [] rfl
      (by decide)⟩

end Xstools

namespace Xstools
open BitBuffer JtagPort

theorem cmdFrame_unpack (jc : Nat) (tdi : BitBuffer) :
    unpackBits ((cmdFrame jc tdi).drop 6) tdi.length = tdi := by
  rw [show (cmdFrame jc tdi).drop 6 = packedBytes tdi from rfl, unpackBits_packedBytes]

/-- C23: for every id, payload and number of result bits, the length field that
`HostIoCmd` builds has 32 bits, bit `j` of it is bit `j` of
`payload.size + n_result_bits`, so that it reads as that sum modulo `2 ^ 32` with the
lowest position as LSB; it stands between the id and the payload in the stream handed
to `ShiftTdi`, and the frame written to the port holds that stream, packed LSB-first,
behind its six header bytes. -/
theorem c23_length_field_encodes_payload_plus_result_bits (jc : Nat) (id payload : BitBuffer)
    (n : Nat) :
    ∃ len : BitBuffer,
      fromVal (payload.length + n) NUM_PAYLOAD_BITS_FIELD_LENGTH = some len ∧
      len.length = 32 ∧
      (∀ j, j < 32 → len.getD j false = (payload.length + n).testBit j) ∧
      toBitsType len = some ((payload.length + n) % 2 ^ 32) ∧
      HostIoCmdTdiBits id payload n = some (id ++ len ++ payload) ∧
      GetBits (id ++ len ++ payload) id.length (id.length + 32) = some len ∧
      unpackBits ((cmdFrame jc (id ++ len ++ payload)).drop 6) (id ++ len ++ payload).length
        = id ++ len ++ payload := by
  have hlen : ((List.range 32).map (payload.length + n).testBit).length = 32 :=
    length_bits _ _
  refine ⟨(List.range 32).map (payload.length + n).testBit,
    fromVal_eq (payload.length + n) 32 (by decide), hlen, ?_, ?_, ?_, ?_, cmdFrame_unpack _ _⟩
  · intro j hj
    rw [List.getD_eq_getElem _ _ (by rw [hlen]; exact hj)]
    simp
  · rw [toBitsType_eq _ (by rw [hlen]; decide) (by rw [hlen]; decide), bitsVal_testBit]
  · rw [HostIoCmdTdiBits_eq, cmdStream]
  · rw [GetBits_eq _ _ _ (by omega) (by simp only [List.length_append, hlen]; omega),
      List.append_assoc, List.drop_left, Nat.add_sub_cancel_left,
      List.take_left' hlen]

end Xstools

namespace Xstools
open BitBuffer JtagPort

namespace HostIoToMemory

theorem ReadLoop_eq (w : Nat) (hw1 : 1 ≤ w) (hw64 : w ≤ 64) :
    ∀ (k fuel : Nat) (mem : BitBuffer) (vals : List Nat), mem.length = w * k → k ≤ fuel →
      ReadLoop w fuel mem vals
        = some ([], vals ++ (List.range k).map fun i => bitsVal ((mem.drop (w * i)).take w)) := by
  intro k
  induction k with
  | zero =>
      intro fuel mem vals hlen _
      have hm : mem = [] := List.length_eq_zero.mp (by simpa using hlen)
      subst hm
      cases fuel <;> simp [ReadLoop]
  | succ k ih =>
      intro fuel mem vals hlen hfuel
      obtain ⟨f, rfl⟩ : ∃ f, fuel = f + 1 := ⟨fuel - 1, by omega⟩
      have hwlen : w ≤ mem.length := by rw [hlen]; exact Nat.le_mul_of_pos_right w (by omega)
      have hne : mem ≠ [] := by
        intro h
        rw [h] at hwlen
        simp at hwlen
        omega
      rw [ReadLoop, if_neg hne, front_eq mem w hw1 hw64 hwlen, Option.some_bind, pop_front,
        if_pos hwlen, Option.some_bind,
        ih f (mem.drop w) (vals ++ [bitsVal (mem.take w)])
          (by rw [List.length_drop, hlen, Nat.mul_succ]; omega) (by omega)]
      rw [List.range_succ_eq_map, List.map_cons, List.map_map, List.append_assoc]
      simp only [Nat.mul_zero, List.drop_zero, List.singleton_append, Function.comp_def,
        List.drop_drop, Nat.mul_succ]
      have : ∀ i, w + w * i = w * i + w := fun i => by omega
      simp only [this]

theorem length_wordsAfterSkip (w n : Nat) (reply : BitBuffer) :
    (wordsAfterSkip w n reply).length = n := by
  simp [wordsAfterSkip]

theorem getD_wordsAfterSkip (w n : Nat) (reply : BitBuffer) (i : Nat) (hi : i < n) :
    (wordsAfterSkip w n reply).getD i 0 = bitsVal ((reply.drop (w * (i + 1))).take w) := by
  rw [List.getD_eq_getElem _ _ (by rw [length_wordsAfterSkip]; exact hi)]
  simp [wordsAfterSkip]

theorem Read_of_reply (jc : Nat) (m : HostIoToMemory) (address n : Nat) (payload : BitBuffer)
    (r : XsError × HostIo × BitBuffer) (hid : m.mId ≠ []) (hw1 : 1 ≤ m.mDataWidth)
    (hw64 : m.mDataWidth ≤ 64) (hn : 1 ≤ n)
    (hpay : ReadPayload address m.mAddressWidth = some payload)
    (hcmd : m.toHostIo.HostIoCmd jc m.mId payload (ReadNumResultBits m.mDataWidth n) []
      = some r)
    (hreply : r.2.2.length = m.mDataWidth * (n + 1)) :
    ReadNumResultBits m.mDataWidth n = m.mDataWidth * (n + 1) ∧
      Read jc m address n []
        = some (r.1, { m with toHostIo := r.2.1 }, wordsAfterSkip m.mDataWidth n r.2.2) := by
  have hlenr := (HostIo.cmd_length jc _ _ _ _ _ r hcmd).1
  refine ⟨by rw [← hreply, hlenr]; simp, ?_⟩
  have hwlen : m.mDataWidth ≤ r.2.2.length := by
    rw [hreply]; exact Nat.le_mul_of_pos_right _ (by omega)
  have hdrop : (r.2.2.drop m.mDataWidth).length = m.mDataWidth * n := by
    rw [List.length_drop, hreply, Nat.mul_succ]; omega
  rw [Read, if_pos (show 0 < n from hn), if_neg hid, hpay, Option.some_bind, hcmd, Option.some_bind, pop_front,
    if_pos hwlen, Option.some_bind,
    ReadLoop_eq m.mDataWidth hw1 hw64 n _ _ [] hdrop
      (by rw [hdrop]; exact Nat.le_mul_of_pos_left n (by omega)),
    Option.some_bind]
  simp only [List.nil_append, List.length_map, List.length_range, if_true, wordsAfterSkip,
    List.drop_drop, Nat.mul_succ]
  have : ∀ i, m.mDataWidth + m.mDataWidth * i = m.mDataWidth * i + m.mDataWidth :=
    fun i => by omega
  simp only [this]

end HostIoToMemory
end Xstools

namespace Xstools
open BitBuffer JtagPort

namespace HostIoToMemory

theorem ReadNumResultBits_eq (w n : Nat) (hw1 : 1 ≤ w) (h : w * (n + 1) < 2 ^ 32) :
    ReadNumResultBits w n = w * (n + 1) := by
  have h1 : n + 1 ≤ w * (n + 1) := Nat.le_mul_of_pos_left _ (by omega)
  unfold ReadNumResultBits
  rw [Nat.mod_eq_of_lt (show n + 1 < 2 ^ 64 by omega),
    Nat.mod_eq_of_lt (show w * (n + 1) < 2 ^ 64 by omega), Nat.mod_eq_of_lt h]

end HostIoToMemory

theorem memory_read_returns_words_after_skip (jc : Nat) (m : HostIoToMemory)
    (address n : Nat) (hid : m.mId ≠ []) (hw1 : 1 ≤ m.mDataWidth) (hw64 : m.mDataWidth ≤ 64)
    (hn : 1 ≤ n) :
    (∀ (payload : BitBuffer) (r : XsError × HostIo × BitBuffer),
      HostIoToMemory.ReadPayload address m.mAddressWidth = some payload →
      m.toHostIo.HostIoCmd jc m.mId payload
          (HostIoToMemory.ReadNumResultBits m.mDataWidth n) [] = some r →
      r.2.2.length = m.mDataWidth * (n + 1) →
        HostIoToMemory.ReadNumResultBits m.mDataWidth n = m.mDataWidth * (n + 1) ∧
        HostIoToMemory.Read jc m address n []
          = some (r.1, { m with toHostIo := r.2.1 }, wordsAfterSkip m.mDataWidth n r.2.2) ∧
        (wordsAfterSkip m.mDataWidth n r.2.2).length = n ∧
        ∀ i, i < n → (wordsAfterSkip m.mDataWidth n r.2.2).getD i 0
          = bitsVal ((r.2.2.drop (m.mDataWidth * (i + 1))).take m.mDataWidth)) ∧
      (∀ port : Port, m.mpJtagPort = some ⟨some port, .SHIFT_DR, [], []⟩ →
        m.mAddressWidth ≤ 63 → m.mDataWidth * (n + 1) < 2 ^ 32 →
        SuppliesBytes port (m.mDataWidth * (n + 1)) →
        HostIoToMemory.ReadNumResultBits m.mDataWidth n = m.mDataWidth * (n + 1) ∧
        ∃ (err : XsError) (m1 : HostIoToMemory),
          HostIoToMemory.Read jc m address n []
            = some (err, m1, wordsAfterSkip m.mDataWidth n
                (tdoBitsOf port.nextBytes (m.mDataWidth * (n + 1))))) := by
  constructor
  · intro payload r hpay hcmd hreply
    obtain ⟨h1, h2⟩ :=
      HostIoToMemory.Read_of_reply jc m address n payload r hid hw1 hw64 hn hpay hcmd hreply
    exact ⟨h1, h2, HostIoToMemory.length_wordsAfterSkip _ _ _,
      fun i hi => HostIoToMemory.getD_wordsAfterSkip _ _ _ i hi⟩
  · intro port hj haw hlt hsup
    have hnum := HostIoToMemory.ReadNumResultBits_eq m.mDataWidth n hw1 hlt
    have hpay : HostIoToMemory.ReadPayload address m.mAddressWidth
        = some (add ((List.range m.mAddressWidth).map address.testBit)
            HostIoToMemory.READ_OPCODE) := by
      rw [HostIoToMemory.ReadPayload, fromVal_eq address _ (by omega), Option.map_some']
    obtain ⟨err, port1, _, hcmd, _⟩ := HostIo.cmd_eq jc m.toHostIo port .SHIFT_DR m.mId
      (add ((List.range m.mAddressWidth).map address.testBit) HostIoToMemory.READ_OPCODE)
      (m.mDataWidth * (n + 1)) [] hj (Or.inl rfl) hsup
    rw [← hnum] at hcmd
    obtain ⟨_, h2⟩ := HostIoToMemory.Read_of_reply jc m address n _ _ hid hw1 hw64 hn hpay hcmd
      (by simp only [List.nil_append, tdoBitsOf_length, hnum])
    rw [hnum] at h2
    exact ⟨hnum, _, _, h2⟩

set_option maxRecDepth 16384 in
/-- C24 fails in the code for the `n ≥ 1` whose product `data_w * (n + 1)` does not fit
the `unsigned int` parameter `numResultBits` of `HostIoCmd`: for the client
`exampleMemory` (16 data bits) and `n = 2 ^ 28 - 1` the product is `2 ^ 32`, `Read`
asks for 0 result bits instead of `data_w * (n + 1)`, no reply is read and `Read`
stops at `pop_front(16)` on the empty reply; likewise for 64 data bits and
`n = 2 ^ 26 - 1`. For a client after `GetSize` with a data width in 1..64 and every
`n ≥ 1`, called with an empty output queue: whenever the command that `Read` sends
comes back with a reply of `data_w * (n + 1)` bits, the number of result bits asked
for was exactly `data_w * (n + 1)` and `Read` returns exactly `n` values, value `i`
being the number held by the reply bits `data_w * (i + 1)` to `data_w * (i + 2) - 1`
with the lowest position as LSB, the first `data_w` bits being dropped; and with a
JTAG port in Shift-DR, an address width of at most 63, `data_w * (n + 1) < 2 ^ 32` and
a port that supplies the bytes requested, `Read` asks for `data_w * (n + 1)` bits and
does return, the reply being the bits unpacked from the bytes delivered. -/
theorem c24_result_bit_count_wraps_at_two_pow_32 :
    exampleMemory.mDataWidth * (268435455 + 1) = 2 ^ 32 ∧
      HostIoToMemory.ReadNumResultBits exampleMemory.mDataWidth 268435455 = 0 ∧
      HostIoToMemory.Read 0x4f exampleMemory 0x10 268435455 [] = none ∧
      HostIoToMemory.ReadNumResultBits 64 67108863 = 0 ∧
      (∀ (jc : Nat) (m : HostIoToMemory) (address n : Nat), m.mId ≠ [] →
        1 ≤ m.mDataWidth → m.mDataWidth ≤ 64 → 1 ≤ n →
        (∀ (payload : BitBuffer) (r : XsError × HostIo × BitBuffer),
          HostIoToMemory.ReadPayload address m.mAddressWidth = some payload →
          m.toHostIo.HostIoCmd jc m.mId payload
              (HostIoToMemory.ReadNumResultBits m.mDataWidth n) [] = some r →
          r.2.2.length = m.mDataWidth * (n + 1) →
            HostIoToMemory.ReadNumResultBits m.mDataWidth n = m.mDataWidth * (n + 1) ∧
            HostIoToMemory.Read jc m address n []
              = some (r.1, { m with toHostIo := r.2.1 },
                  wordsAfterSkip m.mDataWidth n r.2.2) ∧
            (wordsAfterSkip m.mDataWidth n r.2.2).length = n ∧
            ∀ i, i < n → (wordsAfterSkip m.mDataWidth n r.2.2).getD i 0
              = bitsVal ((r.2.2.drop (m.mDataWidth * (i + 1))).take m.mDataWidth)) ∧
        (∀ port : Port, m.mpJtagPort = some ⟨some port, .SHIFT_DR, [], []⟩ →
          m.mAddressWidth ≤ 63 → m.mDataWidth * (n + 1) < 2 ^ 32 →
          SuppliesBytes port (m.mDataWidth * (n + 1)) →
          HostIoToMemory.ReadNumResultBits m.mDataWidth n = m.mDataWidth * (n + 1) ∧
          ∃ (err : XsError) (m1 : HostIoToMemory),
            HostIoToMemory.Read jc m address n []
              = some (err, m1, wordsAfterSkip m.mDataWidth n
                  (tdoBitsOf port.nextBytes (m.mDataWidth * (n + 1)))))) :=
  ⟨by decide, by decide, by decide, by decide,
    fun jc m address n hid hw1 hw64 hn =>
      memory_read_returns_words_after_skip jc m address n hid hw1 hw64 hn⟩

end Xstools

namespace Xstools
open BitBuffer JtagPort

/-- C25, as stated, fails for the read payload of address `0x10` in 8 bits and for
the DUT write payload of the vector `"0011"`: the two highest positions of the
payload hold address bits, respectively vector bits, not the opcode; the opcode is in
the two lowest positions. -/
theorem c25_opcode_bits_are_not_at_the_msb_end :
    HostIoToMemory.READ_OPCODE = [true, true] ∧
      HostIoToMemory.ReadPayload 0x10 8
        = some [true, true, false, false, false, false, true, false, false, false] ∧
      (HostIoToMemory.ReadPayload 0x10 8).bind (fun p => GetBits p (p.length - 2) p.length)
        = some [false, false] ∧
      (HostIoToMemory.ReadPayload 0x10 8).bind (fun p => GetBits p 0 2)
        = some HostIoToMemory.READ_OPCODE ∧
      HostIoToDut.WRITE_OPCODE = [false, true] ∧
      HostIoToDut.WritePayload (fromString "0011".toList)
        = [false, true, true, true, false, false] ∧
      GetBits (HostIoToDut.WritePayload (fromString "0011".toList)) 4 6
        = some [false, false] ∧
      GetBits (HostIoToDut.WritePayload (fromString "0011".toList)) 0 2
        = some HostIoToDut.WRITE_OPCODE := by
  decide

/-- C25, amended: in every payload the HostIo clients build, for an address width of
at most 63, the two opcode bits occupy the LSB (front) end of the payload, its two
lowest positions: the read payload of the memory client is the opcode READ followed by
the address bits, its write payload is the opcode WRITE followed by the address bits
and then the value bits, and the write payload of the DUT client is the opcode WRITE
followed by the vector; in the stream of the command the opcode comes right after the
id and the length field, so the device receives the opcode bits before the rest of
the payload. For an address width of 64 the memory client builds no payload:
`BitBuffer(address, 64)` has no result. -/
theorem c25_opcode_bits_are_at_the_front (address addressWidth : Nat)
    (values vector id : BitBuffer) (n : Nat) (haw : addressWidth ≤ 63) :
    HostIoToMemory.ReadPayload address addressWidth
        = some (HostIoToMemory.READ_OPCODE ++ (List.range addressWidth).map address.testBit) ∧
      HostIoToMemory.WritePayload values address addressWidth
        = some (HostIoToMemory.WRITE_OPCODE ++ (List.range addressWidth).map address.testBit
            ++ values) ∧
      HostIoToDut.WritePayload vector = HostIoToDut.WRITE_OPCODE ++ vector ∧
      GetBits (HostIoToMemory.READ_OPCODE ++ (List.range addressWidth).map address.testBit) 0 2
        = some HostIoToMemory.READ_OPCODE ∧
      GetBits (HostIoToMemory.WRITE_OPCODE ++ (List.range addressWidth).map address.testBit
          ++ values) 0 2 = some HostIoToMemory.WRITE_OPCODE ∧
      GetBits (HostIoToDut.WRITE_OPCODE ++ vector) 0 2 = some HostIoToDut.WRITE_OPCODE ∧
      GetBits (cmdStream id (HostIoToDut.WRITE_OPCODE ++ vector) n) (id.length + 32)
          (id.length + 34) = some HostIoToDut.WRITE_OPCODE ∧
      HostIoToMemory.ReadPayload address 64 = none ∧
      HostIoToMemory.WritePayload values address 64 = none := by
  have hop : ∀ (op rest : BitBuffer), op.length = 2 → GetBits (op ++ rest) 0 2 = some op := by
    intro op rest h
    rw [GetBits_eq _ 0 2 (by decide) (by simp only [List.length_append, h]; omega)]
    simp only [List.drop_zero, Nat.sub_zero]
    rw [List.take_left' h]
  refine ⟨?_, ?_, ?_, hop _ _ rfl, ?_, hop _ _ rfl, ?_, ?_, ?_⟩
  · rw [HostIoToMemory.ReadPayload, fromVal_eq address _ (by omega), Option.map_some', add,
      addAssign, push_front_eq]
  · rw [HostIoToMemory.WritePayload, fromVal_eq address _ (by omega), Option.map_some', add,
      addAssign, push_front_eq, add, addAssign, push_front_eq, List.append_assoc]
  · rw [HostIoToDut.WritePayload, add, addAssign, push_front_eq]
  · rw [List.append_assoc]
    exact hop _ _ rfl
  · have h32 : (id ++ (List.range 32).map
        ((HostIoToDut.WRITE_OPCODE ++ vector).length + n).testBit).length = id.length + 32 := by
      simp
    rw [cmdStream, GetBits_eq _ _ _ (by omega)
      (by simp only [List.length_append, List.length_map, List.length_range,
        show HostIoToDut.WRITE_OPCODE.length = 2 from rfl]; omega),
      ← h32, List.drop_left, h32, show id.length + 34 - (id.length + 32) = 2 by omega,
      List.take_left' (show HostIoToDut.WRITE_OPCODE.length = 2 from rfl)]
  · rw [HostIoToMemory.ReadPayload, fromVal_full_width]; rfl
  · rw [HostIoToMemory.WritePayload, fromVal_full_width]; rfl

/-- C25, amended, for address `0x10` in 8 bits, one 16-bit value, the vector `"0011"`
and module id 2. -/
theorem c25_opcode_bits_are_at_the_front_witness :
    (8 : Nat) ≤ 63 ∧
    (HostIoToMemory.ReadPayload 0x10 8
        = some (HostIoToMemory.READ_OPCODE ++ (List.range 8).map (Nat.testBit 0x10)) ∧
      HostIoToMemory.WritePayload ((List.range 16).map (Nat.testBit 0xCAFE)) 0x10 8
        = some (HostIoToMemory.WRITE_OPCODE ++ (List.range 8).map (Nat.testBit 0x10)
            ++ (List.range 16).map (Nat.testBit 0xCAFE)) ∧
      HostIoToDut.WritePayload (fromString "0011".toList)
        = HostIoToDut.WRITE_OPCODE ++ fromString "0011".toList ∧
      GetBits (HostIoToMemory.READ_OPCODE ++ (List.range 8).map (Nat.testBit 0x10)) 0 2
        = some HostIoToMemory.READ_OPCODE ∧
      GetBits (HostIoToMemory.WRITE_OPCODE ++ (List.range 8).map (Nat.testBit 0x10)
          ++ (List.range 16).map (Nat.testBit 0xCAFE)) 0 2 = some HostIoToMemory.WRITE_OPCODE ∧
      GetBits (HostIoToDut.WRITE_OPCODE ++ fromString "0011".toList) 0 2
        = some HostIoToDut.WRITE_OPCODE ∧
      GetBits (cmdStream exampleMemory.mId
          (HostIoToDut.WRITE_OPCODE ++ fromString "0011".toList) 0)
          (exampleMemory.mId.length + 32) (exampleMemory.mId.length + 34)
        = some HostIoToDut.WRITE_OPCODE ∧
      HostIoToMemory.ReadPayload 0x10 64 = none ∧
      HostIoToMemory.WritePayload ((List.range 16).map (Nat.testBit 0xCAFE)) 0x10 64 = none) :=
  ⟨by decide,
    c25_opcode_bits_are_at_the_front 0x10 8 ((List.range 16).map (Nat.testBit 0xCAFE))
      (fromString "0011".toList) exampleMemory.mId 0 (by decide)⟩

end Xstools

namespace Xstools
open BitBuffer JtagPort

namespace HostIoToMemory

theorem WriteLoop_eq (w : Nat) (hw : w < 64) : ∀ (vals : List Nat) (acc : BitBuffer),
    (w = 1 → ∀ v ∈ vals, v < 2) →
    WriteLoop w vals acc
      = some (acc ++ (vals.map fun v => (List.range w).map v.testBit).flatten) := by
  intro vals
  induction vals with
  | nil => intro acc _; simp [WriteLoop]
  | cons v rest ih =>
      intro acc hv
      rw [WriteLoop, push_back_val_eq acc v w hw (fun h => hv h v (List.mem_cons_self _ _)),
        Option.some_bind, ih _ (fun h x hx => hv h x (List.mem_cons_of_mem _ hx))]
      simp [List.append_assoc]

end HostIoToMemory

/-- C26 fails for `data_w = 1` and the single value 2: the value bit stream that
`HostIoToMemory::Write` builds is the one bit 1, while bit 0 of the value is 0; the
payload sent carries that 1 behind the opcode and the address. For `data_w = 2` the
same value gives the bits 0, 1, its own two low bits. -/
theorem c26_one_bit_values_take_any_set_bit :
    HostIoToMemory.WriteLoop 1 [2] [] = some [true] ∧
      Nat.testBit 2 0 = false ∧
      (HostIoToMemory.WriteLoop 1 [2] []).bind
          (fun values => HostIoToMemory.WritePayload values 0x10 8)
        = some [false, true, false, false, false, false, true, false, false, false, true] ∧
      HostIoToMemory.WriteLoop 2 [2] [] = some [false, true] := by
  decide

end Xstools

namespace Xstools
open BitBuffer JtagPort

theorem bitsVal_take_eight_mod (b : BitBuffer) :
    bitsVal (b.take 8) % 2 ^ 32 = bitsVal (b.take 8) := by
  have h := bitsVal_lt (b.take 8)
  have h8 : (b.take 8).length ≤ 8 := by simp
  have : 2 ^ (b.take 8).length ≤ 2 ^ 8 := Nat.pow_le_pow_right (by decide) h8
  exact Nat.mod_eq_of_lt (by omega)

theorem size_reply_parse (r : BitBuffer) (h : r.length = 17) :
    pop_front r 1 = some (r.drop 1) ∧
      front (r.drop 1) 8 = some (bitsVal ((r.drop 1).take 8)) ∧
      pop_front (r.drop 1) 8 = some (r.drop 9) ∧
      front (r.drop 9) 8 = some (bitsVal ((r.drop 9).take 8)) := by
  refine ⟨?_, ?_, ?_, ?_⟩
  · rw [pop_front, if_pos (by omega)]
  · rw [front_eq _ 8 (by decide) (by decide) (by rw [List.length_drop]; omega)]
  · rw [pop_front, if_pos (by rw [List.length_drop]; omega), List.drop_drop]
  · rw [front_eq _ 8 (by decide) (by decide) (by rw [List.length_drop]; omega)]

/-- C27: given the reply `r` of the SIZE command, which has 17 bits, both
`HostIoToMemory::GetSize` and `HostIoToDut::GetSize` drop `r[0]`, return as first
width the number held by `r[1..8]` and as second width the number held by `r[9..16]`,
the lowest position being the LSB, and store both widths and the 8 bits of the module
id in the object; the command they send has the payload SIZE, which is `"01"`, and
asks for `16 + 1` result bits. -/
theorem c27_get_size_reads_two_widths (jc : Nat) (m : HostIoToMemory) (d : HostIoToDut)
    (id : Nat) (rm rd : XsError × HostIo × BitBuffer)
    (hm : m.toHostIo.HostIoCmd jc ((List.range 8).map id.testBit)
      (fromString "01".toList) (16 + 1) [] = some rm)
    (hd : d.toHostIo.HostIoCmd jc ((List.range 8).map id.testBit)
      (fromString "01".toList) (16 + 1) [] = some rd) :
    HostIoToMemory.SIZE_OPCODE = fromString "01".toList ∧
      HostIoToDut.SIZE_OPCODE = fromString "01".toList ∧
      HostIoToMemory.SIZE_RESULT_LENGTH + HostIoToMemory.SKIP_CYCLES = 16 + 1 ∧
      HostIoToDut.SIZE_RESULT_LENGTH + HostIoToDut.SKIP_CYCLES = 16 + 1 ∧
      rm.2.2.length = 17 ∧ rd.2.2.length = 17 ∧
      (∃ error : XsError, XsError.orAssign XsError.noError rm.1 = some error ∧
        HostIoToMemory.GetSize jc m id
          = some (error,
              { toHostIo := { rm.2.1 with mLastError := error }
                mId := (List.range 8).map id.testBit
                mAddressWidth := bitsVal ((rm.2.2.drop 1).take 8)
                mDataWidth := bitsVal ((rm.2.2.drop 9).take 8) },
              bitsVal ((rm.2.2.drop 1).take 8), bitsVal ((rm.2.2.drop 9).take 8))) ∧
      HostIoToDut.GetSize jc d id
        = some (rd.1,
            { toHostIo := rd.2.1
              mId := (List.range 8).map id.testBit
              mInputWidth := bitsVal ((rd.2.2.drop 1).take 8)
              mOutputWidth := bitsVal ((rd.2.2.drop 9).take 8) },
            bitsVal ((rd.2.2.drop 1).take 8), bitsVal ((rd.2.2.drop 9).take 8)) := by
  obtain ⟨hlm, hnm⟩ := HostIo.cmd_length jc _ _ _ _ _ rm hm
  obtain ⟨hld, _⟩ := HostIo.cmd_length jc _ _ _ _ _ rd hd
  have hlm17 : rm.2.2.length = 17 := by simpa using hlm
  have hld17 : rd.2.2.length = 17 := by simpa using hld
  obtain ⟨pm1, pm2, pm3, pm4⟩ := size_reply_parse rm.2.2 hlm17
  obtain ⟨pd1, pd2, pd3, pd4⟩ := size_reply_parse rd.2.2 hld17
  obtain ⟨error, herror, _⟩ := XsError.orAssign_nonFatal XsError.noError rm.1
    XsError.nonFatal_noError hnm
  refine ⟨rfl, rfl, rfl, rfl, hlm17, hld17, ⟨error, herror, ?_⟩, ?_⟩
  · rw [HostIoToMemory.GetSize, show ID_FIELD_LENGTH = 8 from rfl, fromVal_eq id 8 (by decide),
      Option.some_bind]
    rw [show HostIoToMemory.SIZE_OPCODE = fromString "01".toList from rfl,
      show HostIoToMemory.SIZE_RESULT_LENGTH + HostIoToMemory.SKIP_CYCLES = 16 + 1 from rfl, hm]
    simp only [Option.some_bind, herror, show HostIoToMemory.SKIP_CYCLES = 1 from rfl,
      show HostIoToMemory.SIZE_RESULT_LENGTH / 2 = 8 from rfl, pm1, pm2, pm3, pm4,
      Option.map_some', bitsVal_take_eight_mod]
  · rw [HostIoToDut.GetSize, show ID_FIELD_LENGTH = 8 from rfl, fromVal_eq id 8 (by decide),
      Option.some_bind]
    rw [show HostIoToDut.SIZE_OPCODE = fromString "01".toList from rfl,
      show HostIoToDut.SIZE_RESULT_LENGTH + HostIoToDut.SKIP_CYCLES = 16 + 1 from rfl, hd]
    simp only [Option.some_bind, show HostIoToDut.SKIP_CYCLES = 1 from rfl,
      show HostIoToDut.SIZE_RESULT_LENGTH / 2 = 8 from rfl, pd1, pd2, pd3, pd4,
      Option.map_some', bitsVal_take_eight_mod]

/-- C27 for module 2 on `exampleSizePort`, whose reply holds the widths 8 and 16. -/
theorem c27_get_size_reads_two_widths_witness :
    exampleFreshMemory.toHostIo.HostIoCmd 0x4f ((List.range 8).map (Nat.testBit 2))
        (fromString "01".toList) (16 + 1) [] = some exampleSizeResult ∧
    exampleFreshDut.toHostIo.HostIoCmd 0x4f ((List.range 8).map (Nat.testBit 2))
        (fromString "01".toList) (16 + 1) [] = some exampleSizeResult ∧
    (HostIoToMemory.SIZE_OPCODE = fromString "01".toList ∧
      HostIoToDut.SIZE_OPCODE = fromString "01".toList ∧
      HostIoToMemory.SIZE_RESULT_LENGTH + HostIoToMemory.SKIP_CYCLES = 16 + 1 ∧
      HostIoToDut.SIZE_RESULT_LENGTH + HostIoToDut.SKIP_CYCLES = 16 + 1 ∧
      exampleSizeResult.2.2.length = 17 ∧ exampleSizeResult.2.2.length = 17 ∧
      (∃ error : XsError, XsError.orAssign XsError.noError exampleSizeResult.1 = some error ∧
        HostIoToMemory.GetSize 0x4f exampleFreshMemory 2
          = some (error,
              { toHostIo := { exampleSizeResult.2.1 with mLastError := error }
                mId := (List.range 8).map (Nat.testBit 2)
                mAddressWidth := bitsVal ((exampleSizeResult.2.2.drop 1).take 8)
                mDataWidth := bitsVal ((exampleSizeResult.2.2.drop 9).take 8) },
              bitsVal ((exampleSizeResult.2.2.drop 1).take 8),
              bitsVal ((exampleSizeResult.2.2.drop 9).take 8))) ∧
      HostIoToDut.GetSize 0x4f exampleFreshDut 2
        = some (exampleSizeResult.1,
            { toHostIo := exampleSizeResult.2.1
              mId := (List.range 8).map (Nat.testBit 2)
              mInputWidth := bitsVal ((exampleSizeResult.2.2.drop 1).take 8)
              mOutputWidth := bitsVal ((exampleSizeResult.2.2.drop 9).take 8) },
            bitsVal ((exampleSizeResult.2.2.drop 1).take 8),
            bitsVal ((exampleSizeResult.2.2.drop 9).take 8))) :=
  ⟨by decide, by decide,
    c27_get_size_reads_two_widths 0x4f exampleFreshMemory exampleFreshDut 2 exampleSizeResult
      exampleSizeResult (by decide) (by decide)⟩

end Xstools

namespace Xstools
open BitBuffer JtagPort

end Xstools

namespace Xstools
open BitBuffer JtagPort

set_option maxRecDepth 16384 in
/-- C29 fails for a memory of 1-bit words: against the memory module, writing the
values 2, 0, 1, 4 at address `0x10` and reading 4 values back returns 1, 0, 1, 1,
while the values reduced to one bit are 0, 0, 1, 0; `Write` sends a 1 for every
value that is not zero. For `(addr_w, data_w) = (8, 16)`, writing `0x0001`, `0x0045`,
`0xCAFE` at `0x10` and reading 3 values from `0x10` returns these three values. -/
theorem c29_one_bit_round_trip_returns_any_set_bit :
    memoryRoundTrip 0x4f { exampleMemory with mDataWidth := 1 } 0x10 [2, 0, 1, 4]
        = some [1, 0, 1, 1] ∧
      [2, 0, 1, 4].map (fun v => v % 2 ^ 1) = [0, 0, 1, 0] ∧
      HostIoToMemory.WriteLoop 1 [2, 0, 1, 4] [] = some [true, false, true, true] ∧
      memoryRoundTrip 0x4f exampleMemory 0x10 [0x0001, 0x0045, 0xCAFE]
        = some [0x0001, 0x0045, 0xCAFE] := by
  decide

end Xstools

namespace Xstools
open BitBuffer JtagPort

/-- C30, as stated, fails for a repeated `Read` into the buffer the first one has
filled: on `exampleDut` (2 output bits) the first `Read`, into an empty buffer,
leaves 2 bits in it; the second `Read` appends 3 bits to these and drops one, so 4
bits are left and the assertion on the size fails. A second `Read` into an empty
buffer leaves 2 bits again. -/
theorem c30_repeated_read_into_the_same_buffer_aborts :
    (HostIoToDut.Read 0x4f exampleDut []).map (fun r => r.2.2) = some [false, true] ∧
      (HostIoToDut.Read 0x4f exampleDut []).bind
          (fun r => HostIoToDut.Read 0x4f r.2.1 r.2.2) = none ∧
      (HostIoToDut.Read 0x4f exampleDut []).bind
          (fun r => (HostIoToDut.Read 0x4f r.2.1 []).map (fun r2 => r2.2.2))
        = some [true, false] := by
  decide

/-- C30, amended: after `GetSize` has set the output width (an 8-bit number), with a
JTAG port in Shift-DR, a port that supplies the bytes requested and an empty result
buffer, `HostIoToDut::Read` sends the payload READ, which is `"11"`, asks for
`output_w + 1` result bits, drops the first (skip) bit and leaves exactly `output_w`
bits in the result buffer; the object it leaves has the same id and widths and its
JTAG port is in Shift-DR with empty buffers on the rest of the port script, so a
repeated `Read` into an empty buffer does the same; with a result buffer that is not
empty `Read` does not return. -/
theorem c30_dut_read_leaves_output_width_bits (jc : Nat) (d : HostIoToDut) (port : Port)
    (hid : d.mId ≠ []) (hj : d.mpJtagPort = some ⟨some port, .SHIFT_DR, [], []⟩)
    (how : d.mOutputWidth < 256) (hsup : SuppliesBytes port (d.mOutputWidth + 1)) :
    HostIoToDut.READ_OPCODE = fromString "11".toList ∧
      (∃ (err : XsError) (port1 : Port), err.NonFatal ∧
        HostIoToDut.Read jc d []
          = some (err,
              { d with
                mLastError := err
                mpJtagPort := some ⟨some port1, .SHIFT_DR, [], []⟩ },
              (tdoBitsOf port.nextBytes (d.mOutputWidth + 1)).drop 1) ∧
        ((tdoBitsOf port.nextBytes (d.mOutputWidth + 1)).drop 1).length = d.mOutputWidth ∧
        port1.written = port.written ++
          [cmdFrame jc (cmdStream d.mId HostIoToDut.READ_OPCODE (d.mOutputWidth + 1)),
            tdoFrame jc (d.mOutputWidth + 1)] ∧
        port1.readResults = port.readResults.tail) ∧
      ∀ rResult : BitBuffer, rResult ≠ [] → HostIoToDut.Read jc d rResult = none := by
  have hmod : (d.mOutputWidth + HostIoToDut.SKIP_CYCLES) % 2 ^ 32 = d.mOutputWidth + 1 :=
    Nat.mod_eq_of_lt (by simp only [HostIoToDut.SKIP_CYCLES]; omega)
  refine ⟨rfl, ?_, ?_⟩
  · obtain ⟨err, port1, hnf, hcmd, hw, hr⟩ := HostIo.cmd_eq jc d.toHostIo port .SHIFT_DR d.mId
      HostIoToDut.READ_OPCODE (d.mOutputWidth + 1) [] hj (Or.inl rfl) hsup
    refine ⟨err, port1, hnf, ?_, by simp [tdoBitsOf_length], ?_, ?_⟩
    · rw [HostIoToDut.Read, if_neg hid, hmod, hcmd, Option.some_bind, pop_front,
        if_pos (by simp [tdoBitsOf_length, HostIoToDut.SKIP_CYCLES]), Option.some_bind,
        if_pos (by simp [tdoBitsOf_length, HostIoToDut.SKIP_CYCLES])]
      rfl
    · rw [hw, if_neg (by omega)]
    · rw [hr, if_neg (by omega)]
  · intro rResult hne
    have hpos : 0 < rResult.length := List.length_pos.mpr hne
    obtain ⟨err, port1, _, hcmd, _, _⟩ := HostIo.cmd_eq jc d.toHostIo port .SHIFT_DR d.mId
      HostIoToDut.READ_OPCODE (d.mOutputWidth + 1) rResult hj (Or.inl rfl) hsup
    have hlen : (rResult ++ tdoBitsOf port.nextBytes (d.mOutputWidth + 1)).length
        = rResult.length + (d.mOutputWidth + 1) := by
      rw [List.length_append, tdoBitsOf_length]
    rw [HostIoToDut.Read, if_neg hid, hmod, hcmd, Option.some_bind, pop_front,
      if_pos (by rw [hlen]; show 1 ≤ _; omega), Option.some_bind,
      if_neg (by rw [List.length_drop, hlen]; show ¬ (_ - 1 = _); omega)]

/-- C30, amended, for the client `exampleDut`, which has 2 output bits. -/
theorem c30_dut_read_leaves_output_width_bits_witness :
    exampleDut.mId ≠ [] ∧
    exampleDut.mpJtagPort = some ⟨some exampleDutPort, .SHIFT_DR, [], []⟩ ∧
    exampleDut.mOutputWidth < 256 ∧
    SuppliesBytes exampleDutPort (exampleDut.mOutputWidth + 1) ∧
    (HostIoToDut.READ_OPCODE = fromString "11".toList ∧
      (∃ (err : XsError) (port1 : Port), err.NonFatal ∧
        HostIoToDut.Read 0x4f exampleDut []
          = some (err,
              { exampleDut with
                mLastError := err
                mpJtagPort := some ⟨some port1, .SHIFT_DR, [], []⟩ },
              (tdoBitsOf exampleDutPort.nextBytes (exampleDut.mOutputWidth + 1)).drop 1) ∧
        ((tdoBitsOf exampleDutPort.nextBytes (exampleDut.mOutputWidth + 1)).drop 1).length
          = exampleDut.mOutputWidth ∧
        port1.written = exampleDutPort.written ++
          [cmdFrame 0x4f (cmdStream exampleDut.mId HostIoToDut.READ_OPCODE
              (exampleDut.mOutputWidth + 1)),
            tdoFrame 0x4f (exampleDut.mOutputWidth + 1)] ∧
        port1.readResults = exampleDutPort.readResults.tail) ∧
      ∀ rResult : BitBuffer, rResult ≠ [] → HostIoToDut.Read 0x4f exampleDut rResult = none) :=
  ⟨by decide, rfl, by decide, by decide,
    c30_dut_read_leaves_output_width_bits 0x4f exampleDut exampleDutPort (by decide) rfl
      (by decide) (by decide)⟩

end Xstools

namespace Xstools
open BitBuffer JtagPort

/-! ## Claims on the error object, the API and the USB port -/

/-- C31: for error objects `a` and `b` (objects exist only with a severity below
Fatal), `a | b` is an object whose severity is the larger of the two severities in
the order None, Minor, Major, Fatal, so it is an error exactly when `a` or `b` is one;
its message is the message of `a` followed by the message of `b`, with the separator
newline `- AND -` newline between them when both are errors, and without the message
of `b` when `b` is not an error. -/
theorem c31_or_keeps_max_severity_and_joins_messages (a b : XsError) (ha : a.NonFatal)
    (hb : b.NonFatal) :
    ∃ c : XsError, XsError.or a b = some c ∧
      c.mSeverity.code = max a.mSeverity.code b.mSeverity.code ∧
      c.IsError = (a.IsError || b.IsError) ∧
      c.mMsg =
        (if a.IsError = true ∧ b.IsError = true then a.mMsg ++ "\n- AND -\n".toList ++ b.mMsg
          else if b.IsError = true then a.mMsg ++ b.mMsg else a.mMsg) := by
  obtain ⟨sa, ma⟩ := a
  obtain ⟨sb, mb⟩ := b
  cases sa <;> cases sb <;>
    simp [XsError.NonFatal] at ha hb <;>
    simp [XsError.or, XsError.orAssign, XsError.IsError, XsError.MAX, XsError.SetSeverity,
      ErrorSeverityType.code]

/-- C31 for a Minor error with message "a" and a Major error with message "b". -/
theorem c31_or_keeps_max_severity_and_joins_messages_witness :
    (XsError.mk .MINOR_XS_ERROR ['a']).NonFatal ∧ (XsError.mk .MAJOR_XS_ERROR ['b']).NonFatal ∧
    ∃ c : XsError,
      XsError.or (XsError.mk .MINOR_XS_ERROR ['a']) (XsError.mk .MAJOR_XS_ERROR ['b']) = some c ∧
      c.mSeverity.code
        = max (XsError.mk .MINOR_XS_ERROR ['a']).mSeverity.code
            (XsError.mk .MAJOR_XS_ERROR ['b']).mSeverity.code ∧
      c.IsError = ((XsError.mk .MINOR_XS_ERROR ['a']).IsError ||
        (XsError.mk .MAJOR_XS_ERROR ['b']).IsError) ∧
      c.mMsg =
        (if (XsError.mk .MINOR_XS_ERROR ['a']).IsError = true ∧
            (XsError.mk .MAJOR_XS_ERROR ['b']).IsError = true then
          (XsError.mk .MINOR_XS_ERROR ['a']).mMsg ++ "\n- AND -\n".toList ++
            (XsError.mk .MAJOR_XS_ERROR ['b']).mMsg
          else if (XsError.mk .MAJOR_XS_ERROR ['b']).IsError = true then
            (XsError.mk .MINOR_XS_ERROR ['a']).mMsg ++ (XsError.mk .MAJOR_XS_ERROR ['b']).mMsg
          else (XsError.mk .MINOR_XS_ERROR ['a']).mMsg) :=
  ⟨by decide, by decide,
    c31_or_keeps_max_severity_and_joins_messages (XsError.mk .MINOR_XS_ERROR ['a'])
      (XsError.mk .MAJOR_XS_ERROR ['b']) (by decide) (by decide)⟩

end Xstools

namespace Xstools
open BitBuffer JtagPort

theorem XsMemReadLoop_eq : ∀ (k i : Nat) (data pData : List Nat), k ≤ data.length →
    i + k ≤ pData.length →
    XsMemReadLoop k i data pData = some (pData.take i ++ data.take k ++ pData.drop (i + k)) := by
  intro k
  induction k with
  | zero => intro i data pData _ _; simp [XsMemReadLoop]
  | succ k ih =>
      intro i data pData hd hp
      cases data with
      | nil => simp at hd
      | cons v rest =>
          have hi : i < pData.length := by omega
          rw [XsMemReadLoop]
          simp only [if_pos hi]
          rw [ih (i + 1) rest (pData.set i v) (by simpa using hd) (by simp; omega)]
          have hset : pData.set i v = pData.take i ++ v :: pData.drop (i + 1) := by
            rw [List.set_eq_take_append_cons_drop, if_pos hi]
          have hlen : (pData.take i).length = i := by simp; omega
          have htake : (pData.set i v).take (i + 1) = pData.take i ++ [v] := by
            rw [hset, List.take_append_eq_append_take, hlen,
              List.take_of_length_le (by rw [hlen]; omega)]
            simp
          have hdrop : (pData.set i v).drop (i + 1 + k) = pData.drop (i + (k + 1)) := by
            rw [hset, List.drop_append_eq_append_drop, hlen,
              List.drop_of_length_le (by rw [hlen]; omega)]
            simp only [List.nil_append, show i + 1 + k - i = k + 1 by omega, List.drop_succ_cons,
              List.drop_drop]
            congr 1
            omega
          rw [htake, hdrop]
          simp

theorem HostIoToMemory.Read_length (jc : Nat) (m : HostIoToMemory) (address n : Nat)
    (r : XsError × HostIoToMemory × List Nat)
    (h : HostIoToMemory.Read jc m address n [] = some r) : r.2.2.length = n ∧ 0 < n := by
  unfold HostIoToMemory.Read at h
  split at h
  · rename_i hn
    refine ⟨?_, hn⟩
    split at h
    · simp [XsError.construct, XsError.SetSeverity] at h
    · obtain ⟨payload, _, h⟩ := Option.bind_eq_some.mp h
      obtain ⟨r0, _, h⟩ := Option.bind_eq_some.mp h
      obtain ⟨mem, _, h⟩ := Option.bind_eq_some.mp h
      obtain ⟨l, _, h⟩ := Option.bind_eq_some.mp h
      split at h
      · rename_i hl
        simp only [Option.some.injEq] at h
        rw [← h]
        exact hl
      · simp at h
  · simp at h

end Xstools

namespace Xstools
open BitBuffer JtagPort

/-- C32: whatever the multi-word `Read` returns, `XsMemRead` returns 1 when that
error object is an error, otherwise 2 when the number of values in the queue differs
from `nData` (which the closing assertion of `Read` never lets happen), otherwise 0;
in the 0 case, for an array of at least `nData` elements, `pData[i]` holds the `i`-th
value of the queue for every `i < nData` and the rest of the array is unchanged, and
in the other cases the array is unchanged. -/
theorem c32_xs_mem_read_status_codes (jc : Nat) (m : HostIoToMemory) (addr nData : Nat)
    (pData : List Nat) (r : XsError × HostIoToMemory × List Nat)
    (hr : HostIoToMemory.Read jc m addr nData [] = some r) :
    (r.1.IsError = true → XsMemRead jc m addr pData nData = some (1, r.2.1, pData)) ∧
      (r.1.IsError = false → r.2.2.length ≠ nData →
        XsMemRead jc m addr pData nData = some (2, r.2.1, pData)) ∧
      (r.1.IsError = false → r.2.2.length = nData → nData ≤ pData.length →
        XsMemRead jc m addr pData nData = some (0, r.2.1, r.2.2 ++ pData.drop nData) ∧
        ∀ i, i < nData → (r.2.2 ++ pData.drop nData).getD i 0 = r.2.2.getD i 0) ∧
      r.2.2.length = nData := by
  refine ⟨?_, ?_, ?_, (HostIoToMemory.Read_length jc m addr nData r hr).1⟩
  · intro he
    simp [XsMemRead, hr, he]
  · intro he hl
    simp [XsMemRead, hr, he, hl]
  · intro he hl hp
    constructor
    · rw [XsMemRead, hr, Option.some_bind, if_neg (by simp [he]), if_neg (by simp [hl]),
        XsMemReadLoop_eq nData 0 r.2.2 pData (by omega) (by omega)]
      simp [← hl]
    · intro i hi
      rw [List.getD_append _ _ _ _ (by omega)]

/-- C32 for the read of 3 values from address `0x10` on `exampleMemory`, into an array
of 4 elements. -/
theorem c32_xs_mem_read_status_codes_witness :
    HostIoToMemory.Read 0x4f exampleMemory 0x10 3 [] = some exampleReadResult ∧
    ((exampleReadResult.1.IsError = true →
        XsMemRead 0x4f exampleMemory 0x10 [7, 7, 7, 7] 3
          = some (1, exampleReadResult.2.1, [7, 7, 7, 7])) ∧
      (exampleReadResult.1.IsError = false → exampleReadResult.2.2.length ≠ 3 →
        XsMemRead 0x4f exampleMemory 0x10 [7, 7, 7, 7] 3
          = some (2, exampleReadResult.2.1, [7, 7, 7, 7])) ∧
      (exampleReadResult.1.IsError = false → exampleReadResult.2.2.length = 3 →
          3 ≤ [7, 7, 7, 7].length →
        XsMemRead 0x4f exampleMemory 0x10 [7, 7, 7, 7] 3
          = some (0, exampleReadResult.2.1, exampleReadResult.2.2 ++ [7, 7, 7, 7].drop 3) ∧
        ∀ i, i < 3 → (exampleReadResult.2.2 ++ [7, 7, 7, 7].drop 3).getD i 0
          = exampleReadResult.2.2.getD i 0) ∧
      exampleReadResult.2.2.length = 3) :=
  ⟨by decide,
    c32_xs_mem_read_status_codes 0x4f exampleMemory 0x10 3 [7, 7, 7, 7] exampleReadResult
      (by decide)⟩

end Xstools

namespace Xstools
open BitBuffer JtagPort

namespace LibusbPort

theorem construct_fatal (msg : List Char) : XsError.construct .FATAL_XS_ERROR msg = none := rfl

theorem LibusbOpen_some (p : LibusbPort) (lib : UsbLibrary) (dir : UsbDirectionType)
    (h : HandleType) (r : XsError × HandleType × UsbLibrary)
    (hr : LibusbOpen p lib dir h = some r) :
    r.1 = XsError.noError ∧ r.2.1.mIsOpen = true ∧
      (h.mIsOpen = true → r.2.1 = h ∧ r.2.2 = lib) ∧
      (h.mIsOpen = false →
        r.2.1.mEndpoint = if dir = .DIR_PERIPH_TO_HOST then p.mEndpoint + 0x80 else p.mEndpoint) := by
  unfold LibusbOpen at hr
  split at hr
  · rename_i hopen
    simp only [Option.some.injEq] at hr
    rw [← hr]
    exact ⟨rfl, hopen, fun _ => ⟨rfl, rfl⟩, fun hc => by rw [hopen] at hc; simp at hc⟩
  · rename_i hclosed
    split at hr
    · split at hr
      · simp [construct_fatal] at hr
      · split at hr
        · simp at hr
        · split at hr
          · simp [construct_fatal] at hr
          · simp only [Option.some.injEq] at hr
            rw [← hr]
            exact ⟨rfl, rfl, fun hc => absurd hc hclosed, fun _ => rfl⟩
    · simp [construct_fatal] at hr

theorem OpenLoopTo_open (i : Nat) (p : LibusbPort) (lib : UsbLibrary) (e : XsError)
    (h : p.mHandleToPeriph.mIsOpen = true) : OpenLoopTo i p lib e = some (e, p, lib) := by
  cases i <;> simp [OpenLoopTo, h]

theorem OpenLoopFrom_open (i : Nat) (p : LibusbPort) (lib : UsbLibrary) (e : XsError)
    (h : p.mHandleFromPeriph.mIsOpen = true) : OpenLoopFrom i p lib e = some (e, p, lib) := by
  cases i <;> simp [OpenLoopFrom, h]

theorem OpenLoopTo_some (i : Nat) (p : LibusbPort) (lib : UsbLibrary)
    (r : XsError × LibusbPort × UsbLibrary)
    (hr : OpenLoopTo (i + 1) p lib XsError.noError = some r) :
    r.1 = XsError.noError ∧ r.2.1.mHandleToPeriph.mIsOpen = true ∧
      r.2.1.mHandleFromPeriph = p.mHandleFromPeriph ∧ r.2.1.mEndpoint = p.mEndpoint ∧
      (p.mHandleToPeriph.mIsOpen = false → r.2.1.mHandleToPeriph.mEndpoint = p.mEndpoint) := by
  by_cases hopen : p.mHandleToPeriph.mIsOpen = true
  · rw [OpenLoopTo_open _ _ _ _ hopen] at hr
    simp only [Option.some.injEq] at hr
    rw [← hr]
    exact ⟨rfl, hopen, rfl, rfl, fun hc => by rw [hopen] at hc; simp at hc⟩
  · have hclosed : p.mHandleToPeriph.mIsOpen = false := by simpa using hopen
    rw [OpenLoopTo] at hr
    simp only [hclosed, Bool.not_false, if_true] at hr
    obtain ⟨r1, hr1, hr⟩ := Option.bind_eq_some.mp hr
    obtain ⟨he, ho, _, hep⟩ := LibusbOpen_some _ _ _ _ _ hr1
    rw [OpenLoopTo_open _ _ _ _ (by exact ho)] at hr
    simp only [Option.some.injEq] at hr
    rw [← hr]
    refine ⟨he, ho, rfl, rfl, fun _ => ?_⟩
    have := hep hclosed
    simpa using this

theorem OpenLoopFrom_some (i : Nat) (p : LibusbPort) (lib : UsbLibrary)
    (r : XsError × LibusbPort × UsbLibrary)
    (hr : OpenLoopFrom (i + 1) p lib XsError.noError = some r) :
    r.1 = XsError.noError ∧ r.2.1.mHandleFromPeriph.mIsOpen = true ∧
      r.2.1.mHandleToPeriph = p.mHandleToPeriph ∧
      (p.mHandleFromPeriph.mIsOpen = false →
        r.2.1.mHandleFromPeriph.mEndpoint = p.mEndpoint + 0x80) := by
  by_cases hopen : p.mHandleFromPeriph.mIsOpen = true
  · rw [OpenLoopFrom_open _ _ _ _ hopen] at hr
    simp only [Option.some.injEq] at hr
    rw [← hr]
    exact ⟨rfl, hopen, rfl, fun hc => by rw [hopen] at hc; simp at hc⟩
  · have hclosed : p.mHandleFromPeriph.mIsOpen = false := by simpa using hopen
    rw [OpenLoopFrom] at hr
    simp only [hclosed, Bool.not_false, if_true] at hr
    obtain ⟨r1, hr1, hr⟩ := Option.bind_eq_some.mp hr
    obtain ⟨he, ho, _, hep⟩ := LibusbOpen_some _ _ _ _ _ hr1
    rw [he, XsError.orAssign_noError_noError, Option.some_bind,
      OpenLoopFrom_open _ _ _ _ (by exact ho)] at hr
    simp only [Option.some.injEq] at hr
    rw [← hr]
    refine ⟨rfl, ho, rfl, fun _ => ?_⟩
    have := hep hclosed
    simpa using this

theorem Open_some (p : LibusbPort) (lib : UsbLibrary) (numTrials : Nat)
    (r : XsError × LibusbPort × UsbLibrary) (hr : Open p lib numTrials = some r)
    (ht : 0 < OpenTrials numTrials) :
    r.1 = XsError.noError ∧ r.2.1.mHandleToPeriph.mIsOpen = true ∧
      r.2.1.mHandleFromPeriph.mIsOpen = true ∧
      (p.mHandleToPeriph.mIsOpen = false → r.2.1.mHandleToPeriph.mEndpoint = p.mEndpoint) ∧
      (p.mHandleFromPeriph.mIsOpen = false →
        r.2.1.mHandleFromPeriph.mEndpoint = p.mEndpoint + 0x80) := by
  obtain ⟨t, ht1⟩ : ∃ t, OpenTrials numTrials = t + 1 := ⟨OpenTrials numTrials - 1, by omega⟩
  rw [Open, ht1] at hr
  obtain ⟨r1, hr1, hr⟩ := Option.bind_eq_some.mp hr
  obtain ⟨he1, ho1, hf1, hep1, hto1⟩ := OpenLoopTo_some _ _ _ _ hr1
  rw [he1] at hr
  simp only [show XsError.noError.IsError = false from rfl, Bool.not_false, if_true] at hr
  obtain ⟨r2, hr2, hr⟩ := Option.bind_eq_some.mp hr
  obtain ⟨he2, ho2, ht2, hfrom2⟩ := OpenLoopFrom_some _ _ _ _ hr2
  rw [he2] at hr
  simp only [show XsError.noError.IsError = false from rfl, Bool.false_eq_true, if_false,
    Option.some.injEq] at hr
  rw [← hr]
  refine ⟨he2, by rw [ht2]; exact ho1, ho2, fun hc => by rw [ht2]; exact hto1 hc, fun hc => ?_⟩
  rw [hfrom2 (by rw [hf1]; exact hc), hep1]

end LibusbPort
end Xstools

namespace Xstools
open BitBuffer JtagPort

/-- C33: for every endpoint number `e`, a number from 0 to 127 (bit 7 of an endpoint
address is the direction bit, not part of the number), when `Open` returns after at
least one trial on a port whose two handles were closed, both handles are open, the
handle to the peripheral has the endpoint `e` and the handle from the peripheral has
the endpoint `e | 0x80`, which the code computes as `e + 0x80`. -/
theorem c33_open_sets_both_endpoints (p : LibusbPort) (lib : UsbLibrary) (numTrials : Nat)
    (r : XsError × LibusbPort × UsbLibrary) (hr : LibusbPort.Open p lib numTrials = some r)
    (ht : 0 < LibusbPort.OpenTrials numTrials)
    (hto : p.mHandleToPeriph.mIsOpen = false) (hfrom : p.mHandleFromPeriph.mIsOpen = false)
    (h0 : 0 ≤ p.mEndpoint) (h1 : p.mEndpoint < 128) :
    r.2.1.mHandleToPeriph.mIsOpen = true ∧ r.2.1.mHandleFromPeriph.mIsOpen = true ∧
      r.2.1.mHandleToPeriph.mEndpoint = p.mEndpoint ∧
      r.2.1.mHandleFromPeriph.mEndpoint = p.mEndpoint + 0x80 ∧
      r.2.1.mHandleFromPeriph.mEndpoint = Int.lor p.mEndpoint 0x80 := by
  obtain ⟨_, ho1, ho2, he1, he2⟩ := LibusbPort.Open_some p lib numTrials r hr ht
  refine ⟨ho1, ho2, he1 hto, he2 hfrom, ?_⟩
  rw [he2 hfrom]
  generalize p.mEndpoint = e at h0 h1
  interval_cases e <;> decide

/-- C33 for the port of the API, whose endpoint is 1. -/
theorem c33_open_sets_both_endpoints_witness :
    LibusbPort.Open exampleLibusbPort exampleUsbLibrary 1
      = some (XsError.noError,
          { exampleLibusbPort with
            mHandleToPeriph := ⟨true, some 1, 1⟩
            mHandleFromPeriph := ⟨true, some 2, 0x81⟩ },
          ⟨[], [], [], []⟩) ∧
    0 < LibusbPort.OpenTrials 1 ∧
    exampleLibusbPort.mHandleToPeriph.mIsOpen = false ∧
    exampleLibusbPort.mHandleFromPeriph.mIsOpen = false ∧
    0 ≤ exampleLibusbPort.mEndpoint ∧ exampleLibusbPort.mEndpoint < 128 ∧
    ((⟨true, some 1, 1⟩ : HandleType).mIsOpen = true ∧
      (⟨true, some 2, 0x81⟩ : HandleType).mIsOpen = true ∧
      (⟨true, some 1, 1⟩ : HandleType).mEndpoint = exampleLibusbPort.mEndpoint ∧
      (⟨true, some 2, 0x81⟩ : HandleType).mEndpoint = exampleLibusbPort.mEndpoint + 0x80 ∧
      (⟨true, some 2, 0x81⟩ : HandleType).mEndpoint
        = Int.lor exampleLibusbPort.mEndpoint 0x80) :=
  ⟨by decide, by decide, by decide, by decide, by decide, by decide,
    c33_open_sets_both_endpoints exampleLibusbPort exampleUsbLibrary 1
      (XsError.noError,
        { exampleLibusbPort with
          mHandleToPeriph := ⟨true, some 1, 1⟩
          mHandleFromPeriph := ⟨true, some 2, 0x81⟩ },
        ⟨[], [], [], []⟩)
      (by decide) (by decide) (by decide) (by decide) (by decide) (by decide)⟩

end Xstools

namespace Xstools
open BitBuffer JtagPort

namespace JtagPort

theorem FlushWrite_some (port : Port) (p : JtagPort) (error : XsError) (wb : List Nat)
    (r : XsError × JtagPort) (h : FlushWrite port p error wb = some r) :
    r.2.mTmsBitBuffer = [] ∧ r.2.mTdiBitBuffer = [] ∧ r.2.mTapState = p.mTapState := by
  unfold FlushWrite at h
  split at h
  · simp at h
  · obtain ⟨e1, _, h⟩ := Option.bind_eq_some.mp h
    split at h
    · rename_i hempty
      simp only [Option.some.injEq] at h
      rw [← h]
      simp only [IsBufferEmpty, Bool.and_eq_true, decide_eq_true_eq] at hempty
      exact ⟨hempty.1, hempty.2, rfl⟩
    · simp at h

theorem FlushFuel_some (jc : Nat) : ∀ (k : Nat) (p : JtagPort) (r : XsError × JtagPort),
    FlushFuel jc k p = some r →
    r.2.mTmsBitBuffer = [] ∧ r.2.mTdiBitBuffer = [] ∧ r.2.mTapState = p.mTapState := by
  intro k
  induction k with
  | zero => intro p r h; simp [FlushFuel] at h
  | succ k ih =>
      intro p r h
      rw [FlushFuel] at h
      by_cases hem : IsBufferEmpty p = true
      · rw [if_pos hem] at h; cases h
      · rw [if_neg hem] at h
        cases hp : p.mpPhysPort with
        | none => rw [hp] at h; cases h
        | some port =>
          rw [hp] at h
          simp only [] at h
          by_cases htdi : p.mTdiBitBuffer = []
          · rw [if_pos htdi] at h
            obtain ⟨e1, _, h⟩ := Option.bind_eq_some.mp h
            obtain ⟨w, _, h⟩ := Option.bind_eq_some.mp h
            obtain ⟨e2, _, h⟩ := Option.bind_eq_some.mp h
            have hw := FlushWrite_some _ _ _ _ _ h
            exact hw
          · rw [if_neg htdi] at h
            by_cases htms : p.mTmsBitBuffer = []
            · rw [if_pos htms] at h
              obtain ⟨e1, _, h⟩ := Option.bind_eq_some.mp h
              obtain ⟨w, _, h⟩ := Option.bind_eq_some.mp h
              obtain ⟨e2, _, h⟩ := Option.bind_eq_some.mp h
              have hw := FlushWrite_some _ _ _ _ _ h
              exact hw
            · rw [if_neg htms] at h
              by_cases hlen : p.mTmsBitBuffer.length = p.mTdiBitBuffer.length
              · rw [if_pos hlen] at h
                obtain ⟨e1, _, h⟩ := Option.bind_eq_some.mp h
                obtain ⟨tms, _, h⟩ := Option.bind_eq_some.mp h
                obtain ⟨e2, _, h⟩ := Option.bind_eq_some.mp h
                obtain ⟨tdi, _, h⟩ := Option.bind_eq_some.mp h
                obtain ⟨e3, _, h⟩ := Option.bind_eq_some.mp h
                obtain ⟨wb, _, h⟩ := Option.bind_eq_some.mp h
                obtain ⟨e4, _, h⟩ := Option.bind_eq_some.mp h
                have hw := FlushWrite_some _ _ _ _ _ h
                exact hw
              · rw [if_neg hlen] at h
                by_cases hone : p.mTmsBitBuffer.length = 1
                · rw [if_pos hone] at h
                  obtain ⟨b1, _, h⟩ := Option.bind_eq_some.mp h
                  obtain ⟨tms1, _, h⟩ := Option.bind_eq_some.mp h
                  obtain ⟨b2, _, h⟩ := Option.bind_eq_some.mp h
                  obtain ⟨tdi1, _, h⟩ := Option.bind_eq_some.mp h
                  obtain ⟨r1, hr1, h⟩ := Option.bind_eq_some.mp h
                  obtain ⟨e1, _, h⟩ := Option.bind_eq_some.mp h
                  obtain ⟨tms2, _, h⟩ := Option.bind_eq_some.mp h
                  obtain ⟨tdi2, _, h⟩ := Option.bind_eq_some.mp h
                  obtain ⟨r2, hr2, h⟩ := Option.bind_eq_some.mp h
                  obtain ⟨e2, _, h⟩ := Option.map_eq_some'.mp h
                  obtain ⟨_, _, hs1⟩ := ih _ _ hr1
                  obtain ⟨ht2, hd2, hs2⟩ := ih _ _ hr2
                  rw [← h]
                  exact ⟨ht2, hd2, by rw [hs2]; exact hs1⟩
                · rw [if_neg hone] at h
                  simp at h

theorem Flush_some (jc : Nat) (p : JtagPort) (r : XsError × JtagPort)
    (h : Flush jc p = some r) :
    r.2.mTmsBitBuffer = [] ∧ r.2.mTdiBitBuffer = [] ∧ r.2.mTapState = p.mTapState :=
  FlushFuel_some jc 2 p r h

theorem Flush_supported (jc : Nat) (port : Port) (s : TapStateType) (tms tdi : BitBuffer)
    (h : SupportedShape tms tdi) :
    ∃ r, Flush jc ⟨some port, s, tms, tdi⟩ = some r := by
  unfold Flush
  rcases h with ⟨h1, h2⟩ | ⟨h1, h2⟩ | ⟨h1, h2⟩ | ⟨h1, h2⟩
  · subst h2
    exact ⟨_, FlushFuel_tms_only jc 1 port s tms h1⟩
  · subst h1
    exact ⟨_, FlushFuel_tdi_only jc 1 port s tdi h2⟩
  · exact ⟨_, FlushFuel_equal jc 1 port s tms tdi h1 h2⟩
  · obtain ⟨t, rfl⟩ : ∃ t, tms = [t] := by
      cases tms with
      | nil => simp at h1
      | cons t rest =>
          cases rest with
          | nil => exact ⟨t, rfl⟩
          | cons _ _ => simp at h1
    obtain ⟨err, _, hfl⟩ := FlushFuel_split jc 0 port s t tdi h2
    exact ⟨_, hfl⟩

end JtagPort

/-- C34: on an object with a physical port `Flush` returns for every pair of buffer
contents of a supported shape (TMS bits only, TDI bits only, both of the same length,
or exactly one TMS bit with two or more TDI bits), and whenever `Flush` returns, on
any object, the TMS and the TDI bit buffer are both empty and the software TAP state
is what it was. -/
theorem c34_flush_leaves_both_buffers_empty (jc : Nat) (port : Port) (s : TapStateType)
    (tms tdi : BitBuffer) (hshape : SupportedShape tms tdi) :
    (∃ r, Flush jc ⟨some port, s, tms, tdi⟩ = some r) ∧
      ∀ (p : JtagPort) (r : XsError × JtagPort), Flush jc p = some r →
        r.2.mTmsBitBuffer = [] ∧ r.2.mTdiBitBuffer = [] ∧ r.2.mTapState = p.mTapState := by
  exact ⟨Flush_supported jc port s tms tdi hshape, fun p r hr => Flush_some jc p r hr⟩

/-- C34 for one TMS bit with three TDI bits. -/
theorem c34_flush_leaves_both_buffers_empty_witness :
    SupportedShape [true] [true, false, true] ∧
    ((∃ r, Flush 0x4f ⟨some ⟨[], [], [], []⟩, .SHIFT_DR, [true], [true, false, true]⟩ = some r) ∧
      ∀ (p : JtagPort) (r : XsError × JtagPort), Flush 0x4f p = some r →
        r.2.mTmsBitBuffer = [] ∧ r.2.mTdiBitBuffer = [] ∧ r.2.mTapState = p.mTapState) :=
  ⟨by decide,
    c34_flush_leaves_both_buffers_empty 0x4f ⟨[], [], [], []⟩ .SHIFT_DR [true]
      [true, false, true] (by decide)⟩

end Xstools


namespace Xstools
open BitBuffer JtagPort

namespace JtagPort

end JtagPort
end Xstools

namespace Xstools
open BitBuffer JtagPort

end Xstools

namespace Xstools
open BitBuffer JtagPort

theorem unpackBits_split (bytes : List Nat) (n : Nat) :
    unpackBits bytes n
      = unpackBits bytes (8 * (n / 8)) ++ (List.range (n % 8)).map (bytes.getD (n / 8) 0).testBit := by
  have hn : n = 8 * (n / 8) + n % 8 := (Nat.div_add_mod n 8).symm
  conv_lhs => rw [unpackBits, hn, List.range_add, List.map_append, List.map_map]
  rw [unpackBits]
  congr 1
  apply List.map_congr_left
  intro j hj
  have hj8 : j < 8 := by
    have := List.mem_range.mp hj
    omega
  simp only [Function.comp_apply]
  rw [show (8 * (n / 8) + j) / 8 = n / 8 by omega, show (8 * (n / 8) + j) % 8 = j by omega]

theorem tdoBitsOf_eq_unpackBits (bytes : List Nat) (n : Nat)
    (h : n % 8 = 1 → bytes.getD (n / 8) 0 < 2) : tdoBitsOf bytes n = unpackBits bytes n := by
  rw [unpackBits_split, tdoBitsOf]
  by_cases h1 : n % 8 = 1
  · rw [if_pos h1, h1, single_bit_of_lt_two _ (h h1)]
    rfl
  · rw [if_neg h1]

theorem packedBytes_getD (bits : List Bool) (i : Nat) (hi : i < (bits.length + 7) / 8) :
    (packedBytes bits).getD i 0 = bitsVal ((bits.drop (8 * i)).take 8) := by
  rw [List.getD_eq_getElem _ _ (by rw [length_packedBytes]; exact hi)]
  simp [packedBytes]

theorem packedBytes_last_lt (bits : List Bool) (h : bits.length % 8 ≠ 0) :
    (packedBytes bits).getD (bits.length / 8) 0 < 2 ^ (bits.length % 8) := by
  rw [packedBytes_getD bits _ (by omega)]
  have hlen : ((bits.drop (8 * (bits.length / 8))).take 8).length = bits.length % 8 := by
    rw [List.length_take, List.length_drop]
    omega
  have := bitsVal_lt ((bits.drop (8 * (bits.length / 8))).take 8)
  rw [hlen] at this
  exact this

theorem tdoBitsOf_packedBytes (bits : List Bool) :
    tdoBitsOf (packedBytes bits) bits.length = bits := by
  rw [tdoBitsOf_eq_unpackBits _ _ (fun h1 => by
    have := packedBytes_last_lt bits (by omega)
    rw [h1] at this
    simpa using this), unpackBits_packedBytes]

/-- C36: for every bit sequence of length `n ≥ 1`, `PackBitsIntoWords` drains its
input and yields exactly `⌈n/8⌉` bytes, each below 256 and the last one, when `n` is
not a multiple of 8, below `2 ^ (n % 8)`, so its unused high bits are zero; and when
the port delivers these bytes, `ShiftTdo` for `n` bits, which unpacks them with its
loop and the push of the last `n % 8` bits, appends the original bit sequence to the
TDO buffer. -/
theorem c36_unpack_undoes_pack (jc : Nat) (port : Port) (s : TapStateType) (bits out : BitBuffer)
    (hn : 1 ≤ bits.length) (hs : s = .SHIFT_DR ∨ s = .SHIFT_IR)
    (hport : port.nextBytes = packedBytes bits) :
    PackBitsIntoWords bits [] = some ([], packedBytes bits) ∧
      (packedBytes bits).length = (bits.length + 7) / 8 ∧
      (∀ x ∈ packedBytes bits, x < 256) ∧
      (bits.length % 8 ≠ 0 →
        (packedBytes bits).getD (bits.length / 8) 0 < 2 ^ (bits.length % 8)) ∧
      ShiftTdoLoop (packedBytes bits) bits.length out
        = some (bits.length % 8, (packedBytes bits).drop (bits.length / 8),
            out ++ bits.take (8 * (bits.length / 8))) ∧
      ∃ (err : XsError) (p1 : JtagPort),
        ShiftTdo jc ⟨some port, s, [], []⟩ bits.length out false = some (err, p1, out ++ bits) := by
  have hne : bits ≠ [] := by
    intro h
    rw [h] at hn
    simp at hn
  refine ⟨?_, length_packedBytes bits, packedBytes_lt bits, packedBytes_last_lt bits, ?_, ?_⟩
  · rw [PackBitsIntoWords_eq bits [] hne]
    rfl
  · rw [ShiftTdoLoop_eq _ _ _ (by rw [length_packedBytes]; omega)]
    have h1 : unpackBits (packedBytes bits) (8 * (bits.length / 8))
        = bits.take (8 * (bits.length / 8)) := by
      have h2 := unpackBits_packedBytes bits
      have h3 := unpackBits_split (packedBytes bits) bits.length
      rw [h2] at h3
      have h4 := congrArg (List.take (8 * (bits.length / 8))) h3
      rw [List.take_left' (by simp [unpackBits])] at h4
      exact h4.symm
    rw [h1]
  · obtain ⟨err, _, h⟩ := ShiftTdoStay_eq jc port s bits.length out hs
      (by rw [hport, length_packedBytes])
    rw [hport, tdoBitsOf_packedBytes] at h
    exact ⟨err, _, by rw [ShiftTdo, if_neg (by simp)]; exact h⟩

/-- C36 for the nine bits 1, 0, 1, 1, 0, 0, 1, 0, 1. -/
theorem c36_unpack_undoes_pack_witness :
    1 ≤ [true, false, true, true, false, false, true, false, true].length ∧
    (TapStateType.SHIFT_DR = .SHIFT_DR ∨ TapStateType.SHIFT_DR = .SHIFT_IR) ∧
    (Port.mk [] [] [] [(PortStatus.ok, [77, 1])]).nextBytes
      = packedBytes [true, false, true, true, false, false, true, false, true] ∧
    (PackBitsIntoWords [true, false, true, true, false, false, true, false, true] []
        = some ([], packedBytes [true, false, true, true, false, false, true, false, true]) ∧
      (packedBytes [true, false, true, true, false, false, true, false, true]).length
        = ([true, false, true, true, false, false, true, false, true].length + 7) / 8 ∧
      (∀ x ∈ packedBytes [true, false, true, true, false, false, true, false, true], x < 256) ∧
      ([true, false, true, true, false, false, true, false, true].length % 8 ≠ 0 →
        (packedBytes [true, false, true, true, false, false, true, false, true]).getD
            ([true, false, true, true, false, false, true, false, true].length / 8) 0
          < 2 ^ ([true, false, true, true, false, false, true, false, true].length % 8)) ∧
      ShiftTdoLoop (packedBytes [true, false, true, true, false, false, true, false, true])
          [true, false, true, true, false, false, true, false, true].length []
        = some ([true, false, true, true, false, false, true, false, true].length % 8,
            (packedBytes [true, false, true, true, false, false, true, false, true]).drop
              ([true, false, true, true, false, false, true, false, true].length / 8),
            [] ++ [true, false, true, true, false, false, true, false, true].take
              (8 * ([true, false, true, true, false, false, true, false, true].length / 8))) ∧
      ∃ (err : XsError) (p1 : JtagPort),
        ShiftTdo 0x4f ⟨some (Port.mk [] [] [] [(PortStatus.ok, [77, 1])]), .SHIFT_DR, [], []⟩
            [true, false, true, true, false, false, true, false, true].length [] false
          = some (err, p1, [] ++ [true, false, true, true, false, false, true, false, true])) :=
  ⟨by decide, by decide, by decide,
    c36_unpack_undoes_pack 0x4f (Port.mk [] [] [] [(PortStatus.ok, [77, 1])]) .SHIFT_DR
      [true, false, true, true, false, false, true, false, true] [] (by decide) (by decide)
      (by decide)⟩

end Xstools

namespace Xstools
open BitBuffer JtagPort

/-- C37: the table `nextTapState` is closed on the sixteen valid TAP states: no
transition from a valid state leads to INVALID, both transitions of INVALID lead to
INVALID, and for every valid state the TMS=0 successor differs from the TMS=1
successor; so when a TMS value leads from a valid state `s` to a state `t`, it is the
value `nextTapState[s][1] == t` that `GoThruTapStates` picks, and `ShiftTms` with the
value picked reaches `t`. -/
theorem c37_transition_table_is_closed :
    (∀ (s : TapStateType) (tms : Bool), s ≠ .INVALID_TAP_STATE →
        nextTapStateAt s tms ≠ .INVALID_TAP_STATE) ∧
      (∀ tms : Bool, nextTapStateAt .INVALID_TAP_STATE tms = .INVALID_TAP_STATE) ∧
      (∀ s : TapStateType, s ≠ .INVALID_TAP_STATE →
        nextTapStateAt s false ≠ nextTapStateAt s true) ∧
      (∀ (s t : TapStateType) (tms : Bool), s ≠ .INVALID_TAP_STATE →
        nextTapStateAt s tms = t →
        tms = decide (nextTapStateAt s true = t) ∧
        ∀ p : JtagPort, p.mTapState = s →
          (p.ShiftTms (decide (nextTapStateAt p.mTapState true = t))).mTapState = t) := by
  refine ⟨?_, ?_, ?_, ?_⟩
  · intro s tms
    cases s <;> cases tms <;> decide
  · intro tms
    cases tms <;> rfl
  · intro s
    cases s <;> decide
  · intro s t tms hs h
    have h1 : tms = decide (nextTapStateAt s true = t) := by
      revert hs h
      cases s <;> cases t <;> cases tms <;> decide
    refine ⟨h1, ?_⟩
    intro p hp
    rw [JtagPort.ShiftTms, hp]
    simp only []
    rw [← h1]
    exact h

end Xstools

namespace Xstools
open BitBuffer JtagPort

/-- C38 fails for 8 bits on a port whose `Read` fails with a Minor error and delivers
no bytes: the receive buffer is empty after the `Read`, and the unpacking loop, which
runs once for 8 bits, takes the front of that empty buffer, so `ShiftTdo` has no
defined result, with or without `exit_shift` (with it, the 7 bits read first are
pushed from the front of the empty buffer after the loop). With `exit_shift` and
one bit, on a port that delivers nothing to the zero-byte read and one byte to the
second read, no front of an empty buffer is taken and the bit is returned. -/
theorem c38_failed_read_takes_front_of_empty_buffer :
    ((exampleFailingPort.Write (tdoFrame 0x4f 8)).2.Read 1 []).2.2 = [] ∧
      ((exampleFailingPort.Write (tdoFrame 0x4f 8)).2.Read 1 []).1
        = ⟨.MINOR_XS_ERROR, "Read of WINUSB device failed.".toList⟩ ∧
      ShiftTdoLoop [] 8 [] = none ∧
      ShiftTdo 0x4f ⟨some exampleFailingPort, .SHIFT_DR, [], []⟩ 8 [] false = none ∧
      ShiftTdoLoop [] 7 [] = some (7, [], []) ∧
      ShiftTdo 0x4f ⟨some exampleFailingPort, .SHIFT_DR, [], []⟩ 8 [] true = none ∧
      (ShiftTdo 0x4f
          ⟨some ⟨[], [], [], [(PortStatus.ok, []), (PortStatus.ok, [1])]⟩, .SHIFT_DR, [], []⟩
          1 [] true).map (fun r => r.2.2) = some [true] := by
  decide

/-- C39, as stated, fails before `GetSize`: on `exampleFreshMemory`, whose module id
is empty, the multi-word `Read` for one value does not return early with an error and
an empty queue, it does not return at all (the Fatal error object cannot be built),
and so the single-word `Read` yields no value either. -/
theorem c39_single_word_read_before_get_size_aborts :
    exampleFreshMemory.mId = [] ∧
      HostIoToMemory.Read 0x4f exampleFreshMemory 0x10 1 [] = none ∧
      HostIoToMemory.ReadWord 0x4f exampleFreshMemory 0x10 = none := by
  decide

/-- C39, amended: in every client state, whenever the multi-word `Read` for one value
returns, its queue holds exactly one value, and the single-word `Read` takes the front
of that non-empty queue: it returns with the same error and object, and its value is
the first value of the multi-word `Read`; and when the multi-word `Read` does not
return, as before `GetSize`, the single-word `Read` does not return either. -/
theorem c39_single_word_read_takes_first_value (jc : Nat) (m : HostIoToMemory) (address : Nat)
    (r : XsError × HostIoToMemory × List Nat)
    (hr : HostIoToMemory.Read jc m address 1 [] = some r) :
    r.2.2 ≠ [] ∧ r.2.2.length = 1 ∧ m.mId ≠ [] ∧
      HostIoToMemory.ReadWord jc m address
        = some (r.1, { r.2.1 with mLastError := r.1 }, r.2.2.headD 0) ∧
      ∀ m0 : HostIoToMemory, HostIoToMemory.Read jc m0 address 1 [] = none →
        HostIoToMemory.ReadWord jc m0 address = none := by
  obtain ⟨hlen, _⟩ := HostIoToMemory.Read_length jc m address 1 r hr
  have hid : m.mId ≠ [] := by
    intro h
    rw [HostIoToMemory.Read, if_pos (by decide), if_pos h] at hr
    simp [XsError.construct, XsError.SetSeverity] at hr
  obtain ⟨e, m1, vals⟩ := r
  cases vals with
  | nil => simp at hlen
  | cons v rest =>
      refine ⟨by simp, hlen, hid, ?_, ?_⟩
      · simp [HostIoToMemory.ReadWord, hr]
      · intro m0 h0
        simp [HostIoToMemory.ReadWord, h0]

/-- C39, amended, for the read of address `0x10` on `exampleWordMemory`. -/
theorem c39_single_word_read_takes_first_value_witness :
    HostIoToMemory.Read 0x4f exampleWordMemory 0x10 1 [] = some exampleWordResult ∧
    (exampleWordResult.2.2 ≠ [] ∧ exampleWordResult.2.2.length = 1 ∧
      exampleWordMemory.mId ≠ [] ∧
      HostIoToMemory.ReadWord 0x4f exampleWordMemory 0x10
        = some (exampleWordResult.1,
            { exampleWordResult.2.1 with mLastError := exampleWordResult.1 },
            exampleWordResult.2.2.headD 0) ∧
      ∀ m0 : HostIoToMemory, HostIoToMemory.Read 0x4f m0 0x10 1 [] = none →
        HostIoToMemory.ReadWord 0x4f m0 0x10 = none) :=
  ⟨by decide,
    c39_single_word_read_takes_first_value 0x4f exampleWordMemory 0x10 exampleWordResult
      (by decide)⟩

/-- C40 fails for `numTrials = 0` on the port `exampleLibusbPort`, whose two handles
are closed: neither loop of `Open` runs, `Open` returns the object unchanged with no
error, and no handle is open; the same happens for `numTrials = 2 ^ 31`, which is
negative as an `int`. With one trial, on a library that finds and opens the device,
both handles are open. -/
theorem c40_open_with_zero_trials_opens_nothing :
    exampleLibusbPort.mHandleToPeriph.mIsOpen = false ∧
      exampleLibusbPort.mHandleFromPeriph.mIsOpen = false ∧
      LibusbPort.Open exampleLibusbPort exampleUsbLibrary 0
        = some (XsError.noError, exampleLibusbPort, exampleUsbLibrary) ∧
      XsError.noError.IsError = false ∧
      LibusbPort.Open exampleLibusbPort exampleUsbLibrary (2 ^ 31)
        = some (XsError.noError, exampleLibusbPort, exampleUsbLibrary) ∧
      (LibusbPort.Open exampleLibusbPort exampleUsbLibrary 1).map
          (fun r => (r.1, r.2.1.mHandleToPeriph.mIsOpen, r.2.1.mHandleFromPeriph.mIsOpen))
        = some (XsError.noError, true, true) ∧
      LibusbPort.Open exampleLibusbPort { exampleUsbLibrary with usb_open := [none] } 3
        = none := by
  decide

end Xstools
